import Mathlib

/-
Verification development for the SanctifyLive repository.

The Python content models (songs, themes, presentations, media, scripture)
store records as JSON dictionaries held in in-memory lists and mirrored to
JSON files. We shallowly embed those models here: JSON values become the
inductive type Json, Python dictionaries become association lists of
string keys (type Dict) with Python dictionary semantics (lookup of the
key, in-place replacement on assignment of an existing key, append for a
new key; keys of real Python dictionaries are unique, and every Dict the
code builds keeps that property). Stateful methods become pure functions
that take the current list of records and all environment inputs
(timestamps from datetime.now().isoformat(), fresh UUIDs from uuid.uuid4(),
the set of paths existing on disk) as explicit arguments and return
Except SanctifyError applied to the new state, mirroring each raise with
an error value. Since every Python raise in the modelled methods happens
before the method mutates the record list, an error result always leaves
the modelled collection exactly as it was.
-/

/- JSON values, the universe of data stored by the models. -/
inductive Json where
  | null
  | bool (b : Bool)
  | int (n : Int)
  | str (s : String)
  | arr (elems : List Json)
  | obj (fields : List (String × Json))

mutual

/- Equality test on JSON values, the embedding of the == comparison that
Python performs on values read from json.load. -/
def Json.beq : Json → Json → Bool
  | .null, .null => true
  | .bool a, .bool b => a == b
  | .int a, .int b => a == b
  | .str a, .str b => a == b
  | .arr xs, .arr ys => Json.beqList xs ys
  | .obj xs, .obj ys => Json.beqObj xs ys
  | _, _ => false

def Json.beqList : List Json → List Json → Bool
  | [], [] => true
  | x :: xs, y :: ys => Json.beq x y && Json.beqList xs ys
  | _, _ => false

def Json.beqObj : List (String × Json) → List (String × Json) → Bool
  | [], [] => true
  | (k1, v1) :: xs, (k2, v2) :: ys => k1 == k2 && Json.beq v1 v2 && Json.beqObj xs ys
  | _, _ => false

end

instance : BEq Json := ⟨Json.beq⟩

/- A Python dictionary with JSON values: an association list whose keys are
unique in every dictionary the code constructs. -/
abbrev Dict := List (String × Json)

/- Embedding of d[k] when it may be absent, and of d.get(k). -/
def dget : Dict → String → Option Json
  | [], _ => none
  | (k, v) :: rest, key => if k == key then some v else dget rest key

/- Embedding of d.get(k, default). -/
def dgetD (d : Dict) (key : String) (dflt : Json) : Json :=
  (dget d key).getD dflt

/- Embedding of the assignment d[k] = v: replace the value at the first
occurrence of the key, keeping its position, or append a new entry. On
dictionaries with unique keys this is exactly the Python semantics. -/
def dset : Dict → String → Json → Dict
  | [], key, val => [(key, val)]
  | (k, v) :: rest, key, val =>
    if k == key then (k, val) :: rest else (k, v) :: dset rest key val

/- Embedding of the membership test k in d. -/
def hasKey (d : Dict) (key : String) : Bool :=
  (dget d key).isSome

/- Embedding of d.update(other): assign every entry of other in order. -/
def dupdate (d other : Dict) : Dict :=
  other.foldl (fun acc kv => dset acc kv.1 kv.2) d

/- String lookup: some s exactly when the key is present with a string
value, the shape every validator checks with isinstance(x, str). -/
def dgetStr (d : Dict) (key : String) : Option String :=
  match dget d key with
  | some (Json.str s) => some s
  | _ => none

/- Reading a string field of a record that already passed validation, such
as song["title"] on a stored song. Validation guarantees the field is
present and a string, so the fallback "" is never reached on the states
the theorems quantify over. -/
def strField (d : Dict) (key : String) : String :=
  (dgetStr d key).getD ""

/- Embedding of the Python comparison d[k] == s for a string literal or
string variable s: equal exactly when the field holds that string. A
missing key would raise KeyError in Python; on the validated states used
by the theorems the fields compared this way are always present. -/
def keyEqStr (d : Dict) (key s : String) : Bool :=
  match dget d key with
  | some (Json.str t) => t == s
  | _ => false

/- Embedding of str.lower() restricted to the character-wise case mapping;
the titles and names in this codebase are compared with it. -/
def low (s : String) : String := ⟨s.data.map Char.toLower⟩

/- Whitespace test matching the characters str.strip() removes for the
ASCII range used by the data. -/
def isSpace (c : Char) : Bool :=
  c == ' ' || c == '\t' || c == '\n' || c == '\r'

/- Embedding of str.strip(): drop whitespace from both ends. -/
def pyStrip (s : String) : String :=
  ⟨((s.data.dropWhile isSpace).reverse.dropWhile isSpace).reverse⟩

/- Embedding of os.path.join for the two-argument relative-path calls the
models make. -/
def pjoin (a b : String) : String :=
  if a == "" then b else a ++ "/" ++ b

/- Index of the last occurrence of a character in a list, used to embed
os.path.splitext and str.rsplit with separator ".". -/
def lastIdxOf (c : Char) (l : List Char) : Option Nat :=
  match l.reverse.findIdx? (fun x => x == c) with
  | none => none
  | some j => some (l.length - 1 - j)

/- Characters after the last slash: the basename of a path. -/
def baseNameChars (p : String) : List Char :=
  ((p.data.reverse.takeWhile (fun c => c != '/'))).reverse

/- Embedding of os.path.splitext(p)[1]: the extension including the dot,
empty when the basename has no dot after a non-dot character. -/
def splitextExt (p : String) : String :=
  let base := baseNameChars p
  match lastIdxOf '.' base with
  | none => ""
  | some i => if (base.take i).any (fun c => c != '.') then ⟨base.drop i⟩ else ""

/- Embedding of s.rsplit(".", 1) when it yields two parts: split at the
last dot. A result of none corresponds to the one-element list Python
returns when the string has no dot, on which indexing element 1 raises
IndexError. -/
def rsplitDot1 (s : String) : Option (String × String) :=
  match lastIdxOf '.' s.data with
  | none => none
  | some i => some (⟨s.data.take i⟩, ⟨s.data.drop (i + 1)⟩)

/- SanctifyError, the single exception type of src/core/exceptions.py. The
constructor of the Python class receives a module, an error code and a raw
message and stores the formatted message. -/
structure SanctifyError where
  module : String
  error_code : String
  message : String

/- Embedding of SanctifyError.__init__: the stored message is always the
formatted string built from the module, the code and the raw message. -/
def mkSanctifyError (module error_code msg : String) : SanctifyError :=
  ⟨module, error_code, "[" ++ module ++ "] " ++ error_code ++ ": " ++ msg⟩

/-
Song model, from src/models/song_model.py. Songs live in the list
self.songs; every mutating method re-validates the candidate record and
raises before touching the list on any failure. The embedding passes the
timestamp datetime.now().isoformat() as the argument now.
-/

/- Embedding of the section check of SongModel._validate_song: a section
is a two-element list of strings. -/
def isStrStrPair : Json → Bool
  | Json.arr [Json.str _, Json.str _] => true
  | _ => false

/- Embedding of SongModel._validate_song. -/
def validateSong (song : Dict) : Bool :=
  (match dget song "title" with
   | some (Json.str s) => pyStrip s != ""
   | _ => false) &&
  (match dget song "sections" with
   | some (Json.arr xs) => xs.all isStrStrPair
   | _ => false) &&
  (match dget song "tags" with
   | some (Json.str _) => true
   | _ => false) &&
  (match dget song "created_at" with
   | some (Json.str _) => true
   | _ => false) &&
  (match dget song "updated_at" with
   | some (Json.str _) => true
   | _ => false)

/- Lower-cased title of a stored song, the value song["title"].lower()
computed on records that passed validation. -/
def titleLower (d : Dict) : String := low (strField d "title")

/- Embedding of SongModel.get_song_by_title: first song whose title equals
the argument case-insensitively. -/
def getSongByTitle (songs : List Dict) (title : String) : Option Dict :=
  songs.find? (fun s => titleLower s == low title)

/- Embedding of the statement pattern: if k not in d: d[k] = v. -/
def defaultField (d : Dict) (k : String) (v : Json) : Dict :=
  if hasKey d k then d else dset d k v

/- Record built by SongModel.add_song before validation: a copy of the
caller data with both timestamps set to now and missing sections and tags
defaulted. -/
def newSongRecord (song_data : Dict) (now : String) : Dict :=
  defaultField
    (defaultField (dset (dset song_data "created_at" (Json.str now)) "updated_at" (Json.str now))
      "sections" (Json.arr []))
    "tags" (Json.str "")

/- Embedding of SongModel.add_song. The Python method works on a copy of
song_data, overwrites both timestamps with now, defaults missing sections
and tags, validates, and only then appends and saves; every raise happens
before the append. A non-string title makes song_data.get("title",
"").strip() raise AttributeError, which the method wraps as ADD_004. -/
def addSong (songs : List Dict) (song_data : Dict) (now : String) : Except SanctifyError (List Dict) :=
  match dget song_data "title" with
  | none =>
    .error (mkSanctifyError "SongModel" "ADD_001" "Cannot add song: title is empty")
  | some (Json.str t) =>
    if pyStrip t == "" then
      .error (mkSanctifyError "SongModel" "ADD_001" "Cannot add song: title is empty")
    else if songs.any (fun s => titleLower s == low t) then
      .error (mkSanctifyError "SongModel" "ADD_002"
        ("Cannot add song: title " ++ t ++ " already exists"))
    else
      if validateSong (newSongRecord song_data now) then
        .ok (songs ++ [newSongRecord song_data now])
      else .error (mkSanctifyError "SongModel" "ADD_003"
        ("Cannot add song: invalid data for " ++ t))
  | some _ =>
    .error (mkSanctifyError "SongModel" "ADD_004"
      "Error adding song: the title value has no attribute strip")

/- Merging step of SongModel.update_song: the updated record keeps the
created_at of the stored song, receives a fresh updated_at, and inherits
sections and tags from the stored song when the caller omits them. The
stored song passed validation, so the Json.null fallbacks are never
reached on the states the theorems quantify over. -/
def mergeUpdatedSong (song song_data : Dict) (now : String) : Dict :=
  defaultField
    (defaultField
      (dset (dset song_data "updated_at" (Json.str now)) "created_at"
        (dgetD song "created_at" Json.null))
      "sections" (dgetD song "sections" Json.null))
    "tags" (dgetD song "tags" Json.null)

/- Final step of SongModel.update_song: validate the merged record, then
self.songs.remove(song) and append. list.remove removes the first element
equal to the found song; the found song is the first whose title matches
old_title case-insensitively, and an earlier equal dictionary would carry
the same title, so removal by equality is removal of the first
case-insensitive title match, embedded as List.eraseP. -/
def finishUpdateSong (songs : List Dict) (old_title : String) (song song_data : Dict) (now : String) :
    Except SanctifyError (List Dict) :=
  if validateSong (mergeUpdatedSong song song_data now) then
    .ok ((songs.eraseP (fun s => titleLower s == low old_title)) ++
      [mergeUpdatedSong song song_data now])
  else
    .error (mkSanctifyError "SongModel" "UPDATE_003"
      ("Cannot update song: invalid data for " ++
        strField (mergeUpdatedSong song song_data now) "title"))

/- Embedding of SongModel.update_song. The guard song_data.get("title",
"").strip() raises AttributeError on a non-string title, wrapped as
UPDATE_004; a missing title skips the duplicate check (and later fails
validation, because the merged record has no title). -/
def updateSong (songs : List Dict) (old_title : String) (song_data : Dict) (now : String) :
    Except SanctifyError (List Dict) :=
  match getSongByTitle songs old_title with
  | none =>
    .error (mkSanctifyError "SongModel" "UPDATE_001"
      ("Cannot update song: title " ++ old_title ++ " not found"))
  | some song =>
    match dget song_data "title" with
    | some (Json.str t) =>
      if pyStrip t != "" && low t != low old_title then
        if (songs.filter (fun s => titleLower s != low old_title)).any
            (fun s => titleLower s == low t) then
          .error (mkSanctifyError "SongModel" "UPDATE_002"
            ("Cannot update song: new title " ++ t ++ " already exists"))
        else finishUpdateSong songs old_title song song_data now
      else finishUpdateSong songs old_title song song_data now
    | none => finishUpdateSong songs old_title song song_data now
    | some _ =>
      .error (mkSanctifyError "SongModel" "UPDATE_004"
        "Error updating song: the title value has no attribute strip")

/- Embedding of SongModel.delete_song: find by case-insensitive title and
remove that record (removal by equality of the found record equals
removal of the first title match, as for update_song). -/
def deleteSong (songs : List Dict) (title : String) : Except SanctifyError (List Dict) :=
  match getSongByTitle songs title with
  | none =>
    .error (mkSanctifyError "SongModel" "DELETE_001"
      ("Cannot delete song: title " ++ title ++ " not found"))
  | some _ =>
    .ok (songs.eraseP (fun s => titleLower s == low title))

/- Copy record built by the duplicate methods: the source record with a
new title or name, with created_at set to now and updated_at copied from
it. For themes and presentations the fresh id is also set first, through
dupRecordWithId below. -/
def dupRecord (song : Dict) (new_title now : String) : Dict :=
  dset (dset (dset song "title" (Json.str new_title)) "created_at" (Json.str now))
    "updated_at" (Json.str now)

/- Copy record built by the theme and presentation duplicate methods: the
source record with the fresh uuid, the suffixed name, created_at set to
now and updated_at copied from it. -/
def dupRecordWithId (d : Dict) (new_id new_name now : String) : Dict :=
  dset (dset (dset (dset d "id" (Json.str new_id)) "name" (Json.str new_name))
    "created_at" (Json.str now)) "updated_at" (Json.str now)

/- Embedding of SongModel.duplicate_song. The copy takes the stored title
of the found song plus the suffix, both timestamps receive the same
value, and the copy is appended without re-validation. -/
def duplicateSong (songs : List Dict) (title : String) (now : String) :
    Except SanctifyError (List Dict) :=
  match getSongByTitle songs title with
  | none =>
    .error (mkSanctifyError "SongModel" "DUPLICATE_001"
      ("Cannot duplicate song: title " ++ title ++ " not found"))
  | some song =>
    if songs.any (fun s => titleLower s == low (strField song "title" ++ " (Copy)")) then
      .error (mkSanctifyError "SongModel" "DUPLICATE_002"
        ("Cannot duplicate song: title " ++ (strField song "title" ++ " (Copy)") ++
          " already exists"))
    else .ok (songs ++ [dupRecord song (strField song "title" ++ " (Copy)") now])

/- Embedding of SongModel._save_songs: the JSON document written to the
songs file is exactly the array of the in-memory records (json.dump
followed by json.load is the identity on JSON values). -/
def saveSongs (songs : List Dict) : Json :=
  Json.arr (songs.map Json.obj)

/- Item loop of SongModel._load_songs: valid records are kept in order,
invalid dictionaries are skipped with a warning, and a non-dictionary
item makes the warning f-string itself raise (song.get on a non-dict),
wrapped as LOAD_003. -/
def loadSongList (path : String) : List Json → Except SanctifyError (List Dict)
  | [] => .ok []
  | Json.obj d :: rest =>
    if validateSong d then
      match loadSongList path rest with
      | .ok tail => .ok (d :: tail)
      | .error e => .error e
    else loadSongList path rest
  | _ :: _ =>
    .error (mkSanctifyError "SongModel" "LOAD_003"
      ("Error loading songs from " ++ path ++ ": item has no attribute get"))

/- Embedding of SongModel._load_songs on a file whose JSON document is
given: a non-array document raises LOAD_001, an array is filtered through
_validate_song. -/
def loadSongs (file : Json) (path : String) : Except SanctifyError (List Dict) :=
  match file with
  | Json.arr items => loadSongList path items
  | _ =>
    .error (mkSanctifyError "SongModel" "LOAD_001"
      ("Songs file " ++ path ++ " is not a list"))

/-
Theme model, from src/models/theme_model.py. The embedding passes the
fresh uuid and the timestamps as explicit arguments.
-/

/- Embedding of s.startswith("#"): the first character is the hash sign. -/
def startsWithHash (s : String) : Bool :=
  match s.data with
  | [] => false
  | c :: _ => c == '#'

/- Membership of a JSON value in a list of string literals, the embedding
of the Python test v in ["...", ...]. -/
def isOneOfStr (v : Json) (opts : List String) : Bool :=
  opts.any (fun o => v == Json.str o)

/- Embedding of ThemeModel._validate_theme. Python treats bool as a
subclass of int, so a boolean font_size passes the isinstance(x, int)
check with True counting as 1. -/
def validateTheme (t : Dict) : Bool :=
  (match dget t "id" with | some (Json.str _) => true | _ => false) &&
  (match dget t "name" with | some (Json.str s) => pyStrip s != "" | _ => false) &&
  (match dget t "context" with
   | some v => isOneOfStr v ["Songs", "Scriptures", "Presentations"]
   | none => false) &&
  (match dget t "alignment" with
   | some v => isOneOfStr v ["Left", "Centered", "Right"]
   | none => false) &&
  (match dget t "font_color" with | some (Json.str s) => startsWithHash s | _ => false) &&
  (match dget t "background_color" with | some (Json.str s) => startsWithHash s | _ => false) &&
  (match dget t "font_size" with
   | some (Json.int n) => decide (0 < n)
   | some (Json.bool b) => b
   | _ => false) &&
  (match dget t "font_family" with | some (Json.str s) => pyStrip s != "" | _ => false) &&
  (match dget t "tags" with | some (Json.str _) => true | _ => false) &&
  (match dget t "created_at" with | some (Json.str _) => true | _ => false) &&
  (match dget t "updated_at" with | some (Json.str _) => true | _ => false)

/- Lower-cased name of a stored record, the value r["name"].lower()
computed on records that passed validation. -/
def nameLower (d : Dict) : String := low (strField d "name")

/- Record literal built by ThemeModel.create_theme. -/
def newThemeRecord (name context alignment font_color background_color : String)
    (font_size : Int) (font_family tags tid now1 now2 : String) : Dict :=
  [("id", Json.str tid), ("name", Json.str name), ("context", Json.str context),
   ("alignment", Json.str alignment), ("font_color", Json.str font_color),
   ("background_color", Json.str background_color), ("font_size", Json.int font_size),
   ("font_family", Json.str font_family), ("tags", Json.str (pyStrip tags)),
   ("created_at", Json.str now1), ("updated_at", Json.str now2)]

/- Embedding of ThemeModel.create_theme. The two timestamps come from two
separate datetime.now() calls, passed as now1 and now2. -/
def createTheme (themes : List Dict) (name context alignment font_color background_color : String)
    (font_size : Int) (font_family tags tid now1 now2 : String) :
    Except SanctifyError (List Dict) :=
  if pyStrip name == "" then
    .error (mkSanctifyError "ThemeModel" "CREATE_001" "Theme name is required")
  else if themes.any (fun t => nameLower t == low name) then
    .error (mkSanctifyError "ThemeModel" "CREATE_002" ("Theme already exists: " ++ name))
  else
    if validateTheme (newThemeRecord name context alignment font_color background_color
        font_size font_family tags tid now1 now2) then
      .ok (themes ++ [newThemeRecord name context alignment font_color background_color
        font_size font_family tags tid now1 now2])
    else .error (mkSanctifyError "ThemeModel" "CREATE_003" ("Invalid theme data for " ++ name))

/- Merging step of ThemeModel.update_theme: copy the stored theme, overlay
the caller data, then force id and created_at back to the stored values
and refresh updated_at. -/
def mergeUpdatedTheme (theme updated_data : Dict) (now : String) : Dict :=
  let u := dupdate theme updated_data
  let u1 := dset u "id" (dgetD theme "id" Json.null)
  let u2 := dset u1 "created_at" (dgetD theme "created_at" Json.null)
  dset u2 "updated_at" (Json.str now)

/- Embedding of ThemeModel.update_theme. The guard updated_data.get("name",
"").strip() raises AttributeError on a non-string name, wrapped as
UPDATE_004; the duplicate check scans the themes whose id differs from
theme_id. Removal of the found theme by equality equals removal of the
first id match, embedded as List.eraseP. -/
def updateTheme (themes : List Dict) (theme_id : String) (updated_data : Dict) (now : String) :
    Except SanctifyError (List Dict) :=
  match themes.find? (fun t => keyEqStr t "id" theme_id) with
  | none =>
    .error (mkSanctifyError "ThemeModel" "UPDATE_001" ("Theme not found: " ++ theme_id))
  | some theme =>
    let finish : Except SanctifyError (List Dict) :=
      let u := mergeUpdatedTheme theme updated_data now
      if validateTheme u then
        .ok ((themes.eraseP (fun t => keyEqStr t "id" theme_id)) ++ [u])
      else
        .error (mkSanctifyError "ThemeModel" "UPDATE_003"
          ("Invalid updated theme data for " ++ strField u "name"))
    match dget updated_data "name" with
    | some (Json.str n) =>
      if pyStrip n != "" && low n != nameLower theme then
        if (themes.filter (fun t => !(keyEqStr t "id" theme_id))).any
            (fun t => nameLower t == low n) then
          .error (mkSanctifyError "ThemeModel" "UPDATE_002"
            ("Theme name already exists: " ++ n))
        else finish
      else finish
    | none => finish
    | some _ =>
      .error (mkSanctifyError "ThemeModel" "UPDATE_004"
        "Error updating theme: the name value has no attribute strip")

/- Embedding of ThemeModel.duplicate_theme: copy the found theme, give it
the fresh uuid and the suffixed name, set created_at and copy the same
value to updated_at, check the new name for a case-insensitive clash and
append without re-validation. -/
def duplicateTheme (themes : List Dict) (theme_id new_id now : String) :
    Except SanctifyError (List Dict) :=
  match themes.find? (fun t => keyEqStr t "id" theme_id) with
  | none =>
    .error (mkSanctifyError "ThemeModel" "DUPLICATE_001" ("Theme not found: " ++ theme_id))
  | some theme =>
    if themes.any (fun t => nameLower t == low (strField theme "name" ++ " (Copy)")) then
      .error (mkSanctifyError "ThemeModel" "DUPLICATE_002"
        ("Duplicate theme name already exists: " ++ (strField theme "name" ++ " (Copy)")))
    else .ok (themes ++
      [dupRecordWithId theme new_id (strField theme "name" ++ " (Copy)") now])

/-
Presentation model, from src/models/presentation_model.py. The referential
checks of _validate_presentation consult the optional media model (paths
existing under the media directory) and the optional theme model (known
theme ids); both are passed as optional context arguments, none embedding
a model constructed without them.
-/

/- Embedding of the slide check of PresentationModel._validate_presentation:
a slide is a two-element list of strings whose first element is one of the
three slide types. -/
def validateSlide : Json → Bool
  | Json.arr [Json.str ty, Json.str _] => ty == "Text" || ty == "Image" || ty == "Video"
  | _ => false

/- Embedding of PresentationModel._validate_presentation. -/
def validatePres (themeIds : Option (List String)) (mediaPaths : Option (List String))
    (mdir : String) (p : Dict) : Bool :=
  ((match dget p "id" with | some (Json.str _) => true | _ => false) &&
   (match dget p "name" with | some (Json.str s) => pyStrip s != "" | _ => false) &&
   (match dget p "slides" with | some (Json.arr xs) => xs.all validateSlide | _ => false) &&
   (match dget p "theme" with | some (Json.str _) => true | _ => false) &&
   (match dget p "tags" with | some (Json.str _) => true | _ => false) &&
   (match dget p "created_at" with | some (Json.str _) => true | _ => false) &&
   (match dget p "updated_at" with | some (Json.str _) => true | _ => false)) &&
  (match mediaPaths with
   | none => true
   | some fs =>
     match dget p "slides" with
     | some (Json.arr xs) =>
       xs.all (fun s =>
         match s with
         | Json.arr [Json.str ty, Json.str content] =>
           if ty == "Image" || ty == "Video" then fs.contains (pjoin mdir content) else true
         | _ => true)
     | _ => true) &&
  (match themeIds with
   | none => true
   | some ids =>
     match dget p "theme" with
     | some (Json.str th) => ids.contains th
     | _ => true)

/- Record literal built by PresentationModel.create_presentation. -/
def newPresRecord (name theme : String) (slides : List Json) (tags pid now1 now2 : String) : Dict :=
  [("id", Json.str pid), ("name", Json.str name), ("theme", Json.str theme),
   ("slides", Json.arr slides), ("tags", Json.str (pyStrip tags)),
   ("created_at", Json.str now1), ("updated_at", Json.str now2)]

/- Embedding of PresentationModel.create_presentation. The slides argument
models the Python expression slides or [] already applied, and the two
timestamps come from two datetime.now() calls. -/
def createPres (ctx : Option (List String) × Option (List String)) (mdir : String)
    (presentations : List Dict) (name theme : String) (slides : List Json)
    (tags pid now1 now2 : String) : Except SanctifyError (List Dict) :=
  if pyStrip name == "" then
    .error (mkSanctifyError "PresentationModel" "CREATE_001" "Presentation name is required")
  else if presentations.any (fun p => nameLower p == low name) then
    .error (mkSanctifyError "PresentationModel" "CREATE_002"
      ("Presentation already exists: " ++ name))
  else
    if validatePres ctx.1 ctx.2 mdir (newPresRecord name theme slides tags pid now1 now2) then
      .ok (presentations ++ [newPresRecord name theme slides tags pid now1 now2])
    else .error (mkSanctifyError "PresentationModel" "CREATE_003"
      ("Invalid presentation data for " ++ name))

/- Embedding of the statement pattern: if k not in cond: d[k] = v, where
the membership test runs on the original caller dictionary while the
assignment runs on the merged copy. -/
def defaultFieldBy (cond d : Dict) (k : String) (v : Json) : Dict :=
  if hasKey cond k then d else dset d k v

/- Merging step of PresentationModel.update_presentation: copy the stored
record, overlay the caller data, force id and created_at back, refresh
updated_at; slides, theme and tags fall back to the stored values when
the caller omits them (already granted by the overlay of a copy). -/
def mergeUpdatedPres (pres updated_data : Dict) (now : String) : Dict :=
  defaultFieldBy updated_data
    (defaultFieldBy updated_data
      (defaultFieldBy updated_data
        (dset (dset (dset (dupdate pres updated_data) "id" (dgetD pres "id" Json.null))
          "created_at" (dgetD pres "created_at" Json.null)) "updated_at" (Json.str now))
        "slides" (dgetD pres "slides" Json.null))
      "theme" (dgetD pres "theme" Json.null))
    "tags" (dgetD pres "tags" Json.null)

/- Embedding of PresentationModel.update_presentation, with the same guard,
duplicate-name check against the records of different id, validation and
remove-plus-append shape as the theme update. -/
def updatePres (ctx : Option (List String) × Option (List String)) (mdir : String)
    (presentations : List Dict) (presentation_id : String) (updated_data : Dict) (now : String) :
    Except SanctifyError (List Dict) :=
  match presentations.find? (fun p => keyEqStr p "id" presentation_id) with
  | none =>
    .error (mkSanctifyError "PresentationModel" "UPDATE_001"
      ("Presentation not found: " ++ presentation_id))
  | some pres =>
    let finish : Except SanctifyError (List Dict) :=
      let u := mergeUpdatedPres pres updated_data now
      if validatePres ctx.1 ctx.2 mdir u then
        .ok ((presentations.eraseP (fun p => keyEqStr p "id" presentation_id)) ++ [u])
      else
        .error (mkSanctifyError "PresentationModel" "UPDATE_003"
          ("Invalid updated presentation data for " ++ strField u "name"))
    match dget updated_data "name" with
    | some (Json.str n) =>
      if pyStrip n != "" && low n != nameLower pres then
        if (presentations.filter (fun p => !(keyEqStr p "id" presentation_id))).any
            (fun p => nameLower p == low n) then
          .error (mkSanctifyError "PresentationModel" "UPDATE_002"
            ("Presentation name already exists: " ++ n))
        else finish
      else finish
    | none => finish
    | some _ =>
      .error (mkSanctifyError "PresentationModel" "UPDATE_004"
        "Error updating presentation: the name value has no attribute strip")

/- Embedding of PresentationModel.duplicate_presentation, mirroring the
theme duplication: fresh uuid, suffixed name, same timestamp in both
fields, case-insensitive clash check, append without re-validation. -/
def duplicatePres (presentations : List Dict) (presentation_id new_id now : String) :
    Except SanctifyError (List Dict) :=
  match presentations.find? (fun p => keyEqStr p "id" presentation_id) with
  | none =>
    .error (mkSanctifyError "PresentationModel" "DUPLICATE_001"
      ("Presentation not found: " ++ presentation_id))
  | some pres =>
    if presentations.any (fun p => nameLower p == low (strField pres "name" ++ " (Copy)")) then
      .error (mkSanctifyError "PresentationModel" "DUPLICATE_002"
        ("Duplicate presentation name already exists: " ++ (strField pres "name" ++ " (Copy)")))
    else .ok (presentations ++
      [dupRecordWithId pres new_id (strField pres "name" ++ " (Copy)") now])

/-
Media model, from src/models/media_model.py. A state couples the metadata
list self.media with the set of absolute paths existing on disk, the part
of the file system the validator consults through os.path.exists. The
media directory setting is the argument mdir, fresh uuids and timestamps
are arguments, and shutil.copy2, os.rename and os.remove fail exactly
when their source path does not exist. File-system effects of paths that
end in a raise are not tracked further, because the claims below concern
the metadata list, which Python only mutates after the last possible
raise of each method.
-/

structure MediaState where
  media : List Dict
  fs : List String

/- Extensions of MediaModel.SUPPORTED_FORMATS, flattened as the check
any(ext in formats for formats in SUPPORTED_FORMATS.values()) reads them. -/
def supportedExts : List String :=
  [".jpg", ".jpeg", ".png", ".bmp", ".mp4", ".mov", ".avi", ".gif"]

/- Categories, the keys of SUPPORTED_FORMATS. -/
def mediaCategories : List String := ["Images", "Videos", "Gifs"]

/- Embedding of os.path.basename. -/
def baseName (p : String) : String := ⟨baseNameChars p⟩

/- Embedding of MediaModel._validate_media; the exists check on the
stored relative path is membership of the joined absolute path in fs. -/
def validateMedia (mdir : String) (fs : List String) (m : Dict) : Bool :=
  (match dget m "id" with | some (Json.str _) => true | _ => false) &&
  (match dget m "name" with | some (Json.str s) => pyStrip s != "" | _ => false) &&
  (match dget m "path" with
   | some (Json.str p) => fs.contains (pjoin mdir p)
   | _ => false) &&
  (match dget m "category" with
   | some v => isOneOfStr v mediaCategories
   | none => false) &&
  (match dget m "tags" with | some (Json.str _) => true | _ => false) &&
  (match dget m "scaling" with
   | some v => isOneOfStr v ["stretch", "fit", "fill"]
   | none => false) &&
  (match dget m "created_at" with | some (Json.str _) => true | _ => false) &&
  (match dget m "updated_at" with | some (Json.str _) => true | _ => false) &&
  (match dget m "is_logo" with | some (Json.bool _) => true | _ => false)

/- Embedding of MediaModel.add_media. -/
def addMedia (mdir : String) (st : MediaState)
    (source_path category display_name tags scaling mid now1 now2 : String) :
    Except SanctifyError MediaState :=
  let ext := low (splitextExt source_path)
  if !(supportedExts.contains ext) then
    .error (mkSanctifyError "MediaModel" "ADD_001" ("Unsupported media format: " ++ ext))
  else if !(mediaCategories.contains category) then
    .error (mkSanctifyError "MediaModel" "ADD_002" ("Invalid category: " ++ category))
  else
    let display_name2 := if display_name == "" then baseName source_path else display_name
    let filename := mid ++ ext
    let target := pjoin (pjoin mdir category) filename
    if !(st.fs.contains source_path) then
      .error (mkSanctifyError "MediaModel" "ADD_003"
        ("Failed to copy media file " ++ source_path ++ " to " ++ target))
    else
      let fs1 := st.fs ++ [target]
      let relpath := pjoin category filename
      let media_data : Dict :=
        [("id", Json.str mid), ("name", Json.str display_name2), ("path", Json.str relpath),
         ("category", Json.str category), ("tags", Json.str (pyStrip tags)),
         ("scaling", Json.str (low scaling)), ("created_at", Json.str now1),
         ("updated_at", Json.str now2), ("is_logo", Json.bool false)]
      if st.media.any (fun m => keyEqStr m "path" relpath) then
        .error (mkSanctifyError "MediaModel" "ADD_004" ("Media already exists: " ++ target))
      else if !(validateMedia mdir fs1 media_data) then
        .error (mkSanctifyError "MediaModel" "ADD_005" ("Invalid media data for " ++ display_name2))
      else .ok ⟨st.media ++ [media_data], fs1⟩

/- Field-forcing step of MediaModel.update_media: the caller data is
copied, id, path, created_at and is_logo come from the stored record,
updated_at is refreshed, and category, name, tags and scaling fall back
to the stored values when omitted. -/
def mergeUpdatedMedia (media media_data : Dict) (now : String) : Dict :=
  defaultField
    (defaultField
      (defaultField
        (defaultField
          (dset (dset (dset (dset (dset media_data "id" (dgetD media "id" Json.null))
            "path" (dgetD media "path" Json.null))
            "created_at" (dgetD media "created_at" Json.null))
            "updated_at" (Json.str now))
            "is_logo" (dgetD media "is_logo" Json.null))
          "category" (dgetD media "category" Json.null))
        "name" (dgetD media "name" Json.null))
      "tags" (dgetD media "tags" Json.null))
    "scaling" (dgetD media "scaling" Json.null)

/- Embedding of MediaModel.update_media. When the merged name or category
differs from the stored one the method renames the file; the second
argument of that os.rename call prefixes the media directory a second
time (the joined new_path is already absolute), reproduced faithfully. A
non-string merged category makes os.path.join raise, wrapped UPDATE_004. -/
def updateMedia (mdir : String) (st : MediaState) (media_id : String) (media_data : Dict)
    (now : String) : Except SanctifyError MediaState :=
  match st.media.find? (fun m => keyEqStr m "id" media_id) with
  | none =>
    .error (mkSanctifyError "MediaModel" "UPDATE_001" ("Media not found: " ++ media_id))
  | some media =>
    let d := mergeUpdatedMedia media media_data now
    if !(dget d "name" == dget media "name") || !(dget d "category" == dget media "category") then
      match dget d "category" with
      | some (Json.str cat) =>
        let new_filename := media_id ++ splitextExt (strField media "path")
        let new_path := pjoin (pjoin mdir cat) new_filename
        let oldAbs := pjoin mdir (strField media "path")
        if !(st.fs.contains oldAbs) then
          .error (mkSanctifyError "MediaModel" "UPDATE_002"
            ("Failed to rename media from " ++ strField media "path" ++ " to " ++ new_path))
        else
          let fs1 := (st.fs.erase oldAbs) ++ [pjoin mdir new_path]
          let d1 := dset d "path" (Json.str (pjoin cat new_filename))
          if validateMedia mdir fs1 d1 then
            .ok ⟨(st.media.eraseP (fun m => keyEqStr m "id" media_id)) ++ [d1], fs1⟩
          else
            .error (mkSanctifyError "MediaModel" "UPDATE_003"
              ("Invalid media data for " ++ strField d1 "name"))
      | _ =>
        .error (mkSanctifyError "MediaModel" "UPDATE_004"
          "Error updating media: os.path.join received a non-string category")
    else
      if validateMedia mdir st.fs d then
        .ok ⟨(st.media.eraseP (fun m => keyEqStr m "id" media_id)) ++ [d], st.fs⟩
      else
        .error (mkSanctifyError "MediaModel" "UPDATE_003"
          ("Invalid media data for " ++ strField d "name"))

/- Embedding of MediaModel.delete_media. -/
def deleteMedia (mdir : String) (st : MediaState) (media_id : String) :
    Except SanctifyError MediaState :=
  match st.media.find? (fun m => keyEqStr m "id" media_id) with
  | none =>
    .error (mkSanctifyError "MediaModel" "DELETE_001" ("Media not found: " ++ media_id))
  | some media =>
    let abs := pjoin mdir (strField media "path")
    if !(st.fs.contains abs) then
      .error (mkSanctifyError "MediaModel" "DELETE_002"
        ("Failed to delete media file " ++ strField media "path"))
    else
      .ok ⟨st.media.eraseP (fun m => keyEqStr m "id" media_id), st.fs.erase abs⟩

/- Embedding of MediaModel.duplicate_media. The copy name splits the
stored display name at its last dot; a name without a dot makes the
indexing of rsplit raise IndexError, wrapped as DUPLICATE_004 before the
file copy and before any list change. -/
def duplicateMedia (mdir : String) (st : MediaState) (media_id nid now1 now2 : String) :
    Except SanctifyError MediaState :=
  match st.media.find? (fun m => keyEqStr m "id" media_id) with
  | none =>
    .error (mkSanctifyError "MediaModel" "DUPLICATE_001" ("Media not found: " ++ media_id))
  | some media =>
    let ext := splitextExt (strField media "path")
    let new_filename := nid ++ ext
    let new_path := pjoin (pjoin mdir (strField media "category")) new_filename
    match rsplitDot1 (strField media "name") with
    | none =>
      .error (mkSanctifyError "MediaModel" "DUPLICATE_004"
        "Error duplicating media: list index out of range")
    | some (stem, after) =>
      let new_name := stem ++ " (Copy)." ++ after
      let srcAbs := pjoin mdir (strField media "path")
      if !(st.fs.contains srcAbs) then
        .error (mkSanctifyError "MediaModel" "DUPLICATE_002"
          ("Failed to duplicate media " ++ strField media "path" ++ " to " ++ new_path))
      else
        let fs1 := st.fs ++ [new_path]
        let new_media : Dict :=
          [("id", Json.str nid), ("name", Json.str new_name),
           ("path", Json.str (pjoin (strField media "category") new_filename)),
           ("category", dgetD media "category" Json.null),
           ("tags", dgetD media "tags" Json.null),
           ("scaling", dgetD media "scaling" Json.null),
           ("created_at", Json.str now1), ("updated_at", Json.str now2),
           ("is_logo", Json.bool false)]
        if validateMedia mdir fs1 new_media then .ok ⟨st.media ++ [new_media], fs1⟩
        else
          .error (mkSanctifyError "MediaModel" "DUPLICATE_003"
            ("Invalid duplicated media data for " ++ new_name))

/- Embedding of MediaModel.set_logo: the guard rejects an unknown id and a
record whose category is not Images with the same error, and the loop
assigns to every record the truth of the id comparison. -/
def setLogo (st : MediaState) (media_id : String) : Except SanctifyError MediaState :=
  match st.media.find? (fun m => keyEqStr m "id" media_id) with
  | none =>
    .error (mkSanctifyError "MediaModel" "SET_LOGO_001"
      ("Invalid logo media: " ++ media_id ++ " (must be an image)"))
  | some media =>
    if !(keyEqStr media "category" "Images") then
      .error (mkSanctifyError "MediaModel" "SET_LOGO_001"
        ("Invalid logo media: " ++ media_id ++ " (must be an image)"))
    else
      .ok ⟨st.media.map (fun m => dset m "is_logo" (Json.bool (keyEqStr m "id" media_id))), st.fs⟩

/-
Scripture model, from src/models/scripture_model.py. Loaded bibles passed
ScriptureModel._validate_bible, which pins exactly the nested shape
book -> chapter -> verse -> text with positive integer chapter and verse
numbers and non-blank strings, so the embedding uses structured records
for the content get_verses reads. The collection self.bibles is a
dictionary from bible id to bible, embedded as an association list.
-/

structure Verse where
  verse : Int
  text : String

structure Chapter where
  chapter : Int
  verses : List Verse

structure Book where
  name : String
  chapters : List Chapter

structure Bible where
  name : String
  books : List Book

/- Order on verses used by sorted(chapter["verses"], key=...): compare the
verse numbers. -/
def verseLE (a b : Verse) : Prop := a.verse ≤ b.verse

instance : DecidableRel verseLE := fun a b => Int.decLe a.verse b.verse

instance : IsTotal Verse verseLE := ⟨fun a b => Int.le_total a.verse b.verse⟩

instance : IsTrans Verse verseLE := ⟨fun _ _ _ => Int.le_trans⟩

/- Embedding of self.bibles.get(bible_id). -/
def getBible : List (String × Bible) → String → Option Bible
  | [], _ => none
  | (k, b) :: rest, key => if k == key then some b else getBible rest key

/- Embedding of ScriptureModel.get_verses: look the bible up by id, the
book up by case-insensitive name, the chapter up by exact number, and
return the verses sorted ascending by verse number. -/
def getVerses (bibles : List (String × Bible)) (bible_id book_name : String)
    (chapter_number : Int) : Except SanctifyError (List Verse) :=
  match getBible bibles bible_id with
  | none =>
    .error (mkSanctifyError "ScriptureModel" "GET_VERSES_001" ("Bible not found: " ++ bible_id))
  | some bible =>
    match bible.books.find? (fun b => low b.name == low book_name) with
    | none =>
      .error (mkSanctifyError "ScriptureModel" "GET_VERSES_002" ("Book not found: " ++ book_name))
    | some book =>
      match book.chapters.find? (fun c => c.chapter == chapter_number) with
      | none =>
        .error (mkSanctifyError "ScriptureModel" "GET_VERSES_003"
          ("Chapter not found: " ++ toString chapter_number))
      | some chapter => .ok (chapter.verses.insertionSort verseLE)

/-
Settings manager, from src/core/settings_manager.py. The merge of loaded
settings over defaults recurses through nested dictionaries; everything
else about the manager is file plumbing the claims do not touch.
-/

mutual

/- Embedding of SettingsManager._merge_settings: start from a copy of the
defaults and assign every loaded entry in order, merging recursively when
the key is already present and both values are dictionaries. -/
def mergeSettings (defaults : Dict) : Dict → Dict
  | [] => defaults
  | (k, v) :: rest => mergeSettings (mergeSettingsOne defaults k v) rest

/- Single-entry step of the merge loop. -/
def mergeSettingsOne (defaults : Dict) (k : String) : Json → Dict
  | Json.obj l0 =>
    match dget defaults k with
    | some (Json.obj d0) => dset defaults k (Json.obj (mergeSettings d0 l0))
    | _ => dset defaults k (Json.obj l0)
  | v => dset defaults k v

end

/-
Operation alphabets and run functions. A run applies an operation to the
in-memory state; when the method raises, the Python list is untouched
(every raise precedes the mutation), so the run keeps the previous state.
-/

inductive SongOp where
  | add (song_data : Dict) (now : String)
  | update (old_title : String) (song_data : Dict) (now : String)
  | dup (title : String) (now : String)

def stepSong (songs : List Dict) : SongOp → Except SanctifyError (List Dict)
  | SongOp.add d now => addSong songs d now
  | SongOp.update t d now => updateSong songs t d now
  | SongOp.dup t now => duplicateSong songs t now

def runSong (songs : List Dict) (op : SongOp) : List Dict :=
  match stepSong songs op with
  | .ok s => s
  | .error _ => songs

def runSongOps (songs : List Dict) (ops : List SongOp) : List Dict :=
  ops.foldl runSong songs

inductive ThemeOp where
  | create (name context alignment font_color background_color : String) (font_size : Int)
      (font_family tags tid now1 now2 : String)
  | update (theme_id : String) (updated_data : Dict) (now : String)
  | dup (theme_id new_id now : String)

def stepTheme (themes : List Dict) : ThemeOp → Except SanctifyError (List Dict)
  | ThemeOp.create n c a fc bc fs2 ff tg tid n1 n2 => createTheme themes n c a fc bc fs2 ff tg tid n1 n2
  | ThemeOp.update tid d now => updateTheme themes tid d now
  | ThemeOp.dup tid nid now => duplicateTheme themes tid nid now

def runTheme (themes : List Dict) (op : ThemeOp) : List Dict :=
  match stepTheme themes op with
  | .ok s => s
  | .error _ => themes

def runThemeOps (themes : List Dict) (ops : List ThemeOp) : List Dict :=
  ops.foldl runTheme themes

/- Fresh uuids an operation feeds to the model. -/
def themeOpIds : ThemeOp → List String
  | ThemeOp.create _ _ _ _ _ _ _ _ tid _ _ => [tid]
  | ThemeOp.update _ _ _ => []
  | ThemeOp.dup _ nid _ => [nid]

inductive PresOp where
  | create (name theme : String) (slides : List Json) (tags pid now1 now2 : String)
  | update (presentation_id : String) (updated_data : Dict) (now : String)
  | dup (presentation_id new_id now : String)

def stepPres (ctx : Option (List String) × Option (List String)) (mdir : String)
    (presentations : List Dict) : PresOp → Except SanctifyError (List Dict)
  | PresOp.create n th sl tg pid n1 n2 => createPres ctx mdir presentations n th sl tg pid n1 n2
  | PresOp.update pid d now => updatePres ctx mdir presentations pid d now
  | PresOp.dup pid nid now => duplicatePres presentations pid nid now

def runPres (ctx : Option (List String) × Option (List String)) (mdir : String)
    (presentations : List Dict) (op : PresOp) : List Dict :=
  match stepPres ctx mdir presentations op with
  | .ok s => s
  | .error _ => presentations

def runPresOps (ctx : Option (List String) × Option (List String)) (mdir : String)
    (presentations : List Dict) (ops : List PresOp) : List Dict :=
  ops.foldl (runPres ctx mdir) presentations

def presOpIds : PresOp → List String
  | PresOp.create _ _ _ _ pid _ _ => [pid]
  | PresOp.update _ _ _ => []
  | PresOp.dup _ nid _ => [nid]

inductive MediaOp where
  | add (source_path category display_name tags scaling mid now1 now2 : String)
  | update (media_id : String) (media_data : Dict) (now : String)
  | delete (media_id : String)
  | dup (media_id nid now1 now2 : String)
  | logo (media_id : String)

def stepMedia (mdir : String) (st : MediaState) : MediaOp → Except SanctifyError MediaState
  | MediaOp.add sp cat dn tg sc mid n1 n2 => addMedia mdir st sp cat dn tg sc mid n1 n2
  | MediaOp.update mid d now => updateMedia mdir st mid d now
  | MediaOp.delete mid => deleteMedia mdir st mid
  | MediaOp.dup mid nid n1 n2 => duplicateMedia mdir st mid nid n1 n2
  | MediaOp.logo mid => setLogo st mid

/-
Invariants. Distinctness of names is distinctness of the lower-cased
name list; ids of the uuid-bearing models are pairwise distinct because
the code only ever stores fresh uuid4 values.
-/

def songTitlesDistinct (songs : List Dict) : Prop := (songs.map titleLower).Nodup

def songsValid (songs : List Dict) : Prop := ∀ s ∈ songs, validateSong s = true

def themeNamesDistinct (themes : List Dict) : Prop := (themes.map nameLower).Nodup

def themesValid (themes : List Dict) : Prop := ∀ t ∈ themes, validateTheme t = true

/- Stored id of a record, as a string (every validated record has a string
id). -/
def idOf (d : Dict) : String := strField d "id"

def themeIdsDistinct (themes : List Dict) : Prop := (themes.map idOf).Nodup

def presNamesDistinct (ps : List Dict) : Prop := (ps.map nameLower).Nodup

def presIdsDistinct (ps : List Dict) : Prop := (ps.map idOf).Nodup

def presValid (ctx : Option (List String) × Option (List String)) (mdir : String)
    (ps : List Dict) : Prop := ∀ p ∈ ps, validatePres ctx.1 ctx.2 mdir p = true

/- Freshness of the uuids supplied along a sequence of operations: each
operation receives ids outside everything used before it. -/
def freshThemeIds (used : List String) : List ThemeOp → Prop
  | [] => True
  | op :: rest => (∀ i ∈ themeOpIds op, i ∉ used) ∧ freshThemeIds (used ++ themeOpIds op) rest

def freshPresIds (used : List String) : List PresOp → Prop
  | [] => True
  | op :: rest => (∀ i ∈ presOpIds op, i ∉ used) ∧ freshPresIds (used ++ presOpIds op) rest

/- Logo flag of a stored media record: True exactly on the records whose
is_logo field holds the boolean true. -/
def isLogoD (m : Dict) : Bool := dget m "is_logo" == some (Json.bool true)

def atMostOneLogo (ms : List Dict) : Prop := ms.countP isLogoD ≤ 1

def mediaIdsDistinct (ms : List Dict) : Prop := (ms.map idOf).Nodup

/- Keys of a real Python dictionary are unique; the update dictionaries
the theorems quantify over carry this property. -/
def dictKeysNodup (d : Dict) : Prop := (d.map Prod.fst).Nodup

/- Bundle of the theme invariants. -/
def themeInv (themes : List Dict) : Prop :=
  themesValid themes ∧ themeNamesDistinct themes ∧ themeIdsDistinct themes

/- Well-formed update dictionaries along a sequence of operations. -/
def themeOpsWF (ops : List ThemeOp) : Prop :=
  ∀ op ∈ ops, ∀ tid u now, op = ThemeOp.update tid u now → dictKeysNodup u

/- Bundle of the presentation invariants, relative to the referential
context the model was constructed with. -/
def presInv (ctx : Option (List String) × Option (List String)) (mdir : String)
    (ps : List Dict) : Prop :=
  presValid ctx mdir ps ∧ presNamesDistinct ps ∧ presIdsDistinct ps

def presOpsWF (ops : List PresOp) : Prop :=
  ∀ op ∈ ops, ∀ pid u now, op = PresOp.update pid u now → dictKeysNodup u

/- Concrete sample data used by the witnesses below. -/
def sampleSong : Dict :=
  [("title", Json.str "Amazing Grace"), ("sections", Json.arr [])
   , ("tags", Json.str ""), ("created_at", Json.str "2024-01-01T00:00:00"),
   ("updated_at", Json.str "2024-01-01T00:00:00")]

def sampleSongs : List Dict := [sampleSong]

def sampleSongOps : List SongOp :=
  [SongOp.dup "amazing grace" "2024-01-02T00:00:00",
   SongOp.add [("title", Json.str "New Song")] "2024-01-03T00:00:00"]

def sampleTheme : Dict :=
  [("id", Json.str "theme-1"), ("name", Json.str "Default"), ("context", Json.str "Songs"),
   ("alignment", Json.str "Centered"), ("font_color", Json.str "#ffffff"),
   ("background_color", Json.str "#000000"), ("font_size", Json.int 32),
   ("font_family", Json.str "Arial"), ("tags", Json.str ""),
   ("created_at", Json.str "2024-01-01T00:00:00"), ("updated_at", Json.str "2024-01-01T00:00:00")]

def sampleThemes : List Dict := [sampleTheme]

def sampleThemeOps : List ThemeOp :=
  [ThemeOp.dup "theme-1" "theme-2" "2024-01-02T00:00:00"]

def samplePres : Dict :=
  [("id", Json.str "pres-1"), ("name", Json.str "Service"), ("theme", Json.str "default"),
   ("slides", Json.arr [Json.arr [Json.str "Text", Json.str "Welcome"]]),
   ("tags", Json.str ""), ("created_at", Json.str "2024-01-01T00:00:00"),
   ("updated_at", Json.str "2024-01-01T00:00:00")]

def samplePresList : List Dict := [samplePres]

def samplePresOps : List PresOp :=
  [PresOp.dup "pres-1" "pres-2" "2024-01-02T00:00:00"]

def sampleCtx : Option (List String) × Option (List String) := (none, none)

/- Concrete media sample data for the witnesses. -/
def sampleMediaItem : Dict :=
  [("id", Json.str "m1"), ("name", Json.str "pic.jpg"), ("path", Json.str "Images/m1.jpg"),
   ("category", Json.str "Images"), ("tags", Json.str ""), ("scaling", Json.str "fit"),
   ("created_at", Json.str "2024-01-01T00:00:00"), ("updated_at", Json.str "2024-01-01T00:00:00"),
   ("is_logo", Json.bool false)]

def sampleMediaNoDot : Dict :=
  [("id", Json.str "m2"), ("name", Json.str "Sanctify Logo"), ("path", Json.str "Images/m2.png"),
   ("category", Json.str "Images"), ("tags", Json.str ""), ("scaling", Json.str "fit"),
   ("created_at", Json.str "2024-01-01T00:00:00"), ("updated_at", Json.str "2024-01-01T00:00:00"),
   ("is_logo", Json.bool false)]

def sampleMediaState : MediaState :=
  ⟨[sampleMediaItem, sampleMediaNoDot],
   ["data/media/Images/m1.jpg", "data/media/Images/m2.png"]⟩

def sampleMediaLogoItem : Dict :=
  [("id", Json.str "m1"), ("name", Json.str "pic.jpg"), ("path", Json.str "Images/m1.jpg"),
   ("category", Json.str "Images"), ("tags", Json.str ""), ("scaling", Json.str "fit"),
   ("created_at", Json.str "2024-01-01T00:00:00"), ("updated_at", Json.str "2024-01-01T00:00:00"),
   ("is_logo", Json.bool true)]

def sampleMediaNoDotOff : Dict :=
  [("id", Json.str "m2"), ("name", Json.str "Sanctify Logo"), ("path", Json.str "Images/m2.png"),
   ("category", Json.str "Images"), ("tags", Json.str ""), ("scaling", Json.str "fit"),
   ("created_at", Json.str "2024-01-01T00:00:00"), ("updated_at", Json.str "2024-01-01T00:00:00"),
   ("is_logo", Json.bool false)]

def sampleMediaLogoState : MediaState :=
  ⟨[sampleMediaLogoItem, sampleMediaNoDotOff],
   ["data/media/Images/m1.jpg", "data/media/Images/m2.png"]⟩

/- Every error a result can produce was built by mkSanctifyError with the
given module name. -/
def errOf (module : String) {X : Type} (r : Except SanctifyError X) : Prop :=
  ∀ e, r = Except.error e → e.module = module ∧
    ∃ raw, e = mkSanctifyError module e.error_code raw

/- Value the merge stores for a loaded entry: the recursive merge when
both the present default and the loaded value are dictionaries, the
loaded value otherwise. -/
def mergeVal (o : Option Json) (v : Json) : Json :=
  match o, v with
  | some (Json.obj d0), Json.obj l0 => Json.obj (mergeSettings d0 l0)
  | _, _ => v

/- Concrete settings dictionaries exercising the merge. -/
def sampleDefaults : Dict :=
  [("a", Json.int 1), ("b", Json.obj [("x", Json.int 2), ("y", Json.int 3)])]

def sampleLoaded : Dict :=
  [("b", Json.obj [("x", Json.int 9)]), ("c", Json.str "s")]

/- A concrete bible whose only chapter stores its verses out of order. -/
def sampleBible : Bible :=
  ⟨"KJV", [⟨"Genesis", [⟨1, [⟨2, "v2"⟩, ⟨1, "v1"⟩]⟩]⟩]⟩

def sampleBibles : List (String × Bible) := [("kjv", sampleBible)]

/-
Additional operations of the five models and the settings manager, for
the error-type claim: delete, search, load and save across every module,
and the whole settings manager. File writes can only fail in the OS; the
save embeddings take that environmental outcome as the explicit argument
ioError, like datetime.now() and uuid4() elsewhere.
-/

/- Embedding of the Python substring test needle in hay. -/
def strContains (hay needle : String) : Bool :=
  hay.data.tails.any (fun t => needle.data.isPrefixOf t)

/- Python truthiness of a JSON value: None, False, 0, "", [] and the empty
dictionary are falsy. -/
def jsonFalsy : Json → Bool
  | Json.null => true
  | Json.bool b => !b
  | Json.int n => n == 0
  | Json.str s => s == ""
  | Json.arr xs => xs.isEmpty
  | Json.obj d => d.isEmpty

/- Embedding of str.upper() restricted to the character-wise case mapping,
mirroring low. -/
def pyUpper (s : String) : String := ⟨s.data.map Char.toUpper⟩

/- Code-point comparison of character lists, the order Python uses to
compare strings. -/
def charsLe : List Char → List Char → Bool
  | [], _ => true
  | _ :: _, [] => false
  | a :: as2, b :: bs => if a == b then charsLe as2 bs else decide (a < b)

/- Sort order of sorted(records, key=lambda r: r[k].lower()). -/
def dictKeyLe (k : String) (a b : Dict) : Prop :=
  charsLe (low (strField a k)).data (low (strField b k)).data = true

instance (k : String) : DecidableRel (dictKeyLe k) := fun _ _ => Bool.decEq _ _

/- Embedding of ThemeModel.delete_theme: remove the first id match or
raise DELETE_001; the following file write can only fail in the OS. -/
def deleteTheme (themes : List Dict) (theme_id : String) : Except SanctifyError (List Dict) :=
  match themes.find? (fun t => keyEqStr t "id" theme_id) with
  | none =>
    .error (mkSanctifyError "ThemeModel" "DELETE_001" ("Theme not found: " ++ theme_id))
  | some _ => .ok (themes.eraseP (fun t => keyEqStr t "id" theme_id))

/- Embedding of PresentationModel.delete_presentation, the same shape as
delete_theme. -/
def deletePres (ps : List Dict) (presentation_id : String) : Except SanctifyError (List Dict) :=
  match ps.find? (fun p => keyEqStr p "id" presentation_id) with
  | none =>
    .error (mkSanctifyError "PresentationModel" "DELETE_001"
      ("Presentation not found: " ++ presentation_id))
  | some _ => .ok (ps.eraseP (fun p => keyEqStr p "id" presentation_id))

/- Item loop of ThemeModel._load_themes, the same shape as _load_songs:
valid records are kept in order, invalid dictionaries are skipped, and a
non-dictionary item makes the warning f-string raise (item.get on a
non-dict), wrapped as LOAD_003. -/
def loadThemeList (path : String) : List Json → Except SanctifyError (List Dict)
  | [] => .ok []
  | Json.obj d :: rest =>
    if validateTheme d then
      match loadThemeList path rest with
      | .ok tail => .ok (d :: tail)
      | .error e => .error e
    else loadThemeList path rest
  | _ :: _ =>
    .error (mkSanctifyError "ThemeModel" "LOAD_003"
      ("Error loading themes from " ++ path ++ ": item has no attribute get"))

/- Embedding of ThemeModel._load_themes on a parsed document. -/
def loadThemes (file : Json) (path : String) : Except SanctifyError (List Dict) :=
  match file with
  | Json.arr items => loadThemeList path items
  | _ =>
    .error (mkSanctifyError "ThemeModel" "LOAD_001"
      ("Themes file " ++ path ++ " is not a list"))

/- Item loop of PresentationModel._load_presentations; validation gets the
referential context the model was constructed with. -/
def loadPresList (ctx : Option (List String) × Option (List String)) (mdir path : String) :
    List Json → Except SanctifyError (List Dict)
  | [] => .ok []
  | Json.obj d :: rest =>
    if validatePres ctx.1 ctx.2 mdir d then
      match loadPresList ctx mdir path rest with
      | .ok tail => .ok (d :: tail)
      | .error e => .error e
    else loadPresList ctx mdir path rest
  | _ :: _ =>
    .error (mkSanctifyError "PresentationModel" "LOAD_003"
      ("Error loading presentations from " ++ path ++ ": item has no attribute get"))

/- Embedding of PresentationModel._load_presentations on a parsed document. -/
def loadPresentations (ctx : Option (List String) × Option (List String)) (mdir : String)
    (file : Json) (path : String) : Except SanctifyError (List Dict) :=
  match file with
  | Json.arr items => loadPresList ctx mdir path items
  | _ =>
    .error (mkSanctifyError "PresentationModel" "LOAD_001"
      ("Presentations file " ++ path ++ " is not a list"))

/- Item loop of MediaModel._load_media; validation consults the media
directory and the file system snapshot. -/
def loadMediaList (mdir : String) (fs : List String) (path : String) :
    List Json → Except SanctifyError (List Dict)
  | [] => .ok []
  | Json.obj d :: rest =>
    if validateMedia mdir fs d then
      match loadMediaList mdir fs path rest with
      | .ok tail => .ok (d :: tail)
      | .error e => .error e
    else loadMediaList mdir fs path rest
  | _ :: _ =>
    .error (mkSanctifyError "MediaModel" "LOAD_003"
      ("Error loading media from " ++ path ++ ": item has no attribute get"))

/- Embedding of MediaModel._load_media on a parsed document. -/
def loadMedia (mdir : String) (fs : List String) (file : Json) (path : String) :
    Except SanctifyError (List Dict) :=
  match file with
  | Json.arr items => loadMediaList mdir fs path items
  | _ =>
    .error (mkSanctifyError "MediaModel" "LOAD_001"
      ("Media file " ++ path ++ " is not a list"))

/- Common shape of the _save_* methods: json.dump of the prepared document
succeeds, or the OS write fails with the message m and the method raises
SAVE_001. -/
def saveToFile (module msgPre path : String) (doc : Json) (ioError : Option String) :
    Except SanctifyError Json :=
  match ioError with
  | none => .ok doc
  | some m => .error (mkSanctifyError module "SAVE_001" (msgPre ++ path ++ ": " ++ m))

/- Embedding of SongModel._save_songs as an operation: the written
document is saveSongs songs. -/
def saveSongsFile (songs : List Dict) (path : String) (ioError : Option String) :
    Except SanctifyError Json :=
  saveToFile "SongModel" "Error saving songs to " path (saveSongs songs) ioError

/- Embedding of ThemeModel._save_themes. -/
def saveThemes (themes : List Dict) (path : String) (ioError : Option String) :
    Except SanctifyError Json :=
  saveToFile "ThemeModel" "Error saving themes to " path (Json.arr (themes.map Json.obj)) ioError

/- Embedding of PresentationModel._save_presentations. -/
def savePresentations (ps : List Dict) (path : String) (ioError : Option String) :
    Except SanctifyError Json :=
  saveToFile "PresentationModel" "Error saving presentations to " path
    (Json.arr (ps.map Json.obj)) ioError

/- Embedding of MediaModel._save_media. -/
def saveMedia (media : List Dict) (path : String) (ioError : Option String) :
    Except SanctifyError Json :=
  saveToFile "MediaModel" "Error saving media to " path (Json.arr (media.map Json.obj)) ioError

/- Embedding of SettingsManager._save_settings. -/
def saveSettings (settings : Dict) (path : String) (ioError : Option String) :
    Except SanctifyError Json :=
  saveToFile "SettingsManager" "Error saving settings to " path (Json.obj settings) ioError

/-
Search operations. Every search lowers and strips its query and tag
first; each record is then tested exactly as the Python loop body reads
its fields, so a record that makes the loop body raise (a missing key, a
non-string where a string method is called) turns into the wrapped
SEARCH_001 error of the enclosing try.
-/

/- Generic scan of the per-record loop body: an error aborts, a None skips
the record, a value is collected in order. -/
def scanRecords (f : Dict → Except SanctifyError (Option Dict)) :
    List Dict → Except SanctifyError (List Dict)
  | [] => .ok []
  | x :: rest =>
    match f x with
    | .error e => .error e
    | .ok none => scanRecords f rest
    | .ok (some y) =>
      match scanRecords f rest with
      | .error e => .error e
      | .ok tail => .ok (y :: tail)

/- any(q in t.lower() for t in d.get("tags", "").split(",")): a missing
tags key reads as "", a non-string tags value has no split. -/
def recMatchesTags (q : String) (d : Dict) : Except Unit Bool :=
  match dget d "tags" with
  | none => .ok (("".splitOn ",").any (fun t => strContains (low t) q))
  | some (Json.str ts) => .ok ((ts.splitOn ",").any (fun t => strContains (low t) q))
  | some _ => .error ()

/- not tag or tag in d.get("tags", "").lower(): evaluated only for a
non-empty tag, a non-string tags value has no lower. -/
def recMatchesTag (tag : String) (d : Dict) : Except Unit Bool :=
  if tag == "" then .ok true
  else
    match dget d "tags" with
    | none => .ok (strContains "" tag)
    | some (Json.str ts) => .ok (strContains (low ts) tag)
    | some _ => .error ()

/- Shared loop body of the theme, presentation and media searches once a
record passed its filter: matches_query reads name first and falls back
to the tags, matches_tag reads the tags; the record is collected when
both hold. -/
def nameTagRecord (module q tag msgPre : String) (d : Dict) :
    Except SanctifyError (Option Dict) :=
  match dget d "name" with
  | none => .error (mkSanctifyError module "SEARCH_001" (msgPre ++ ": KeyError name"))
  | some (Json.str nm) =>
    match (if strContains (low nm) q then Except.ok true else recMatchesTags q d) with
    | .error _ =>
      .error (mkSanctifyError module "SEARCH_001" (msgPre ++ ": tags has no attribute split"))
    | .ok mq =>
      match recMatchesTag tag d with
      | .error _ =>
        .error (mkSanctifyError module "SEARCH_001" (msgPre ++ ": tags has no attribute lower"))
      | .ok mt => .ok (if mq && mt then some d else none)
  | some _ =>
    .error (mkSanctifyError module "SEARCH_001" (msgPre ++ ": name has no attribute lower"))

/- Loop body of ThemeModel.search_themes: the context filter skips
records of another context before the name is read; reading the context
of a record without one raises KeyError, wrapped as SEARCH_001. -/
def searchThemesRecord (q context tag : String) (t : Dict) :
    Except SanctifyError (Option Dict) :=
  if context != "" && !(hasKey t "context") then
    .error (mkSanctifyError "ThemeModel" "SEARCH_001"
      ("Error searching themes with query " ++ q ++ ": KeyError context"))
  else if context != "" && !(dget t "context" == some (Json.str context)) then
    .ok none
  else
    nameTagRecord "ThemeModel" q tag ("Error searching themes with query " ++ q) t

/- Embedding of ThemeModel.search_themes; all collected records carry a
string name (matches_query read it), so the final sort cannot raise. -/
def searchThemes (themes : List Dict) (query context tag : String) :
    Except SanctifyError (List Dict) :=
  match scanRecords
      (searchThemesRecord (pyStrip (low query)) context (pyStrip (low tag))) themes with
  | .error e => .error e
  | .ok rs => .ok (rs.insertionSort (dictKeyLe "name"))

/- Loop body of MediaModel.search_media with its category filter. -/
def searchMediaRecord (q category tag : String) (m : Dict) :
    Except SanctifyError (Option Dict) :=
  if category != "" && !(hasKey m "category") then
    .error (mkSanctifyError "MediaModel" "SEARCH_001"
      ("Error searching media with query " ++ q ++ ": KeyError category"))
  else if category != "" && !(dget m "category" == some (Json.str category)) then
    .ok none
  else
    nameTagRecord "MediaModel" q tag ("Error searching media with query " ++ q) m

/- Embedding of MediaModel.search_media. -/
def searchMedia (media : List Dict) (query category tag : String) :
    Except SanctifyError (List Dict) :=
  match scanRecords
      (searchMediaRecord (pyStrip (low query)) category (pyStrip (low tag))) media with
  | .error e => .error e
  | .ok rs => .ok (rs.insertionSort (dictKeyLe "name"))

/- Embedding of PresentationModel.search_presentations, the unfiltered
name-or-tags search. -/
def searchPresentations (ps : List Dict) (query tag : String) :
    Except SanctifyError (List Dict) :=
  match scanRecords
      (nameTagRecord "PresentationModel" (pyStrip (low query)) (pyStrip (low tag))
        ("Error searching presentations with query " ++ pyStrip (low query))) ps with
  | .error e => .error e
  | .ok rs => .ok (rs.insertionSort (dictKeyLe "name"))

/- One element of song["sections"] in the "lyrics" search mode: Python
unpacks it into (_, text) and evaluates query in text.lower(). A
two-element list with a string second component matches normally; a
two-character string or a two-entry dictionary also unpacks, to its
characters or keys; every other shape raises, wrapped as SEARCH_001. -/
def lyricsItemMatch (q : String) : Json → Except SanctifyError Bool
  | Json.arr [_, Json.str t] => .ok (strContains (low t) q)
  | Json.arr [_, _] =>
    .error (mkSanctifyError "SongModel" "SEARCH_001"
      ("Error searching songs with query " ++ q ++ ": text has no attribute lower"))
  | Json.str s =>
    match s.data with
    | [_, c2] => .ok (strContains (low ⟨[c2]⟩) q)
    | _ =>
      .error (mkSanctifyError "SongModel" "SEARCH_001"
        ("Error searching songs with query " ++ q ++ ": cannot unpack section"))
  | Json.obj [_, (k2, _)] => .ok (strContains (low k2) q)
  | _ =>
    .error (mkSanctifyError "SongModel" "SEARCH_001"
      ("Error searching songs with query " ++ q ++ ": cannot unpack section"))

/- any(...) over the section elements: lazy, so a malformed element after
a match is never reached. -/
def lyricsAny (q : String) : List Json → Except SanctifyError Bool
  | [] => .ok false
  | x :: rest =>
    match lyricsItemMatch q x with
    | .error e => .error e
    | .ok true => .ok true
    | .ok false => lyricsAny q rest

/- Iterating song.get("sections", []) in the lyrics mode: a list iterates
its elements; a string iterates its characters, which fail to unpack
unless the string is empty; a dictionary iterates its keys, which unpack
exactly like strings; other values are not iterable. -/
def sectionsIter (q : String) : Json → Except SanctifyError Bool
  | Json.arr xs => lyricsAny q xs
  | Json.str s =>
    if s == "" then .ok false
    else
      .error (mkSanctifyError "SongModel" "SEARCH_001"
        ("Error searching songs with query " ++ q ++ ": cannot unpack section"))
  | Json.obj d => lyricsAny q (d.map (fun kv => Json.str kv.fst))
  | _ =>
    .error (mkSanctifyError "SongModel" "SEARCH_001"
      ("Error searching songs with query " ++ q ++ ": sections is not iterable"))

/- matches_query of SongModel.search_songs: the three modes read the
title, the sections, or the tags; an unknown mode matches nothing. -/
def songMatchesQuery (q mode : String) (s : Dict) : Except SanctifyError Bool :=
  if mode == "title" then
    match dget s "title" with
    | some (Json.str t) => .ok (strContains (low t) q)
    | some _ =>
      .error (mkSanctifyError "SongModel" "SEARCH_001"
        ("Error searching songs with query " ++ q ++ ": title has no attribute lower"))
    | none =>
      .error (mkSanctifyError "SongModel" "SEARCH_001"
        ("Error searching songs with query " ++ q ++ ": KeyError title"))
  else if mode == "lyrics" then
    match dget s "sections" with
    | none => .ok false
    | some v => sectionsIter q v
  else if mode == "tags" then
    match dget s "tags" with
    | none => .ok (("".splitOn ",").any (fun t => strContains (low t) q))
    | some (Json.str ts) => .ok ((ts.splitOn ",").any (fun t => strContains (low t) q))
    | some _ =>
      .error (mkSanctifyError "SongModel" "SEARCH_001"
        ("Error searching songs with query " ++ q ++ ": tags has no attribute split"))
  else .ok false

/- matches_tag of SongModel.search_songs. -/
def songMatchesTag (q tag : String) (s : Dict) : Except SanctifyError Bool :=
  if tag == "" then .ok true
  else
    match dget s "tags" with
    | none => .ok (strContains "" tag)
    | some (Json.str ts) => .ok (strContains (low ts) tag)
    | some _ =>
      .error (mkSanctifyError "SongModel" "SEARCH_001"
        ("Error searching songs with query " ++ q ++ ": tags has no attribute lower"))

/- Loop body of SongModel.search_songs: matches_query is computed first,
then matches_tag, then the record is collected when both hold. -/
def searchSongsRecord (q tag mode : String) (s : Dict) :
    Except SanctifyError (Option Dict) :=
  match songMatchesQuery q mode s with
  | .error e => .error e
  | .ok mq =>
    match songMatchesTag q tag s with
    | .error e => .error e
    | .ok mt => .ok (if mq && mt then some s else none)

/- Embedding of SongModel.search_songs. Unlike the other searches, a
record can be collected in the lyrics or tags mode without its title
being read, so the final sorted(key=title.lower) can itself raise on a
collected record without a string title, wrapped as SEARCH_001. -/
def searchSongs (songs : List Dict) (query mode tag : String) :
    Except SanctifyError (List Dict) :=
  match scanRecords
      (searchSongsRecord (pyStrip (low query)) (pyStrip (low tag)) mode) songs with
  | .error e => .error e
  | .ok rs =>
    if rs.all (fun r => match dget r "title" with | some (Json.str _) => true | _ => false) then
      .ok (rs.insertionSort (dictKeyLe "title"))
    else
      .error (mkSanctifyError "SongModel" "SEARCH_001"
        ("Error searching songs with query " ++ pyStrip (low query) ++
          ": title has no attribute lower"))

/-
Scripture search and the whole-bible add and delete. get_verses and
search_verses read the loaded, validated bibles through the typed view;
add_bible and delete_bible handle raw JSON documents, so they work on the
raw association list from bible id to document.
-/

/- One result row of ScriptureModel.search_verses. -/
structure VerseHit where
  book : String
  chapter : Int
  verse : Int
  text : String

/- The sort key tuple (book.lower(), chapter, verse), compared
lexicographically. -/
def verseHitLeB (a b : VerseHit) : Bool :=
  if low a.book != low b.book then charsLe (low a.book).data (low b.book).data
  else if a.chapter != b.chapter then decide (a.chapter < b.chapter)
  else decide (a.verse ≤ b.verse)

def verseHitLE (a b : VerseHit) : Prop := verseHitLeB a b = true

instance : DecidableRel verseHitLE := fun _ _ => Bool.decEq _ _

/- The nested loop of search_verses: every verse of every chapter of
every book whose text contains the query, in book, chapter, verse
order. -/
def verseHits (q : String) (b : Bible) : List VerseHit :=
  (b.books.map (fun bk =>
    (bk.chapters.map (fun ch =>
      (ch.verses.filter (fun v => strContains (low v.text) q)).map
        (fun v => VerseHit.mk bk.name ch.chapter v.verse v.text))).flatten)).flatten

/- Embedding of ScriptureModel.search_verses. -/
def searchVerses (bibles : List (String × Bible)) (bible_id query : String) :
    Except SanctifyError (List VerseHit) :=
  match getBible bibles bible_id with
  | none =>
    .error (mkSanctifyError "ScriptureModel" "SEARCH_001" ("Bible not found: " ++ bible_id))
  | some b => .ok ((verseHits (pyStrip (low query)) b).insertionSort verseHitLE)

/- Embedding of the verse check of ScriptureModel._validate_bible; Python
treats bool as int, so a boolean verse number passes isinstance with True
counting as 1. -/
def validateVerseJ : Json → Bool
  | Json.obj v =>
    (match dget v "verse" with
     | some (Json.int n) => decide (0 < n)
     | some (Json.bool b) => b
     | _ => false) &&
    (match dget v "text" with | some (Json.str s) => pyStrip s != "" | _ => false)
  | _ => false

/- Embedding of the chapter check of _validate_bible. -/
def validateChapterJ : Json → Bool
  | Json.obj c =>
    (match dget c "chapter" with
     | some (Json.int n) => decide (0 < n)
     | some (Json.bool b) => b
     | _ => false) &&
    (match dget c "verses" with | some (Json.arr vs) => vs.all validateVerseJ | _ => false)
  | _ => false

/- Embedding of the book check of _validate_bible. -/
def validateBookJ : Json → Bool
  | Json.obj b =>
    (match dget b "name" with | some (Json.str s) => pyStrip s != "" | _ => false) &&
    (match dget b "chapters" with
     | some (Json.arr cs) => cs.all validateChapterJ
     | _ => false)
  | _ => false

/- Embedding of ScriptureModel._validate_bible. -/
def validateBible : Json → Bool
  | Json.obj d =>
    (match dget d "name" with | some (Json.str s) => pyStrip s != "" | _ => false) &&
    (match dget d "books" with | some (Json.arr bs) => bs.all validateBookJ | _ => false)
  | _ => false

/- self.bibles.get(bible_id) on the raw documents. -/
def getBibleJ : List (String × Json) → String → Option Json
  | [], _ => none
  | (k, b) :: rest, key => if k == key then some b else getBibleJ rest key

/- Display of a JSON value inside an f-string; container values are shown
abbreviated, the scalar forms are the Python ones. -/
def jsonDisplay : Json → String
  | Json.null => "None"
  | Json.bool true => "True"
  | Json.bool false => "False"
  | Json.int n => toString n
  | Json.str s => s
  | Json.arr _ => "[...]"
  | Json.obj _ => "\x7b...\x7d"

/- Embedding of ScriptureModel.add_bible: a known id raises ADD_001; an
invalid document raises ADD_002, whose message reads
bible_data.get("name", "Unknown") and therefore itself raises on a
non-dictionary document, wrapped as ADD_004; the following file write
can only fail in the OS (ADD_003). -/
def addBible (bibles : List (String × Json)) (bible_data : Json) (bible_id : String) :
    Except SanctifyError (List (String × Json)) :=
  if bibles.any (fun kv => kv.fst == bible_id) then
    .error (mkSanctifyError "ScriptureModel" "ADD_001" ("Bible already exists: " ++ bible_id))
  else if validateBible bible_data then
    .ok (bibles ++ [(bible_id, bible_data)])
  else
    match bible_data with
    | Json.obj d =>
      .error (mkSanctifyError "ScriptureModel" "ADD_002"
        ("Invalid bible data for " ++
          (match dget d "name" with
           | some (Json.str s) => s
           | none => "Unknown"
           | some v => jsonDisplay v)))
    | _ =>
      .error (mkSanctifyError "ScriptureModel" "ADD_004"
        "Error adding bible: bible data has no attribute get")

/- Embedding of ScriptureModel.delete_bible: a missing id, or a stored
falsy document (if not bible), raises DELETE_001; the file removal can
only fail in the OS (DELETE_002); del then drops the entry. -/
def deleteBible (bibles : List (String × Json)) (bible_id : String) :
    Except SanctifyError (List (String × Json)) :=
  match getBibleJ bibles bible_id with
  | none =>
    .error (mkSanctifyError "ScriptureModel" "DELETE_001" ("Bible not found: " ++ bible_id))
  | some b =>
    if jsonFalsy b then
      .error (mkSanctifyError "ScriptureModel" "DELETE_001" ("Bible not found: " ++ bible_id))
    else .ok (bibles.eraseP (fun kv => kv.fst == bible_id))

/-
Remaining operations of SettingsManager. File reads and writes stay
environmental; parsed file contents arrive as Option Json with none for
a json.JSONDecodeError.
-/

/- self.default_settings[section][key], the reset target of
_validate_settings: a missing section or key raises KeyError and a
non-dictionary section raises TypeError, both wrapped as VALIDATE_001. -/
def resetDefault (defaults : Dict) (sect key : String) : Except Unit Json :=
  match dget defaults sect with
  | some (Json.obj d) =>
    match dget d key with
    | some v => .ok v
    | none => .error ()
  | _ => .error ()

/- Per-key normalisation of _validate_settings. isinstance(value, int)
admits bool, but True and False are below 60; no JSON value of the model
is a Python float, so the default_playback_speed check always resets. -/
def validateSettingValue (defaults : Dict) (sect key : String) (v : Json) :
    Except Unit Json :=
  if sect == "general" then
    if key == "startup_screen" &&
        !(isOneOfStr v ["Songs", "Scriptures", "Media", "Presentations", "Themes"]) then
      resetDefault defaults sect key
    else if key == "language" &&
        !(isOneOfStr v ["English", "Spanish", "French", "German"]) then
      resetDefault defaults sect key
    else .ok v
  else if sect == "appearance" then
    if key == "theme" && !(isOneOfStr v ["Light", "Dark"]) then
      resetDefault defaults sect key
    else .ok v
  else if sect == "behavior" then
    if key == "auto_save_interval" &&
        !(match v with | Json.int n => decide (60 ≤ n) && decide (n ≤ 3600) | _ => false) then
      resetDefault defaults sect key
    else if key == "default_playback_speed" then
      resetDefault defaults sect key
    else .ok v
  else if sect == "paths" then
    match v with
    | Json.str _ => .ok v
    | _ => resetDefault defaults sect key
  else .ok v

/- Inner loop of _validate_settings over one section dictionary. -/
def validateSettingsSection (defaults : Dict) (sect : String) :
    List (String × Json) → Except Unit (List (String × Json))
  | [] => .ok []
  | (k, v) :: rest =>
    match validateSettingValue defaults sect k v with
    | .error e => .error e
    | .ok v2 =>
      match validateSettingsSection defaults sect rest with
      | .error e => .error e
      | .ok tail => .ok ((k, v2) :: tail)

/- Outer loop of _validate_settings over the sections; keys.items() on a
non-dictionary section value raises AttributeError. -/
def validateSettingsLoop (defaults : Dict) :
    List (String × Json) → Except Unit (List (String × Json))
  | [] => .ok []
  | (s, Json.obj keys) :: rest =>
    match validateSettingsSection defaults s keys with
    | .error e => .error e
    | .ok keys2 =>
      match validateSettingsLoop defaults rest with
      | .error e => .error e
      | .ok tail => .ok ((s, Json.obj keys2) :: tail)
  | (_, _) :: _ => .error ()

/- Embedding of SettingsManager._validate_settings: normalise every key,
wrapping any failure as VALIDATE_001; the final _save_settings can only
fail in the OS. -/
def validateSettings (defaults settings : Dict) : Except SanctifyError Dict :=
  match validateSettingsLoop defaults settings with
  | .ok s => .ok s
  | .error _ =>
    .error (mkSanctifyError "SettingsManager" "VALIDATE_001"
      "Error validating settings: invalid section or missing default")

/- Embedding of SettingsManager.load_settings: a missing file or a
decode error falls back to the defaults without raising; a parsed
non-dictionary crashes the merge, and a _validate_settings failure is a
SanctifyError; load_settings has no SanctifyError re-raise clause, so
both are wrapped as LOAD_001. -/
def loadSettings (defaults : Dict) (cfgPath : String) (fileExists : Bool)
    (parsed : Option Json) : Except SanctifyError Dict :=
  if fileExists then
    match parsed with
    | none => .ok defaults
    | some (Json.obj loaded) =>
      match validateSettings defaults (mergeSettings defaults loaded) with
      | .ok s => .ok s
      | .error e =>
        .error (mkSanctifyError "SettingsManager" "LOAD_001"
          ("Error loading settings from " ++ cfgPath ++ ": " ++ e.message))
    | some _ =>
      .error (mkSanctifyError "SettingsManager" "LOAD_001"
        ("Error loading settings from " ++ cfgPath ++ ": loaded settings has no attribute items"))
  else .ok defaults

/- KeyError fallback of get_setting: the provided default if not None,
else self.default_settings.get(section, {}).get(key), whose .get raises
on a non-dictionary defaults section. -/
def getSettingFallback (defaults : Dict) (sect key : String) (default : Option Json) :
    Except SanctifyError Json :=
  match default with
  | some d => .ok d
  | none =>
    match dget defaults sect with
    | some (Json.obj d2) => .ok ((dget d2 key).getD Json.null)
    | none => .ok Json.null
    | some _ =>
      .error (mkSanctifyError "SettingsManager" "GET_001"
        ("Error retrieving setting " ++ sect ++ "." ++ key ++
          ": default section has no attribute get"))

/- Embedding of SettingsManager.get_setting: self.settings[section][key]
with a KeyError fallback; indexing a non-dictionary section value raises
TypeError, which the KeyError clause misses, wrapped as GET_001. -/
def getSetting (defaults settings : Dict) (sect key : String) (default : Option Json) :
    Except SanctifyError Json :=
  match dget settings sect with
  | some (Json.obj sec) =>
    match dget sec key with
    | some v => .ok v
    | none => getSettingFallback defaults sect key default
  | none => getSettingFallback defaults sect key default
  | some _ =>
    .error (mkSanctifyError "SettingsManager" "GET_001"
      ("Error retrieving setting " ++ sect ++ "." ++ key ++
        ": section value is not subscriptable"))

/- developer_mode side effect of set_setting: log_level mirrors the
truthiness of the new value. The advanced section was assigned one step
earlier, so it is a dictionary; the last arm is unreachable. -/
def setSettingFinish (s : Dict) (sect key : String) (value : Json) : Dict :=
  if sect == "advanced" && key == "developer_mode" then
    match dget s "advanced" with
    | some (Json.obj adv) =>
      dset s "advanced" (Json.obj (dset adv "log_level"
        (Json.str (if jsonFalsy value then "INFO" else "DEBUG"))))
    | _ => s
  else s

/- Embedding of SettingsManager.set_setting: a missing section is
created empty, then settings[section][key] = value; item assignment on a
non-dictionary section value raises TypeError, wrapped as SET_001; the
saves and the Qt signal are environmental. -/
def setSetting (settings : Dict) (sect key : String) (value : Json) :
    Except SanctifyError Dict :=
  match dget settings sect with
  | some (Json.obj sec) =>
    .ok (setSettingFinish (dset settings sect (Json.obj (dset sec key value)))
      sect key value)
  | none =>
    .ok (setSettingFinish (dset settings sect (Json.obj [(key, value)]))
      sect key value)
  | some _ =>
    .error (mkSanctifyError "SettingsManager" "SET_001"
      ("Failed to set setting " ++ sect ++ "." ++ key ++
        ": section value does not support item assignment"))

/- Embedding of SettingsManager.reset_settings: the settings become a
copy of the defaults; only the save and the signals can fail, wrapped as
RESET_001. -/
def resetSettings (defaults : Dict) (ioError : Option String) : Except SanctifyError Dict :=
  match ioError with
  | none => .ok defaults
  | some m =>
    .error (mkSanctifyError "SettingsManager" "RESET_001" ("Error resetting settings: " ++ m))

/- Embedding of SettingsManager.export_settings: json.dump of the
current settings; only the write can fail, wrapped as EXPORT_001. -/
def exportSettings (settings : Dict) (file_path : String) (ioError : Option String) :
    Except SanctifyError Json :=
  match ioError with
  | none => .ok (Json.obj settings)
  | some m =>
    .error (mkSanctifyError "SettingsManager" "EXPORT_001"
      ("Error exporting settings to " ++ file_path ++ ": " ++ m))

/- Embedding of SettingsManager.import_settings: a decode error raises
IMPORT_001; a non-dictionary document crashes the merge and a
_validate_settings failure is a SanctifyError, both caught by the broad
clause and wrapped as IMPORT_002. -/
def importSettings (defaults : Dict) (file_path : String) (parsed : Option Json) :
    Except SanctifyError Dict :=
  match parsed with
  | none =>
    .error (mkSanctifyError "SettingsManager" "IMPORT_001"
      ("Corrupted JSON in " ++ file_path ++ ": invalid JSON"))
  | some (Json.obj imported) =>
    match validateSettings defaults (mergeSettings defaults imported) with
    | .ok s => .ok s
    | .error e =>
      .error (mkSanctifyError "SettingsManager" "IMPORT_002"
        ("Error importing settings from " ++ file_path ++ ": " ++ e.message))
  | some _ =>
    .error (mkSanctifyError "SettingsManager" "IMPORT_002"
      ("Error importing settings from " ++ file_path ++ ": imported settings has no attribute items"))

/- Per-path loop of validate_paths: a non-string configured path raises
PATH_TYPE_{KEY}, re-raised through the inner clause and wrapped as
PATH_VALIDATE_001 by the outer one; the isfile/isdir/access checks are
the environmental argument. -/
def validatePathsLoop (checks : String → String → Bool) :
    List (String × Json) → Except SanctifyError (List (String × Json))
  | [] => .ok []
  | (k, Json.str p) :: rest =>
    match validatePathsLoop checks rest with
    | .error e => .error e
    | .ok tail => .ok ((k, Json.bool (checks k p)) :: tail)
  | (k, _) :: _ =>
    .error (mkSanctifyError "SettingsManager" "PATH_VALIDATE_001"
      ("Error validating paths: [SettingsManager] PATH_TYPE_" ++ pyUpper k ++
        ": Invalid path type for " ++ k ++ ", expected string"))

/- Embedding of SettingsManager.validate_paths. It calls
get_setting("paths", \x7b\x7d, self.default_settings["paths"]): the key
argument is a dictionary, so whenever settings contains "paths" the
lookup raises TypeError (unhashable key), surfacing as GET_001 wrapped
in PATH_VALIDATE_001; the default dictionary is reached only through the
KeyError clause, after which the per-path loop runs. -/
def validatePaths (defaults settings : Dict) (checks : String → String → Bool) :
    Except SanctifyError Dict :=
  match dget defaults "paths" with
  | none =>
    .error (mkSanctifyError "SettingsManager" "PATH_VALIDATE_001"
      "Error validating paths: KeyError paths")
  | some dflt =>
    if hasKey settings "paths" then
      .error (mkSanctifyError "SettingsManager" "PATH_VALIDATE_001"
        "Error validating paths: [SettingsManager] GET_001: Error retrieving setting paths.\x7b\x7d: unhashable type")
    else
      match dflt with
      | Json.null =>
        .error (mkSanctifyError "SettingsManager" "PATH_VALIDATE_001"
          "Error validating paths: [SettingsManager] GET_001: Error retrieving setting paths.\x7b\x7d: unhashable type")
      | Json.obj dp =>
        match validatePathsLoop checks dp with
        | .ok results => .ok results
        | .error e => .error e
      | _ =>
        .error (mkSanctifyError "SettingsManager" "PATH_VALIDATE_001"
          "Error validating paths: paths default has no attribute items")

/- Embedding of SettingsManager.get_all_settings:
json.loads(json.dumps(settings)) is the identity on JSON values, so the
deep copy is the settings themselves and the GET_ALL_001 clause is
unreachable on the data model. -/
def getAllSettings (settings : Dict) : Except SanctifyError Dict :=
  .ok settings

/- Embedding of SettingsManager._ensure_directories: os.makedirs of the
config directory succeeds or fails in the OS, wrapped as DIR_001. -/
def ensureDirectories (ioError : Option String) : Except SanctifyError Unit :=
  match ioError with
  | none => .ok ()
  | some m =>
    .error (mkSanctifyError "SettingsManager" "DIR_001"
      ("Error creating config directory: " ++ m))

/- Embedding of SettingsManager.__init__ after the defaults are built:
_ensure_directories then load_settings; a SanctifyError from either is
re-raised unchanged, and the INIT_001 wrap catches only non-SanctifyError
environmental failures, which the embedded callees never produce. -/
def initSettingsManager (defaults : Dict) (cfgPath : String) (dirError : Option String)
    (fileExists : Bool) (parsed : Option Json) : Except SanctifyError Dict :=
  match ensureDirectories dirError with
  | .error e => .error e
  | .ok _ => loadSettings defaults cfgPath fileExists parsed

/-
Basic lemmas about the dictionary operations and the list patterns the
models use.
-/

theorem dget_dset (d : Dict) (k : String) (v : Json) (k2 : String) :
    dget (dset d k v) k2 = if k2 = k then some v else dget d k2 := by
  induction d with
  | nil =>
    by_cases h : k2 = k
    · subst h; simp [dset, dget]
    · have hb : (k == k2) = false := beq_eq_false_iff_ne.mpr (Ne.symm h)
      simp [dset, dget, hb, h]
  | cons kv rest ih =>
    obtain ⟨k0, v0⟩ := kv
    by_cases h0 : k0 = k
    · subst h0
      by_cases h : k2 = k0
      · subst h; simp [dset, dget]
      · have hb : (k0 == k2) = false := beq_eq_false_iff_ne.mpr (Ne.symm h)
        simp [dset, dget, hb, h]
    · have hb0 : (k0 == k) = false := beq_eq_false_iff_ne.mpr h0
      by_cases h2 : k0 = k2
      · subst h2
        simp [dset, dget, hb0, h0]
      · have hb2 : (k0 == k2) = false := beq_eq_false_iff_ne.mpr h2
        simp [dset, dget, hb0, hb2, ih]

theorem dget_dset_self (d : Dict) (k : String) (v : Json) :
    dget (dset d k v) k = some v := by
  simp [dget_dset]

theorem dget_dset_ne (d : Dict) (k : String) (v : Json) (k2 : String) (h : k2 ≠ k) :
    dget (dset d k v) k2 = dget d k2 := by
  simp [dget_dset, h]

/- Decomposition of a successful linear search: the list splits at the
found element, everything before it fails the predicate, and eraseP with
the same predicate removes exactly the found element. -/
theorem findEraseDecomp {α : Type} (p : α → Bool) (l : List α) (x : α)
    (h : l.find? p = some x) :
    ∃ l1 l2, l = l1 ++ x :: l2 ∧ (∀ y ∈ l1, p y = false) ∧ p x = true ∧
      l.eraseP p = l1 ++ l2 := by
  induction l with
  | nil => simp [List.find?] at h
  | cons a rest ih =>
    by_cases ha : p a = true
    · refine ⟨[], rest, ?_, ?_, ?_, ?_⟩
      · simp only [List.find?, ha] at h
        simp at h
        subst h; rfl
      · intro y hy; simp at hy
      · simp only [List.find?, ha] at h
        simp at h
        subst h; exact ha
      · simp [List.eraseP_cons, ha]
    · have ha2 : p a = false := by
        cases hpa : p a
        · rfl
        · exact absurd hpa ha
      simp only [List.find?, ha2] at h
      obtain ⟨l1, l2, hl, hl1, hx, he⟩ := ih h
      refine ⟨a :: l1, l2, ?_, ?_, hx, ?_⟩
      · simp [hl]
      · intro y hy
        rcases List.mem_cons.mp hy with h1 | h1
        · subst h1; exact ha2
        · exact hl1 y h1
      · simp [List.eraseP_cons, ha2, he]

/- Emptiness of the stripped string means every character is whitespace. -/
theorem pyStrip_eq_empty (s : String) (h : pyStrip s = "") :
    ∀ c ∈ s.data, isSpace c = true := by
  intro c hc
  have hdata : ((s.data.dropWhile isSpace).reverse.dropWhile isSpace).reverse = [] := by
    have := congrArg String.data h
    simpa [pyStrip] using this
  rw [List.reverse_eq_nil_iff] at hdata
  have hall : ∀ x ∈ (s.data.dropWhile isSpace).reverse, isSpace x = true := by
    rw [← List.dropWhile_eq_nil_iff]
    exact hdata
  have hall2 : ∀ x ∈ s.data.dropWhile isSpace, isSpace x = true := by
    intro x hx
    exact hall x (List.mem_reverse.mpr hx)
  have hsplit := List.takeWhile_append_dropWhile isSpace s.data
  rw [← hsplit] at hc
  rcases List.mem_append.mp hc with h1 | h1
  · exact List.mem_takeWhile_imp h1
  · exact hall2 c h1

/- A string containing a non-whitespace character does not strip to the
empty string; the closing parenthesis of the suffix " (Copy)" is the
witness used below. -/
theorem pyStrip_ne_empty (s : String) (c : Char) (hc : c ∈ s.data)
    (hcs : isSpace c = false) : pyStrip s ≠ "" := by
  intro h
  have := pyStrip_eq_empty s h c hc
  rw [hcs] at this
  exact Bool.false_ne_true this

theorem low_append (a b : String) : low (a ++ b) = low a ++ low b := by
  simp only [low]
  have : (a ++ b).data = a.data ++ b.data := rfl
  rw [this, List.map_append]
  rfl

/-
Frame lemmas for the record builders of the song model.
-/

theorem dget_defaultField_ne (d : Dict) (k : String) (v : Json) (k2 : String) (h : k2 ≠ k) :
    dget (defaultField d k v) k2 = dget d k2 := by
  unfold defaultField
  split
  · rfl
  · exact dget_dset_ne d k v k2 h

theorem dget_defaultField_self (d : Dict) (k : String) (v : Json) :
    dget (defaultField d k v) k = (dget d k).or (some v) := by
  unfold defaultField hasKey
  cases hd : dget d k
  · simp [hd, dget_dset_self]
  · simp [hd]

theorem dget_newSongRecord_title (sd : Dict) (now : String) :
    dget (newSongRecord sd now) "title" = dget sd "title" := by
  unfold newSongRecord
  rw [dget_defaultField_ne _ _ _ _ (by decide), dget_defaultField_ne _ _ _ _ (by decide),
    dget_dset_ne _ _ _ _ (by decide), dget_dset_ne _ _ _ _ (by decide)]

theorem dget_mergeUpdatedSong_title (song sd : Dict) (now : String) :
    dget (mergeUpdatedSong song sd now) "title" = dget sd "title" := by
  unfold mergeUpdatedSong
  rw [dget_defaultField_ne _ _ _ _ (by decide), dget_defaultField_ne _ _ _ _ (by decide),
    dget_dset_ne _ _ _ _ (by decide), dget_dset_ne _ _ _ _ (by decide)]

theorem titleLower_eq_low (d : Dict) (t : String) (h : dget d "title" = some (Json.str t)) :
    titleLower d = low t := by
  unfold titleLower strField dgetStr
  rw [h]
  rfl

theorem dget_dupRecord_title (song : Dict) (nt now : String) :
    dget (dupRecord song nt now) "title" = some (Json.str nt) := by
  unfold dupRecord
  rw [dget_dset_ne _ _ _ _ (by decide), dget_dset_ne _ _ _ _ (by decide), dget_dset_self]

theorem dget_dupRecord_created (song : Dict) (nt now : String) :
    dget (dupRecord song nt now) "created_at" = some (Json.str now) := by
  unfold dupRecord
  rw [dget_dset_ne _ _ _ _ (by decide), dget_dset_self]

theorem dget_dupRecord_updated (song : Dict) (nt now : String) :
    dget (dupRecord song nt now) "updated_at" = some (Json.str now) := by
  unfold dupRecord
  rw [dget_dset_self]

theorem dget_dupRecord_other (song : Dict) (nt now k : String) (h1 : k ≠ "title")
    (h2 : k ≠ "created_at") (h3 : k ≠ "updated_at") :
    dget (dupRecord song nt now) k = dget song k := by
  unfold dupRecord
  rw [dget_dset_ne _ _ _ _ h3, dget_dset_ne _ _ _ _ h2, dget_dset_ne _ _ _ _ h1]

/- A record passing _validate_song carries a non-blank string title. -/
theorem validateSong_title (d : Dict) (h : validateSong d = true) :
    ∃ s, dget d "title" = some (Json.str s) ∧ pyStrip s ≠ "" := by
  unfold validateSong at h
  simp only [Bool.and_eq_true] at h
  obtain ⟨⟨⟨⟨h1, _⟩, _⟩, _⟩, _⟩ := h
  cases hd : dget d "title" with
  | none => rw [hd] at h1; exact absurd h1 (by simp)
  | some v =>
    cases v with
    | str s =>
      refine ⟨s, rfl, ?_⟩
      rw [hd] at h1
      exact bne_iff_ne.mp h1
    | null => rw [hd] at h1; exact absurd h1 (by simp)
    | bool b => rw [hd] at h1; exact absurd h1 (by simp)
    | int n => rw [hd] at h1; exact absurd h1 (by simp)
    | arr xs => rw [hd] at h1; exact absurd h1 (by simp)
    | obj fs => rw [hd] at h1; exact absurd h1 (by simp)

/- Duplication preserves validity: the record built by duplicate_song from
a validated song is itself valid, because the new title still contains a
non-whitespace character and the remaining fields are the validated ones
or fresh timestamp strings. -/
theorem validateSong_dupRecord (song : Dict) (nt now : String)
    (hv : validateSong song = true) (hnt : pyStrip nt ≠ "") :
    validateSong (dupRecord song nt now) = true := by
  unfold validateSong at hv ⊢
  simp only [Bool.and_eq_true] at hv
  obtain ⟨⟨⟨⟨_, hv2⟩, hv3⟩, _⟩, _⟩ := hv
  rw [dget_dupRecord_title, dget_dupRecord_created, dget_dupRecord_updated,
    dget_dupRecord_other song nt now "sections" (by decide) (by decide) (by decide),
    dget_dupRecord_other song nt now "tags" (by decide) (by decide) (by decide)]
  simp only [Bool.and_eq_true]
  exact ⟨⟨⟨⟨bne_iff_ne.mpr hnt, hv2⟩, hv3⟩, trivial⟩, trivial⟩

/- The suffixed copy title never strips to the empty string: its closing
parenthesis is not whitespace. -/
theorem pyStrip_copy_suffix (s : String) : pyStrip (s ++ " (Copy)") ≠ "" := by
  apply pyStrip_ne_empty _ ')'
  · have hd : (s ++ " (Copy)").data = s.data ++ " (Copy)".data := rfl
    rw [hd]
    exact List.mem_append.mpr (Or.inr (by decide))
  · decide

/-
Inversion of the song operations on success.
-/

theorem addSong_ok (songs : List Dict) (sd : Dict) (now : String) (songs2 : List Dict)
    (h : addSong songs sd now = Except.ok songs2) :
    ∃ t, dget sd "title" = some (Json.str t) ∧
      (songs.any (fun s => titleLower s == low t)) = false ∧
      validateSong (newSongRecord sd now) = true ∧
      songs2 = songs ++ [newSongRecord sd now] := by
  unfold addSong at h
  cases ht : dget sd "title" with
  | none => rw [ht] at h; exact Except.noConfusion h
  | some v =>
    rw [ht] at h
    cases v with
    | str t =>
      refine ⟨t, rfl, ?_⟩
      simp only at h
      split at h
      · exact Except.noConfusion h
      · split at h
        · exact Except.noConfusion h
        · split at h
          · rename_i hany hval
            refine ⟨?_, hval, (Except.ok.inj h).symm⟩
            revert hany
            cases songs.any (fun s => titleLower s == low t) <;> simp
          · exact Except.noConfusion h
    | null => exact Except.noConfusion h
    | bool b => exact Except.noConfusion h
    | int n => exact Except.noConfusion h
    | arr xs => exact Except.noConfusion h
    | obj fs => exact Except.noConfusion h

theorem finishUpdateSong_ok (songs : List Dict) (old : String) (song sd : Dict) (now : String)
    (songs2 : List Dict) (h : finishUpdateSong songs old song sd now = Except.ok songs2) :
    validateSong (mergeUpdatedSong song sd now) = true ∧
    songs2 = (songs.eraseP (fun s => titleLower s == low old)) ++ [mergeUpdatedSong song sd now] := by
  unfold finishUpdateSong at h
  split at h
  · rename_i hval
    exact ⟨hval, (Except.ok.inj h).symm⟩
  · exact Except.noConfusion h

theorem updateSong_ok (songs : List Dict) (old : String) (sd : Dict) (now : String)
    (songs2 : List Dict) (h : updateSong songs old sd now = Except.ok songs2) :
    ∃ song t, getSongByTitle songs old = some song ∧
      dget sd "title" = some (Json.str t) ∧
      validateSong (mergeUpdatedSong song sd now) = true ∧
      songs2 = (songs.eraseP (fun s => titleLower s == low old)) ++ [mergeUpdatedSong song sd now] ∧
      (low t = low old ∨
        ((songs.filter (fun s => titleLower s != low old)).any
          (fun s => titleLower s == low t)) = false) := by
  unfold updateSong at h
  cases hf : getSongByTitle songs old with
  | none => rw [hf] at h; exact Except.noConfusion h
  | some song =>
    rw [hf] at h
    cases ht : dget sd "title" with
    | none =>
      rw [ht] at h
      obtain ⟨hval, _⟩ := finishUpdateSong_ok _ _ _ _ _ _ h
      obtain ⟨s, hs, _⟩ := validateSong_title _ hval
      rw [dget_mergeUpdatedSong_title, ht] at hs
      exact Option.noConfusion hs
    | some v =>
      rw [ht] at h
      cases v with
      | str t =>
        simp only at h
        split at h
        · rename_i hguard
          split at h
          · exact Except.noConfusion h
          · rename_i hany
            obtain ⟨hval, heq⟩ := finishUpdateSong_ok _ _ _ _ _ _ h
            refine ⟨song, t, rfl, rfl, hval, heq, Or.inr ?_⟩
            revert hany
            cases (songs.filter (fun s => titleLower s != low old)).any
              (fun s => titleLower s == low t) <;> simp
        · rename_i hguard
          obtain ⟨hval, heq⟩ := finishUpdateSong_ok _ _ _ _ _ _ h
          refine ⟨song, t, rfl, rfl, hval, heq, Or.inl ?_⟩
          obtain ⟨s, hs, hsne⟩ := validateSong_title _ hval
          rw [dget_mergeUpdatedSong_title, ht] at hs
          have hts : s = t := by
            have := Option.some.inj hs
            exact (Json.str.inj this).symm
          subst hts
          have hb1 : (pyStrip s != "") = true := bne_iff_ne.mpr hsne
          have : (low s != low old) = false := by
            revert hguard
            rw [hb1]
            cases hlb : (low s != low old) <;> simp
          have := bne_iff_ne.not.mp (by rw [this]; exact Bool.false_ne_true)
          exact Decidable.not_not.mp (by simpa using this)
      | null => exact Except.noConfusion h
      | bool b => exact Except.noConfusion h
      | int n => exact Except.noConfusion h
      | arr xs => exact Except.noConfusion h
      | obj fs => exact Except.noConfusion h

theorem duplicateSong_ok (songs : List Dict) (title now : String) (songs2 : List Dict)
    (h : duplicateSong songs title now = Except.ok songs2) :
    ∃ song, getSongByTitle songs title = some song ∧
      (songs.any (fun s => titleLower s == low (strField song "title" ++ " (Copy)"))) = false ∧
      songs2 = songs ++ [dupRecord song (strField song "title" ++ " (Copy)") now] := by
  unfold duplicateSong at h
  cases hf : getSongByTitle songs title with
  | none => rw [hf] at h; exact Except.noConfusion h
  | some song =>
    rw [hf] at h
    simp only at h
    split at h
    · exact Except.noConfusion h
    · rename_i hany
      refine ⟨song, rfl, ?_, (Except.ok.inj h).symm⟩
      revert hany
      cases songs.any (fun s => titleLower s == low (strField song "title" ++ " (Copy)")) <;> simp

/-
Preservation of validity and title distinctness by the song operations.
-/

theorem addSong_preserves (songs : List Dict) (sd : Dict) (now : String) (songs2 : List Dict)
    (hv : songsValid songs) (hd : songTitlesDistinct songs)
    (h : addSong songs sd now = Except.ok songs2) :
    songsValid songs2 ∧ songTitlesDistinct songs2 := by
  obtain ⟨t, ht, hany, hval, heq⟩ := addSong_ok songs sd now songs2 h
  subst heq
  have hnew : titleLower (newSongRecord sd now) = low t :=
    titleLower_eq_low _ t (by rw [dget_newSongRecord_title, ht])
  constructor
  · intro s hs
    rcases List.mem_append.mp hs with h1 | h1
    · exact hv s h1
    · rw [List.mem_singleton.mp h1]; exact hval
  · unfold songTitlesDistinct at hd ⊢
    have hnot : low t ∉ songs.map titleLower := by
      intro hmem
      obtain ⟨s, hs, hts⟩ := List.mem_map.mp hmem
      have hb : (titleLower s == low t) = true := by rw [hts]; exact beq_self_eq_true _
      have h2 : songs.any (fun x => titleLower x == low t) = true :=
        List.any_eq_true.mpr ⟨s, hs, hb⟩
      rw [hany] at h2
      exact Bool.false_ne_true h2
    simp [List.map_append, List.nodup_append, hd, hnew, hnot]

theorem updateSong_preserves (songs : List Dict) (old : String) (sd : Dict) (now : String)
    (songs2 : List Dict) (hv : songsValid songs) (hd : songTitlesDistinct songs)
    (h : updateSong songs old sd now = Except.ok songs2) :
    songsValid songs2 ∧ songTitlesDistinct songs2 := by
  obtain ⟨song, t, hf, ht, hval, heq, hdisj⟩ := updateSong_ok songs old sd now songs2 h
  obtain ⟨l1, l2, hsongs, hl1, hp, he⟩ := findEraseDecomp _ songs song hf
  subst heq
  have htsong : titleLower song = low old := eq_of_beq hp
  have hmt : titleLower (mergeUpdatedSong song sd now) = low t :=
    titleLower_eq_low _ t (by rw [dget_mergeUpdatedSong_title, ht])
  constructor
  · intro s hs
    rcases List.mem_append.mp hs with h1 | h1
    · exact hv s ((List.eraseP_sublist songs).subset h1)
    · rw [List.mem_singleton.mp h1]; exact hval
  · unfold songTitlesDistinct at hd ⊢
    rw [he]
    rw [hsongs] at hd
    simp only [List.map_append, List.map_cons, List.map_nil] at hd ⊢
    have hmid := List.nodup_middle.mp hd
    rw [List.nodup_cons] at hmid
    obtain ⟨hnotin, hrest⟩ := hmid
    rw [htsong] at hnotin
    have hnt : low t ∉ (l1.map titleLower ++ l2.map titleLower) := by
      rcases hdisj with hcase | hcase
      · rw [hcase]; exact hnotin
      · intro hmem
        have hex : ∃ s, s ∈ l1 ++ l2 ∧ titleLower s = low t := by
          rcases List.mem_append.mp hmem with hmm | hmm
          · obtain ⟨s, hs, hts⟩ := List.mem_map.mp hmm
            exact ⟨s, List.mem_append.mpr (Or.inl hs), hts⟩
          · obtain ⟨s, hs, hts⟩ := List.mem_map.mp hmm
            exact ⟨s, List.mem_append.mpr (Or.inr hs), hts⟩
        obtain ⟨s, hs, hts⟩ := hex
        have hsnotold : titleLower s ≠ low old := by
          intro hcon
          apply hnotin
          rw [← hcon]
          rcases List.mem_append.mp hs with hmm | hmm
          · exact List.mem_append.mpr (Or.inl (List.mem_map_of_mem _ hmm))
          · exact List.mem_append.mpr (Or.inr (List.mem_map_of_mem _ hmm))
        have hsin : s ∈ songs := by
          rw [hsongs]
          rcases List.mem_append.mp hs with hmm | hmm
          · exact List.mem_append.mpr (Or.inl hmm)
          · exact List.mem_append.mpr (Or.inr (List.mem_cons_of_mem _ hmm))
        have hsfil : s ∈ songs.filter (fun x => titleLower x != low old) :=
          List.mem_filter.mpr ⟨hsin, bne_iff_ne.mpr hsnotold⟩
        have hfalse := List.any_eq_false.mp hcase s hsfil
        apply hfalse
        rw [hts]
        exact beq_self_eq_true _
    rw [hmt, List.nodup_append]
    exact ⟨hrest, List.nodup_singleton _, fun a ha hb => hnt (List.mem_singleton.mp hb ▸ ha)⟩

theorem duplicateSong_preserves (songs : List Dict) (title now : String) (songs2 : List Dict)
    (hv : songsValid songs) (hd : songTitlesDistinct songs)
    (h : duplicateSong songs title now = Except.ok songs2) :
    songsValid songs2 ∧ songTitlesDistinct songs2 := by
  obtain ⟨song, hf, hany, heq⟩ := duplicateSong_ok songs title now songs2 h
  subst heq
  have hsmem : song ∈ songs := List.mem_of_find?_eq_some hf
  have hvd : validateSong (dupRecord song (strField song "title" ++ " (Copy)") now) = true :=
    validateSong_dupRecord song _ now (hv song hsmem) (pyStrip_copy_suffix _)
  have hnew : titleLower (dupRecord song (strField song "title" ++ " (Copy)") now) =
      low (strField song "title" ++ " (Copy)") :=
    titleLower_eq_low _ _ (dget_dupRecord_title _ _ _)
  constructor
  · intro s hs
    rcases List.mem_append.mp hs with h1 | h1
    · exact hv s h1
    · rw [List.mem_singleton.mp h1]; exact hvd
  · unfold songTitlesDistinct at hd ⊢
    have hnot : low (strField song "title" ++ " (Copy)") ∉ songs.map titleLower := by
      intro hmem
      obtain ⟨s, hs, hts⟩ := List.mem_map.mp hmem
      have hb : (titleLower s == low (strField song "title" ++ " (Copy)")) = true := by
        rw [hts]; exact beq_self_eq_true _
      have h2 : songs.any (fun x => titleLower x == low (strField song "title" ++ " (Copy)")) = true :=
        List.any_eq_true.mpr ⟨s, hs, hb⟩
      rw [hany] at h2
      exact Bool.false_ne_true h2
    simp [List.map_append, List.nodup_append, hd, hnew, hnot]

theorem stepSong_preserves (songs : List Dict) (op : SongOp) (songs2 : List Dict)
    (hv : songsValid songs) (hd : songTitlesDistinct songs)
    (h : stepSong songs op = Except.ok songs2) :
    songsValid songs2 ∧ songTitlesDistinct songs2 := by
  cases op with
  | add d now => exact addSong_preserves _ _ _ _ hv hd h
  | update t d now => exact updateSong_preserves _ _ _ _ _ hv hd h
  | dup t now => exact duplicateSong_preserves _ _ _ _ hv hd h

theorem runSong_preserves (songs : List Dict) (op : SongOp)
    (hv : songsValid songs) (hd : songTitlesDistinct songs) :
    songsValid (runSong songs op) ∧ songTitlesDistinct (runSong songs op) := by
  unfold runSong
  cases hs : stepSong songs op with
  | ok s2 => exact stepSong_preserves songs op s2 hv hd hs
  | error e => exact ⟨hv, hd⟩

theorem runSongOps_preserves (ops : List SongOp) (songs : List Dict)
    (hv : songsValid songs) (hd : songTitlesDistinct songs) :
    songsValid (runSongOps songs ops) ∧ songTitlesDistinct (runSongOps songs ops) := by
  induction ops generalizing songs with
  | nil => exact ⟨hv, hd⟩
  | cons op rest ih =>
    obtain ⟨hv2, hd2⟩ := runSong_preserves songs op hv hd
    exact ih (runSong songs op) hv2 hd2

/- Adding a song whose title clashes case-insensitively raises ADD_002. -/
theorem addSong_dup_error (songs : List Dict) (sd : Dict) (now t : String)
    (ht : dget sd "title" = some (Json.str t)) (hne : pyStrip t ≠ "")
    (hdup : songs.any (fun s => titleLower s == low t) = true) :
    addSong songs sd now = Except.error (mkSanctifyError "SongModel" "ADD_002"
      ("Cannot add song: title " ++ t ++ " already exists")) := by
  unfold addSong
  rw [ht]
  have h1 : ¬((pyStrip t == "") = true) := fun hc => hne (eq_of_beq hc)
  simp [h1, hdup]

/-
Dictionary lemmas for the overlay update (d.update(other)) used by the
theme and presentation updates, and frame lemmas for their records.
-/

theorem dget_append (a b : Dict) (k : String) :
    dget (a ++ b) k = (dget a k).or (dget b k) := by
  induction a with
  | nil => simp [dget]
  | cons kv rest ih =>
    obtain ⟨k0, v0⟩ := kv
    by_cases h : k0 == k
    · simp [dget, h]
    · have hb : (k0 == k) = false := by revert h; cases k0 == k <;> simp
      simp [dget, hb, ih]

theorem dget_dupdate (u d : Dict) (k : String) :
    dget (dupdate d u) k = (dget u.reverse k).or (dget d k) := by
  induction u generalizing d with
  | nil => simp [dupdate, dget]
  | cons kv rest ih =>
    obtain ⟨k0, v0⟩ := kv
    have hstep : dupdate d ((k0, v0) :: rest) = dupdate (dset d k0 v0) rest := rfl
    rw [hstep, ih]
    have hrev : ((k0, v0) :: rest).reverse = rest.reverse ++ [(k0, v0)] := by simp
    rw [hrev, dget_append]
    rw [Option.or_assoc]
    congr 1
    by_cases h : k = k0
    · subst h; simp [dget, dget_dset_self]
    · have hb : (k0 == k) = false := beq_eq_false_iff_ne.mpr (Ne.symm h)
      simp [dget, hb, dget_dset_ne d k0 v0 k h]

theorem mem_keys_of_dget_some (d : Dict) (k : String) (v : Json) (h : dget d k = some v) :
    k ∈ d.map Prod.fst := by
  induction d with
  | nil => exact Option.noConfusion h
  | cons kv rest ih =>
    obtain ⟨k0, v0⟩ := kv
    simp only [List.map_cons, List.mem_cons]
    by_cases h0 : k0 == k
    · exact Or.inl (eq_of_beq h0).symm
    · have hb : (k0 == k) = false := by revert h0; cases k0 == k <;> simp
      simp only [dget, hb] at h
      exact Or.inr (ih h)

theorem dget_none_of_not_mem_keys (d : Dict) (k : String) (h : k ∉ d.map Prod.fst) :
    dget d k = none := by
  cases hg : dget d k with
  | none => rfl
  | some v => exact absurd (mem_keys_of_dget_some d k v hg) h

theorem dget_reverse_of_nodup (u : Dict) (h : dictKeysNodup u) (k : String) :
    dget u.reverse k = dget u k := by
  induction u with
  | nil => rfl
  | cons kv rest ih =>
    obtain ⟨k0, v0⟩ := kv
    unfold dictKeysNodup at h
    simp only [List.map_cons, List.nodup_cons] at h
    obtain ⟨hnot, hrest⟩ := h
    have hrev : ((k0, v0) :: rest).reverse = rest.reverse ++ [(k0, v0)] := by simp
    rw [hrev, dget_append, ih hrest]
    by_cases hk : k0 == k
    · have hkk : k0 = k := eq_of_beq hk
      subst hkk
      rw [dget_none_of_not_mem_keys rest k0 hnot]
      simp [dget]
    · have hb : (k0 == k) = false := by revert hk; cases k0 == k <;> simp
      simp only [dget, hb, if_neg]
      cases dget rest k <;> simp [dget, hb]

theorem dget_dupdate_nodup (u d : Dict) (k : String) (h : dictKeysNodup u) :
    dget (dupdate d u) k = (dget u k).or (dget d k) := by
  rw [dget_dupdate, dget_reverse_of_nodup u h]

theorem dget_dupRecordWithId_id (d : Dict) (nid nn now : String) :
    dget (dupRecordWithId d nid nn now) "id" = some (Json.str nid) := by
  unfold dupRecordWithId
  rw [dget_dset_ne _ _ _ _ (by decide), dget_dset_ne _ _ _ _ (by decide),
    dget_dset_ne _ _ _ _ (by decide), dget_dset_self]

theorem dget_dupRecordWithId_name (d : Dict) (nid nn now : String) :
    dget (dupRecordWithId d nid nn now) "name" = some (Json.str nn) := by
  unfold dupRecordWithId
  rw [dget_dset_ne _ _ _ _ (by decide), dget_dset_ne _ _ _ _ (by decide), dget_dset_self]

theorem dget_dupRecordWithId_created (d : Dict) (nid nn now : String) :
    dget (dupRecordWithId d nid nn now) "created_at" = some (Json.str now) := by
  unfold dupRecordWithId
  rw [dget_dset_ne _ _ _ _ (by decide), dget_dset_self]

theorem dget_dupRecordWithId_updated (d : Dict) (nid nn now : String) :
    dget (dupRecordWithId d nid nn now) "updated_at" = some (Json.str now) := by
  unfold dupRecordWithId
  rw [dget_dset_self]

theorem dget_dupRecordWithId_other (d : Dict) (nid nn now k : String) (h1 : k ≠ "id")
    (h2 : k ≠ "name") (h3 : k ≠ "created_at") (h4 : k ≠ "updated_at") :
    dget (dupRecordWithId d nid nn now) k = dget d k := by
  unfold dupRecordWithId
  rw [dget_dset_ne _ _ _ _ h4, dget_dset_ne _ _ _ _ h3, dget_dset_ne _ _ _ _ h2,
    dget_dset_ne _ _ _ _ h1]

theorem dget_mergeUpdatedTheme_name (theme u : Dict) (now : String) :
    dget (mergeUpdatedTheme theme u now) "name" = (dget u.reverse "name").or (dget theme "name") := by
  unfold mergeUpdatedTheme
  rw [dget_dset_ne _ _ _ _ (by decide), dget_dset_ne _ _ _ _ (by decide),
    dget_dset_ne _ _ _ _ (by decide), dget_dupdate]

theorem dget_mergeUpdatedTheme_id (theme u : Dict) (now : String) :
    dget (mergeUpdatedTheme theme u now) "id" = some (dgetD theme "id" Json.null) := by
  unfold mergeUpdatedTheme
  rw [dget_dset_ne _ _ _ _ (by decide), dget_dset_ne _ _ _ _ (by decide), dget_dset_self]

theorem keyEqStr_some (d : Dict) (k s : String) (h : keyEqStr d k s = true) :
    dget d k = some (Json.str s) := by
  unfold keyEqStr at h
  cases hg : dget d k with
  | none => rw [hg] at h; exact Bool.noConfusion h
  | some v =>
    cases v with
    | str t =>
      rw [hg] at h
      rw [eq_of_beq (α := String) h]
    | null => rw [hg] at h; exact Bool.noConfusion h
    | bool b => rw [hg] at h; exact Bool.noConfusion h
    | int n => rw [hg] at h; exact Bool.noConfusion h
    | arr xs => rw [hg] at h; exact Bool.noConfusion h
    | obj fs => rw [hg] at h; exact Bool.noConfusion h

/-
Theme model lemmas: inversion of the operations on success and
preservation of the invariant (validity, case-insensitive name
distinctness, id distinctness).
-/

theorem isStrBlankOpt_some (o : Option Json)
    (h : (match o with | some (Json.str s) => pyStrip s != "" | _ => false) = true) :
    ∃ s, o = some (Json.str s) ∧ pyStrip s ≠ "" := by
  cases o with
  | none => exact Bool.noConfusion h
  | some v =>
    cases v with
    | str s => exact ⟨s, rfl, bne_iff_ne.mp h⟩
    | null => exact Bool.noConfusion h
    | bool b => exact Bool.noConfusion h
    | int n => exact Bool.noConfusion h
    | arr xs => exact Bool.noConfusion h
    | obj fs => exact Bool.noConfusion h

theorem isStrOpt_some (o : Option Json)
    (h : (match o with | some (Json.str _) => true | _ => false) = true) :
    ∃ s, o = some (Json.str s) := by
  cases o with
  | none => exact Bool.noConfusion h
  | some v =>
    cases v with
    | str s => exact ⟨s, rfl⟩
    | null => exact Bool.noConfusion h
    | bool b => exact Bool.noConfusion h
    | int n => exact Bool.noConfusion h
    | arr xs => exact Bool.noConfusion h
    | obj fs => exact Bool.noConfusion h

theorem validateTheme_id (t : Dict) (h : validateTheme t = true) :
    ∃ i, dget t "id" = some (Json.str i) := by
  unfold validateTheme at h
  simp only [Bool.and_eq_true] at h
  exact isStrOpt_some _ h.1.1.1.1.1.1.1.1.1.1

theorem validateTheme_name (t : Dict) (h : validateTheme t = true) :
    ∃ n, dget t "name" = some (Json.str n) ∧ pyStrip n ≠ "" := by
  unfold validateTheme at h
  simp only [Bool.and_eq_true] at h
  exact isStrBlankOpt_some _ h.1.1.1.1.1.1.1.1.1.2

/- Lowered stored name coincides with the name read off the record. -/
theorem nameLower_eq_low (d : Dict) (n : String) (h : dget d "name" = some (Json.str n)) :
    nameLower d = low n := by
  unfold nameLower strField dgetStr
  rw [h]
  rfl

theorem idOf_eq (d : Dict) (i : String) (h : dget d "id" = some (Json.str i)) :
    idOf d = i := by
  unfold idOf strField dgetStr
  rw [h]
  rfl

/- The copied theme or presentation record of a duplicate operation is
valid whenever the source record is: only id, name and the timestamps
change, to a fresh uuid, a non-blank suffixed name and timestamp
strings. -/
theorem validateTheme_dupRecordWithId (t : Dict) (nid nn now : String)
    (hv : validateTheme t = true) (hnn : pyStrip nn ≠ "") :
    validateTheme (dupRecordWithId t nid nn now) = true := by
  unfold validateTheme at hv ⊢
  simp only [Bool.and_eq_true] at hv
  obtain ⟨⟨⟨⟨⟨⟨⟨⟨⟨⟨_, _⟩, h3⟩, h4⟩, h5⟩, h6⟩, h7⟩, h8⟩, h9⟩, _⟩, _⟩ := hv
  rw [dget_dupRecordWithId_id, dget_dupRecordWithId_name, dget_dupRecordWithId_created,
    dget_dupRecordWithId_updated,
    dget_dupRecordWithId_other t nid nn now "context" (by decide) (by decide) (by decide) (by decide),
    dget_dupRecordWithId_other t nid nn now "alignment" (by decide) (by decide) (by decide) (by decide),
    dget_dupRecordWithId_other t nid nn now "font_color" (by decide) (by decide) (by decide) (by decide),
    dget_dupRecordWithId_other t nid nn now "background_color" (by decide) (by decide) (by decide) (by decide),
    dget_dupRecordWithId_other t nid nn now "font_size" (by decide) (by decide) (by decide) (by decide),
    dget_dupRecordWithId_other t nid nn now "font_family" (by decide) (by decide) (by decide) (by decide),
    dget_dupRecordWithId_other t nid nn now "tags" (by decide) (by decide) (by decide) (by decide)]
  simp only [Bool.and_eq_true]
  exact ⟨⟨⟨⟨⟨⟨⟨⟨⟨⟨trivial, bne_iff_ne.mpr hnn⟩, h3⟩, h4⟩, h5⟩, h6⟩, h7⟩, h8⟩, h9⟩, trivial⟩, trivial⟩

theorem createTheme_ok (themes : List Dict) (n c a fc bc : String) (fsz : Int)
    (ff tg tid n1 n2 : String) (themes2 : List Dict)
    (h : createTheme themes n c a fc bc fsz ff tg tid n1 n2 = Except.ok themes2) :
    (themes.any (fun t => nameLower t == low n)) = false ∧
    validateTheme (newThemeRecord n c a fc bc fsz ff tg tid n1 n2) = true ∧
    themes2 = themes ++ [newThemeRecord n c a fc bc fsz ff tg tid n1 n2] := by
  unfold createTheme at h
  split at h
  · exact Except.noConfusion h
  · split at h
    · exact Except.noConfusion h
    · rename_i hany
      split at h
      · rename_i hval
        refine ⟨?_, hval, (Except.ok.inj h).symm⟩
        revert hany
        cases themes.any (fun t => nameLower t == low n) <;> simp
      · exact Except.noConfusion h

theorem updateTheme_ok (themes : List Dict) (tid : String) (u : Dict) (now : String)
    (themes2 : List Dict) (h : updateTheme themes tid u now = Except.ok themes2) :
    ∃ theme, themes.find? (fun x => keyEqStr x "id" tid) = some theme ∧
      validateTheme (mergeUpdatedTheme theme u now) = true ∧
      themes2 = (themes.eraseP (fun x => keyEqStr x "id" tid)) ++ [mergeUpdatedTheme theme u now] ∧
      (dget u "name" = none ∨
        ∃ n, dget u "name" = some (Json.str n) ∧
          (pyStrip n = "" ∨ low n = nameLower theme ∨
            (themes.filter (fun x => !(keyEqStr x "id" tid))).any
              (fun x => nameLower x == low n) = false)) := by
  unfold updateTheme at h
  cases hf : themes.find? (fun x => keyEqStr x "id" tid) with
  | none => rw [hf] at h; exact Except.noConfusion h
  | some theme =>
    rw [hf] at h
    simp only at h
    cases hn : dget u "name" with
    | none =>
      rw [hn] at h
      simp only at h
      split at h
      · rename_i hval
        exact ⟨theme, rfl, hval, (Except.ok.inj h).symm, Or.inl rfl⟩
      · exact Except.noConfusion h
    | some v =>
      rw [hn] at h
      cases v with
      | str n =>
        simp only at h
        split at h
        · rename_i hguard
          split at h
          · exact Except.noConfusion h
          · rename_i hany
            split at h
            · rename_i hval
              refine ⟨theme, rfl, hval, (Except.ok.inj h).symm, Or.inr ⟨n, rfl, Or.inr (Or.inr ?_)⟩⟩
              revert hany
              cases (themes.filter (fun x => !(keyEqStr x "id" tid))).any
                (fun x => nameLower x == low n) <;> simp
            · exact Except.noConfusion h
        · rename_i hguard
          split at h
          · rename_i hval
            refine ⟨theme, rfl, hval, (Except.ok.inj h).symm, Or.inr ⟨n, rfl, ?_⟩⟩
            by_cases hb : pyStrip n = ""
            · exact Or.inl hb
            · refine Or.inr (Or.inl ?_)
              have hb1 : (pyStrip n != "") = true := bne_iff_ne.mpr hb
              have hb2 : (low n != nameLower theme) = false := by
                revert hguard
                rw [hb1]
                cases low n != nameLower theme <;> simp
              have hb3 := bne_iff_ne.not.mp (by rw [hb2]; exact Bool.false_ne_true)
              exact Decidable.not_not.mp (by simpa using hb3)
          · exact Except.noConfusion h
      | null => exact Except.noConfusion h
      | bool b => exact Except.noConfusion h
      | int m => exact Except.noConfusion h
      | arr xs => exact Except.noConfusion h
      | obj fs => exact Except.noConfusion h

theorem duplicateTheme_ok (themes : List Dict) (tid nid now : String) (themes2 : List Dict)
    (h : duplicateTheme themes tid nid now = Except.ok themes2) :
    ∃ theme, themes.find? (fun x => keyEqStr x "id" tid) = some theme ∧
      (themes.any (fun t => nameLower t == low (strField theme "name" ++ " (Copy)"))) = false ∧
      themes2 = themes ++ [dupRecordWithId theme nid (strField theme "name" ++ " (Copy)") now] := by
  unfold duplicateTheme at h
  cases hf : themes.find? (fun x => keyEqStr x "id" tid) with
  | none => rw [hf] at h; exact Except.noConfusion h
  | some theme =>
    rw [hf] at h
    simp only at h
    split at h
    · exact Except.noConfusion h
    · rename_i hany
      refine ⟨theme, rfl, ?_, (Except.ok.inj h).symm⟩
      revert hany
      cases themes.any (fun t => nameLower t == low (strField theme "name" ++ " (Copy)")) <;> simp

/- Shuffling the distinguished element of a nodup list to the end, with an
optional replacement that is either the same value or fresh. -/
theorem nodup_replace_end {α : Type} (l1 l2 : List α) (a b : α)
    (h : (l1 ++ a :: l2).Nodup) (hb : b = a ∨ b ∉ (l1 ++ l2)) :
    ((l1 ++ l2) ++ [b]).Nodup := by
  have hmid := List.nodup_middle.mp h
  rw [List.nodup_cons] at hmid
  obtain ⟨hnotin, hrest⟩ := hmid
  rw [List.nodup_append]
  refine ⟨hrest, List.nodup_singleton _, ?_⟩
  intro x hx hxb
  rw [List.mem_singleton.mp hxb] at hx
  rcases hb with hb | hb
  · rw [hb] at hx; exact hnotin hx
  · exact hb hx

theorem not_keyEq_of_idOf_ne (s : Dict) (tid : String) (h : idOf s ≠ tid) :
    keyEqStr s "id" tid = false := by
  cases hk : keyEqStr s "id" tid
  · rfl
  · exact absurd (idOf_eq s tid (keyEqStr_some _ _ _ hk)) h

theorem dget_newThemeRecord_name (n c a fc bc : String) (fsz : Int) (ff tg tid n1 n2 : String) :
    dget (newThemeRecord n c a fc bc fsz ff tg tid n1 n2) "name" = some (Json.str n) := by
  rfl

theorem dget_newThemeRecord_id (n c a fc bc : String) (fsz : Int) (ff tg tid n1 n2 : String) :
    dget (newThemeRecord n c a fc bc fsz ff tg tid n1 n2) "id" = some (Json.str tid) := by
  rfl

theorem createTheme_preserves (themes : List Dict) (n c a fc bc : String) (fsz : Int)
    (ff tg tid n1 n2 : String) (themes2 : List Dict) (hI : themeInv themes)
    (hfresh : tid ∉ themes.map idOf)
    (h : createTheme themes n c a fc bc fsz ff tg tid n1 n2 = Except.ok themes2) :
    themeInv themes2 := by
  obtain ⟨hv, hnames, hids⟩ := hI
  obtain ⟨hany, hval, heq⟩ := createTheme_ok themes n c a fc bc fsz ff tg tid n1 n2 themes2 h
  subst heq
  have hrecname : nameLower (newThemeRecord n c a fc bc fsz ff tg tid n1 n2) = low n :=
    nameLower_eq_low _ n (dget_newThemeRecord_name n c a fc bc fsz ff tg tid n1 n2)
  have hrecid : idOf (newThemeRecord n c a fc bc fsz ff tg tid n1 n2) = tid :=
    idOf_eq _ tid (dget_newThemeRecord_id n c a fc bc fsz ff tg tid n1 n2)
  refine ⟨?_, ?_, ?_⟩
  · intro t ht
    rcases List.mem_append.mp ht with h1 | h1
    · exact hv t h1
    · rw [List.mem_singleton.mp h1]; exact hval
  · unfold themeNamesDistinct at hnames ⊢
    have hnot : low n ∉ themes.map nameLower := by
      intro hmem
      obtain ⟨s, hs, hts⟩ := List.mem_map.mp hmem
      have hb : (nameLower s == low n) = true := by rw [hts]; exact beq_self_eq_true _
      have h2 : themes.any (fun x => nameLower x == low n) = true :=
        List.any_eq_true.mpr ⟨s, hs, hb⟩
      rw [hany] at h2
      exact Bool.false_ne_true h2
    simp [List.map_append, List.nodup_append, hnames, hrecname, hnot]
  · unfold themeIdsDistinct at hids ⊢
    simp [List.map_append, List.nodup_append, hids, hrecid, hfresh]

theorem updateTheme_preserves (themes : List Dict) (tid : String) (u : Dict) (now : String)
    (themes2 : List Dict) (hI : themeInv themes) (hu : dictKeysNodup u)
    (h : updateTheme themes tid u now = Except.ok themes2) :
    themeInv themes2 := by
  obtain ⟨hv, hnames, hids⟩ := hI
  obtain ⟨theme, hf, hval, heq, hname⟩ := updateTheme_ok themes tid u now themes2 h
  obtain ⟨l1, l2, hthemes, hl1, hp, he⟩ := findEraseDecomp _ themes theme hf
  subst heq
  have hmem : theme ∈ themes := List.mem_of_find?_eq_some hf
  have hidth : dget theme "id" = some (Json.str tid) := keyEqStr_some _ _ _ hp
  have hidOf : idOf theme = tid := idOf_eq _ _ hidth
  have hmid : dget (mergeUpdatedTheme theme u now) "id" = some (Json.str tid) := by
    rw [dget_mergeUpdatedTheme_id]
    unfold dgetD
    rw [hidth]
    rfl
  have hmidOf : idOf (mergeUpdatedTheme theme u now) = tid := idOf_eq _ _ hmid
  have hmname : dget (mergeUpdatedTheme theme u now) "name" =
      (dget u "name").or (dget theme "name") := by
    rw [dget_mergeUpdatedTheme_name, dget_reverse_of_nodup u hu]
  obtain ⟨tn, htn, _⟩ := validateTheme_name theme (hv theme hmem)
  have hthlow : nameLower theme = low tn := nameLower_eq_low _ _ htn
  refine ⟨?_, ?_, ?_⟩
  · intro t ht
    rcases List.mem_append.mp ht with h1 | h1
    · exact hv t ((List.eraseP_sublist themes).subset h1)
    · rw [List.mem_singleton.mp h1]; exact hval
  · unfold themeNamesDistinct at hnames ⊢
    rw [he]
    rw [hthemes] at hnames
    simp only [List.map_append, List.map_cons, List.map_nil] at hnames ⊢
    -- determine the lowered merged name and its safety
    have hgoal : ∀ b, b = nameLower theme ∨ b ∉ (l1.map nameLower ++ l2.map nameLower) →
        ((l1.map nameLower ++ l2.map nameLower) ++ [b]).Nodup := by
      intro b hb
      exact nodup_replace_end _ _ _ _ hnames hb
    rcases hname with hcase | ⟨n, hn, hsub⟩
    · have : nameLower (mergeUpdatedTheme theme u now) = nameLower theme := by
        unfold nameLower strField dgetStr
        rw [hmname, hcase]
        simp
      rw [this]
      exact hgoal _ (Or.inl rfl)
    · have hmn : dget (mergeUpdatedTheme theme u now) "name" = some (Json.str n) := by
        rw [hmname, hn]
        rfl
      have hmlow : nameLower (mergeUpdatedTheme theme u now) = low n := nameLower_eq_low _ _ hmn
      rw [hmlow]
      rcases hsub with hblank | hsame | hany
      · exfalso
        obtain ⟨mn, hmn2, hmnb⟩ := validateTheme_name _ hval
        rw [hmn] at hmn2
        exact hmnb ((Json.str.inj (Option.some.inj hmn2)).symm ▸ hblank)
      · rw [hsame]
        exact hgoal _ (Or.inl rfl)
      · refine hgoal _ (Or.inr ?_)
        intro hmemn
        have hex : ∃ s, s ∈ l1 ++ l2 ∧ nameLower s = low n := by
          rcases List.mem_append.mp hmemn with hmm | hmm
          · obtain ⟨s, hs, hts⟩ := List.mem_map.mp hmm
            exact ⟨s, List.mem_append.mpr (Or.inl hs), hts⟩
          · obtain ⟨s, hs, hts⟩ := List.mem_map.mp hmm
            exact ⟨s, List.mem_append.mpr (Or.inr hs), hts⟩
        obtain ⟨s, hs, hts⟩ := hex
        have hsin : s ∈ themes := by
          rw [hthemes]
          rcases List.mem_append.mp hs with hmm | hmm
          · exact List.mem_append.mpr (Or.inl hmm)
          · exact List.mem_append.mpr (Or.inr (List.mem_cons_of_mem _ hmm))
        -- s has an id different from tid because ids are distinct
        have hidnot : idOf s ≠ tid := by
          intro hcon
          unfold themeIdsDistinct at hids
          rw [hthemes] at hids
          simp only [List.map_append, List.map_cons, List.map_nil] at hids
          have hmid2 := List.nodup_middle.mp hids
          rw [List.nodup_cons] at hmid2
          obtain ⟨hnotin2, _⟩ := hmid2
          apply hnotin2
          rw [hidOf, ← hcon]
          rcases List.mem_append.mp hs with hmm | hmm
          · exact List.mem_append.mpr (Or.inl (List.mem_map_of_mem _ hmm))
          · exact List.mem_append.mpr (Or.inr (List.mem_map_of_mem _ hmm))
        have hsfil : s ∈ themes.filter (fun x => !(keyEqStr x "id" tid)) := by
          refine List.mem_filter.mpr ⟨hsin, ?_⟩
          rw [not_keyEq_of_idOf_ne s tid hidnot]
          rfl
        have hfalse := List.any_eq_false.mp hany s hsfil
        apply hfalse
        rw [hts]
        exact beq_self_eq_true _
  · unfold themeIdsDistinct at hids ⊢
    rw [he]
    rw [hthemes] at hids
    simp only [List.map_append, List.map_cons, List.map_nil] at hids ⊢
    rw [hmidOf]
    exact nodup_replace_end _ _ _ _ hids (Or.inl hidOf.symm)

theorem duplicateTheme_preserves (themes : List Dict) (tid nid now : String)
    (themes2 : List Dict) (hI : themeInv themes) (hfresh : nid ∉ themes.map idOf)
    (h : duplicateTheme themes tid nid now = Except.ok themes2) :
    themeInv themes2 := by
  obtain ⟨hv, hnames, hids⟩ := hI
  obtain ⟨theme, hf, hany, heq⟩ := duplicateTheme_ok themes tid nid now themes2 h
  subst heq
  have hmem : theme ∈ themes := List.mem_of_find?_eq_some hf
  have hvd : validateTheme (dupRecordWithId theme nid (strField theme "name" ++ " (Copy)") now)
      = true :=
    validateTheme_dupRecordWithId theme nid _ now (hv theme hmem) (pyStrip_copy_suffix _)
  have hnl : nameLower (dupRecordWithId theme nid (strField theme "name" ++ " (Copy)") now) =
      low (strField theme "name" ++ " (Copy)") :=
    nameLower_eq_low _ _ (dget_dupRecordWithId_name _ _ _ _)
  have hidl : idOf (dupRecordWithId theme nid (strField theme "name" ++ " (Copy)") now) = nid :=
    idOf_eq _ _ (dget_dupRecordWithId_id _ _ _ _)
  refine ⟨?_, ?_, ?_⟩
  · intro t ht
    rcases List.mem_append.mp ht with h1 | h1
    · exact hv t h1
    · rw [List.mem_singleton.mp h1]; exact hvd
  · unfold themeNamesDistinct at hnames ⊢
    have hnot : low (strField theme "name" ++ " (Copy)") ∉ themes.map nameLower := by
      intro hmem2
      obtain ⟨s, hs, hts⟩ := List.mem_map.mp hmem2
      have hb : (nameLower s == low (strField theme "name" ++ " (Copy)")) = true := by
        rw [hts]; exact beq_self_eq_true _
      have h2 : themes.any (fun x => nameLower x == low (strField theme "name" ++ " (Copy)"))
          = true := List.any_eq_true.mpr ⟨s, hs, hb⟩
      rw [hany] at h2
      exact Bool.false_ne_true h2
    simp [List.map_append, List.nodup_append, hnames, hnl, hnot]
  · unfold themeIdsDistinct at hids ⊢
    simp [List.map_append, List.nodup_append, hids, hidl, hfresh]

theorem stepTheme_preserves (themes : List Dict) (op : ThemeOp) (themes2 : List Dict)
    (hI : themeInv themes) (hfresh : ∀ i ∈ themeOpIds op, i ∉ themes.map idOf)
    (hwf : ∀ tid u now, op = ThemeOp.update tid u now → dictKeysNodup u)
    (h : stepTheme themes op = Except.ok themes2) : themeInv themes2 := by
  cases op with
  | create n c a fc bc fsz ff tg tid n1 n2 =>
    refine createTheme_preserves themes n c a fc bc fsz ff tg tid n1 n2 themes2 hI ?_ h
    exact hfresh tid (by simp [themeOpIds])
  | update tid u now =>
    exact updateTheme_preserves themes tid u now themes2 hI (hwf tid u now rfl) h
  | dup tid nid now =>
    refine duplicateTheme_preserves themes tid nid now themes2 hI ?_ h
    exact hfresh nid (by simp [themeOpIds])

/- State ids never leave the set of previous ids plus the ids the
operation supplies. -/
theorem stepTheme_ids (themes : List Dict) (op : ThemeOp) (themes2 : List Dict)
    (h : stepTheme themes op = Except.ok themes2) :
    ∀ i ∈ themes2.map idOf, i ∈ themes.map idOf ∨ i ∈ themeOpIds op := by
  intro i hi
  obtain ⟨t, ht, hit⟩ := List.mem_map.mp hi
  cases op with
  | create n c a fc bc fsz ff tg tid n1 n2 =>
    obtain ⟨_, _, heq⟩ := createTheme_ok themes n c a fc bc fsz ff tg tid n1 n2 themes2 h
    subst heq
    rcases List.mem_append.mp ht with h1 | h1
    · exact Or.inl (hit ▸ List.mem_map_of_mem _ h1)
    · right
      rw [List.mem_singleton.mp h1] at hit
      rw [← hit, idOf_eq _ tid (dget_newThemeRecord_id n c a fc bc fsz ff tg tid n1 n2)]
      simp [themeOpIds]
  | update tid u now =>
    obtain ⟨theme, hf, _, heq, _⟩ := updateTheme_ok themes tid u now themes2 h
    subst heq
    rcases List.mem_append.mp ht with h1 | h1
    · exact Or.inl (hit ▸ List.mem_map_of_mem _ ((List.eraseP_sublist themes).subset h1))
    · left
      rw [List.mem_singleton.mp h1] at hit
      obtain ⟨l1x, l2x, _, _, hpth, _⟩ := findEraseDecomp _ themes theme hf
      have hidth : dget theme "id" = some (Json.str tid) := keyEqStr_some _ _ _ hpth
      have hmid : dget (mergeUpdatedTheme theme u now) "id" = some (Json.str tid) := by
        rw [dget_mergeUpdatedTheme_id]
        unfold dgetD
        rw [hidth]
        rfl
      rw [← hit, idOf_eq _ _ hmid, ← idOf_eq _ _ hidth]
      exact List.mem_map_of_mem _ (List.mem_of_find?_eq_some hf)
  | dup tid nid now =>
    obtain ⟨theme, hf, _, heq⟩ := duplicateTheme_ok themes tid nid now themes2 h
    subst heq
    rcases List.mem_append.mp ht with h1 | h1
    · exact Or.inl (hit ▸ List.mem_map_of_mem _ h1)
    · right
      rw [List.mem_singleton.mp h1] at hit
      rw [← hit, idOf_eq _ _ (dget_dupRecordWithId_id _ _ _ _)]
      simp [themeOpIds]

theorem runThemeOps_preserves_aux (ops : List ThemeOp) (themes : List Dict)
    (used : List String) (hI : themeInv themes)
    (hsub : ∀ i ∈ themes.map idOf, i ∈ used)
    (hfresh : freshThemeIds used ops) (hwf : themeOpsWF ops) :
    themeInv (runThemeOps themes ops) := by
  induction ops generalizing themes used with
  | nil => exact hI
  | cons op rest ih =>
    obtain ⟨hop, hrest⟩ := hfresh
    have hstep : themeInv (runTheme themes op) ∧
        (∀ i ∈ (runTheme themes op).map idOf, i ∈ used ++ themeOpIds op) := by
      unfold runTheme
      cases hs : stepTheme themes op with
      | ok s2 =>
        refine ⟨stepTheme_preserves themes op s2 hI ?_ ?_ hs, ?_⟩
        · intro i hio hmem
          exact hop i hio (hsub i hmem)
        · intro tid u now hop2
          exact hwf op (List.mem_cons_self _ _) tid u now hop2
        · intro i hi
          rcases stepTheme_ids themes op s2 hs i hi with h1 | h1
          · exact List.mem_append.mpr (Or.inl (hsub i h1))
          · exact List.mem_append.mpr (Or.inr h1)
      | error e =>
        refine ⟨hI, ?_⟩
        intro i hi
        exact List.mem_append.mpr (Or.inl (hsub i hi))
    obtain ⟨hI2, hsub2⟩ := hstep
    have hwf2 : themeOpsWF rest := by
      intro op2 hmem tid u now hop2
      exact hwf op2 (List.mem_cons_of_mem _ hmem) tid u now hop2
    exact ih (runTheme themes op) (used ++ themeOpIds op) hI2 hsub2 hrest hwf2

theorem runThemeOps_preserves (ops : List ThemeOp) (themes : List Dict)
    (hI : themeInv themes) (hfresh : freshThemeIds (themes.map idOf) ops)
    (hwf : themeOpsWF ops) : themeInv (runThemeOps themes ops) :=
  runThemeOps_preserves_aux ops themes (themes.map idOf) hI (fun _ hi => hi) hfresh hwf

/- Creating a theme whose name clashes case-insensitively raises
CREATE_002. -/
theorem createTheme_dup_error (themes : List Dict) (n c a fc bc : String) (fsz : Int)
    (ff tg tid n1 n2 : String) (hne : pyStrip n ≠ "")
    (hdup : themes.any (fun t => nameLower t == low n) = true) :
    createTheme themes n c a fc bc fsz ff tg tid n1 n2 =
      Except.error (mkSanctifyError "ThemeModel" "CREATE_002" ("Theme already exists: " ++ n)) := by
  unfold createTheme
  have h1 : ¬((pyStrip n == "") = true) := fun hc => hne (eq_of_beq hc)
  simp [h1, hdup]

/-
Presentation model lemmas, mirroring the theme lemmas.
-/

theorem dget_defaultFieldBy_ne (c d : Dict) (k : String) (v : Json) (k2 : String) (h : k2 ≠ k) :
    dget (defaultFieldBy c d k v) k2 = dget d k2 := by
  unfold defaultFieldBy
  split
  · rfl
  · exact dget_dset_ne d k v k2 h

theorem dget_mergeUpdatedPres_name (pres u : Dict) (now : String) :
    dget (mergeUpdatedPres pres u now) "name" = (dget u.reverse "name").or (dget pres "name") := by
  unfold mergeUpdatedPres
  rw [dget_defaultFieldBy_ne _ _ _ _ _ (by decide), dget_defaultFieldBy_ne _ _ _ _ _ (by decide),
    dget_defaultFieldBy_ne _ _ _ _ _ (by decide), dget_dset_ne _ _ _ _ (by decide),
    dget_dset_ne _ _ _ _ (by decide), dget_dset_ne _ _ _ _ (by decide), dget_dupdate]

theorem dget_mergeUpdatedPres_id (pres u : Dict) (now : String) :
    dget (mergeUpdatedPres pres u now) "id" = some (dgetD pres "id" Json.null) := by
  unfold mergeUpdatedPres
  rw [dget_defaultFieldBy_ne _ _ _ _ _ (by decide), dget_defaultFieldBy_ne _ _ _ _ _ (by decide),
    dget_defaultFieldBy_ne _ _ _ _ _ (by decide), dget_dset_ne _ _ _ _ (by decide),
    dget_dset_ne _ _ _ _ (by decide), dget_dset_self]

theorem validatePres_id (ti : Option (List String)) (mp : Option (List String)) (mdir : String)
    (p : Dict) (h : validatePres ti mp mdir p = true) :
    ∃ i, dget p "id" = some (Json.str i) := by
  unfold validatePres at h
  simp only [Bool.and_eq_true] at h
  exact isStrOpt_some _ h.1.1.1.1.1.1.1.1

theorem validatePres_name (ti : Option (List String)) (mp : Option (List String)) (mdir : String)
    (p : Dict) (h : validatePres ti mp mdir p = true) :
    ∃ n, dget p "name" = some (Json.str n) ∧ pyStrip n ≠ "" := by
  unfold validatePres at h
  simp only [Bool.and_eq_true] at h
  exact isStrBlankOpt_some _ h.1.1.1.1.1.1.1.2

/- The referential checks of _validate_presentation read only the slides
and the theme reference, both untouched by the duplicate record, so the
copy is valid whenever the source is. -/
theorem validatePres_dupRecordWithId (ti : Option (List String)) (mp : Option (List String))
    (mdir : String) (p : Dict) (nid nn now : String)
    (hv : validatePres ti mp mdir p = true) (hnn : pyStrip nn ≠ "") :
    validatePres ti mp mdir (dupRecordWithId p nid nn now) = true := by
  unfold validatePres at hv ⊢
  simp only [Bool.and_eq_true] at hv
  obtain ⟨⟨⟨⟨⟨⟨⟨⟨_, _⟩, h3⟩, h4⟩, h5⟩, _⟩, _⟩, hmedia⟩, htheme⟩ := hv
  rw [dget_dupRecordWithId_id, dget_dupRecordWithId_name, dget_dupRecordWithId_created,
    dget_dupRecordWithId_updated,
    dget_dupRecordWithId_other p nid nn now "slides" (by decide) (by decide) (by decide) (by decide),
    dget_dupRecordWithId_other p nid nn now "theme" (by decide) (by decide) (by decide) (by decide),
    dget_dupRecordWithId_other p nid nn now "tags" (by decide) (by decide) (by decide) (by decide)]
  simp only [Bool.and_eq_true]
  exact ⟨⟨⟨⟨⟨⟨⟨⟨trivial, bne_iff_ne.mpr hnn⟩, h3⟩, h4⟩, h5⟩, trivial⟩, trivial⟩, hmedia⟩, htheme⟩

theorem createPres_ok (ctx : Option (List String) × Option (List String)) (mdir : String)
    (ps : List Dict) (n th : String) (sl : List Json) (tg pid n1 n2 : String) (ps2 : List Dict)
    (h : createPres ctx mdir ps n th sl tg pid n1 n2 = Except.ok ps2) :
    (ps.any (fun p => nameLower p == low n)) = false ∧
    validatePres ctx.1 ctx.2 mdir (newPresRecord n th sl tg pid n1 n2) = true ∧
    ps2 = ps ++ [newPresRecord n th sl tg pid n1 n2] := by
  unfold createPres at h
  split at h
  · exact Except.noConfusion h
  · split at h
    · exact Except.noConfusion h
    · rename_i hany
      split at h
      · rename_i hval
        refine ⟨?_, hval, (Except.ok.inj h).symm⟩
        revert hany
        cases ps.any (fun p => nameLower p == low n) <;> simp
      · exact Except.noConfusion h

theorem updatePres_ok (ctx : Option (List String) × Option (List String)) (mdir : String)
    (ps : List Dict) (pid : String) (u : Dict) (now : String) (ps2 : List Dict)
    (h : updatePres ctx mdir ps pid u now = Except.ok ps2) :
    ∃ pres, ps.find? (fun x => keyEqStr x "id" pid) = some pres ∧
      validatePres ctx.1 ctx.2 mdir (mergeUpdatedPres pres u now) = true ∧
      ps2 = (ps.eraseP (fun x => keyEqStr x "id" pid)) ++ [mergeUpdatedPres pres u now] ∧
      (dget u "name" = none ∨
        ∃ n, dget u "name" = some (Json.str n) ∧
          (pyStrip n = "" ∨ low n = nameLower pres ∨
            (ps.filter (fun x => !(keyEqStr x "id" pid))).any
              (fun x => nameLower x == low n) = false)) := by
  unfold updatePres at h
  cases hf : ps.find? (fun x => keyEqStr x "id" pid) with
  | none => rw [hf] at h; exact Except.noConfusion h
  | some pres =>
    rw [hf] at h
    simp only at h
    cases hn : dget u "name" with
    | none =>
      rw [hn] at h
      simp only at h
      split at h
      · rename_i hval
        exact ⟨pres, rfl, hval, (Except.ok.inj h).symm, Or.inl rfl⟩
      · exact Except.noConfusion h
    | some v =>
      rw [hn] at h
      cases v with
      | str n =>
        simp only at h
        split at h
        · rename_i hguard
          split at h
          · exact Except.noConfusion h
          · rename_i hany
            split at h
            · rename_i hval
              refine ⟨pres, rfl, hval, (Except.ok.inj h).symm, Or.inr ⟨n, rfl, Or.inr (Or.inr ?_)⟩⟩
              revert hany
              cases (ps.filter (fun x => !(keyEqStr x "id" pid))).any
                (fun x => nameLower x == low n) <;> simp
            · exact Except.noConfusion h
        · rename_i hguard
          split at h
          · rename_i hval
            refine ⟨pres, rfl, hval, (Except.ok.inj h).symm, Or.inr ⟨n, rfl, ?_⟩⟩
            by_cases hb : pyStrip n = ""
            · exact Or.inl hb
            · refine Or.inr (Or.inl ?_)
              have hb1 : (pyStrip n != "") = true := bne_iff_ne.mpr hb
              have hb2 : (low n != nameLower pres) = false := by
                revert hguard
                rw [hb1]
                cases low n != nameLower pres <;> simp
              have hb3 := bne_iff_ne.not.mp (by rw [hb2]; exact Bool.false_ne_true)
              exact Decidable.not_not.mp (by simpa using hb3)
          · exact Except.noConfusion h
      | null => exact Except.noConfusion h
      | bool b => exact Except.noConfusion h
      | int m => exact Except.noConfusion h
      | arr xs => exact Except.noConfusion h
      | obj fs => exact Except.noConfusion h

theorem duplicatePres_ok (ps : List Dict) (pid nid now : String) (ps2 : List Dict)
    (h : duplicatePres ps pid nid now = Except.ok ps2) :
    ∃ pres, ps.find? (fun x => keyEqStr x "id" pid) = some pres ∧
      (ps.any (fun p => nameLower p == low (strField pres "name" ++ " (Copy)"))) = false ∧
      ps2 = ps ++ [dupRecordWithId pres nid (strField pres "name" ++ " (Copy)") now] := by
  unfold duplicatePres at h
  cases hf : ps.find? (fun x => keyEqStr x "id" pid) with
  | none => rw [hf] at h; exact Except.noConfusion h
  | some pres =>
    rw [hf] at h
    simp only at h
    split at h
    · exact Except.noConfusion h
    · rename_i hany
      refine ⟨pres, rfl, ?_, (Except.ok.inj h).symm⟩
      revert hany
      cases ps.any (fun p => nameLower p == low (strField pres "name" ++ " (Copy)")) <;> simp

theorem dget_newPresRecord_name (n th : String) (sl : List Json) (tg pid n1 n2 : String) :
    dget (newPresRecord n th sl tg pid n1 n2) "name" = some (Json.str n) := by
  rfl

theorem dget_newPresRecord_id (n th : String) (sl : List Json) (tg pid n1 n2 : String) :
    dget (newPresRecord n th sl tg pid n1 n2) "id" = some (Json.str pid) := by
  rfl

theorem createPres_preserves (ctx : Option (List String) × Option (List String)) (mdir : String)
    (ps : List Dict) (n th : String) (sl : List Json) (tg pid n1 n2 : String) (ps2 : List Dict)
    (hI : presInv ctx mdir ps) (hfresh : pid ∉ ps.map idOf)
    (h : createPres ctx mdir ps n th sl tg pid n1 n2 = Except.ok ps2) :
    presInv ctx mdir ps2 := by
  obtain ⟨hv, hnames, hids⟩ := hI
  obtain ⟨hany, hval, heq⟩ := createPres_ok ctx mdir ps n th sl tg pid n1 n2 ps2 h
  subst heq
  have hrecname : nameLower (newPresRecord n th sl tg pid n1 n2) = low n :=
    nameLower_eq_low _ n (dget_newPresRecord_name n th sl tg pid n1 n2)
  have hrecid : idOf (newPresRecord n th sl tg pid n1 n2) = pid :=
    idOf_eq _ pid (dget_newPresRecord_id n th sl tg pid n1 n2)
  refine ⟨?_, ?_, ?_⟩
  · intro t ht
    rcases List.mem_append.mp ht with h1 | h1
    · exact hv t h1
    · rw [List.mem_singleton.mp h1]; exact hval
  · unfold presNamesDistinct at hnames ⊢
    have hnot : low n ∉ ps.map nameLower := by
      intro hmem
      obtain ⟨s, hs, hts⟩ := List.mem_map.mp hmem
      have hb : (nameLower s == low n) = true := by rw [hts]; exact beq_self_eq_true _
      have h2 : ps.any (fun x => nameLower x == low n) = true :=
        List.any_eq_true.mpr ⟨s, hs, hb⟩
      rw [hany] at h2
      exact Bool.false_ne_true h2
    simp [List.map_append, List.nodup_append, hnames, hrecname, hnot]
  · unfold presIdsDistinct at hids ⊢
    simp [List.map_append, List.nodup_append, hids, hrecid, hfresh]

theorem updatePres_preserves (ctx : Option (List String) × Option (List String)) (mdir : String)
    (ps : List Dict) (pid : String) (u : Dict) (now : String) (ps2 : List Dict)
    (hI : presInv ctx mdir ps) (hu : dictKeysNodup u)
    (h : updatePres ctx mdir ps pid u now = Except.ok ps2) :
    presInv ctx mdir ps2 := by
  obtain ⟨hv, hnames, hids⟩ := hI
  obtain ⟨pres, hf, hval, heq, hname⟩ := updatePres_ok ctx mdir ps pid u now ps2 h
  obtain ⟨l1, l2, hps, hl1, hp, he⟩ := findEraseDecomp _ ps pres hf
  subst heq
  have hmem : pres ∈ ps := List.mem_of_find?_eq_some hf
  have hidth : dget pres "id" = some (Json.str pid) := keyEqStr_some _ _ _ hp
  have hidOf : idOf pres = pid := idOf_eq _ _ hidth
  have hmid : dget (mergeUpdatedPres pres u now) "id" = some (Json.str pid) := by
    rw [dget_mergeUpdatedPres_id]
    unfold dgetD
    rw [hidth]
    rfl
  have hmidOf : idOf (mergeUpdatedPres pres u now) = pid := idOf_eq _ _ hmid
  have hmname : dget (mergeUpdatedPres pres u now) "name" =
      (dget u "name").or (dget pres "name") := by
    rw [dget_mergeUpdatedPres_name, dget_reverse_of_nodup u hu]
  refine ⟨?_, ?_, ?_⟩
  · intro t ht
    rcases List.mem_append.mp ht with h1 | h1
    · exact hv t ((List.eraseP_sublist ps).subset h1)
    · rw [List.mem_singleton.mp h1]; exact hval
  · unfold presNamesDistinct at hnames ⊢
    rw [he]
    rw [hps] at hnames
    simp only [List.map_append, List.map_cons, List.map_nil] at hnames ⊢
    have hgoal : ∀ b, b = nameLower pres ∨ b ∉ (l1.map nameLower ++ l2.map nameLower) →
        ((l1.map nameLower ++ l2.map nameLower) ++ [b]).Nodup := by
      intro b hb
      exact nodup_replace_end _ _ _ _ hnames hb
    rcases hname with hcase | ⟨n, hn, hsub⟩
    · have hsame : nameLower (mergeUpdatedPres pres u now) = nameLower pres := by
        unfold nameLower strField dgetStr
        rw [hmname, hcase]
        simp
      rw [hsame]
      exact hgoal _ (Or.inl rfl)
    · have hmn : dget (mergeUpdatedPres pres u now) "name" = some (Json.str n) := by
        rw [hmname, hn]
        rfl
      have hmlow : nameLower (mergeUpdatedPres pres u now) = low n := nameLower_eq_low _ _ hmn
      rw [hmlow]
      rcases hsub with hblank | hsame | hany
      · exfalso
        obtain ⟨mn, hmn2, hmnb⟩ := validatePres_name _ _ _ _ hval
        rw [hmn] at hmn2
        exact hmnb ((Json.str.inj (Option.some.inj hmn2)).symm ▸ hblank)
      · rw [hsame]
        exact hgoal _ (Or.inl rfl)
      · refine hgoal _ (Or.inr ?_)
        intro hmemn
        have hex : ∃ s, s ∈ l1 ++ l2 ∧ nameLower s = low n := by
          rcases List.mem_append.mp hmemn with hmm | hmm
          · obtain ⟨s, hs, hts⟩ := List.mem_map.mp hmm
            exact ⟨s, List.mem_append.mpr (Or.inl hs), hts⟩
          · obtain ⟨s, hs, hts⟩ := List.mem_map.mp hmm
            exact ⟨s, List.mem_append.mpr (Or.inr hs), hts⟩
        obtain ⟨s, hs, hts⟩ := hex
        have hsin : s ∈ ps := by
          rw [hps]
          rcases List.mem_append.mp hs with hmm | hmm
          · exact List.mem_append.mpr (Or.inl hmm)
          · exact List.mem_append.mpr (Or.inr (List.mem_cons_of_mem _ hmm))
        have hidnot : idOf s ≠ pid := by
          intro hcon
          unfold presIdsDistinct at hids
          rw [hps] at hids
          simp only [List.map_append, List.map_cons, List.map_nil] at hids
          have hmid2 := List.nodup_middle.mp hids
          rw [List.nodup_cons] at hmid2
          obtain ⟨hnotin2, _⟩ := hmid2
          apply hnotin2
          rw [hidOf, ← hcon]
          rcases List.mem_append.mp hs with hmm | hmm
          · exact List.mem_append.mpr (Or.inl (List.mem_map_of_mem _ hmm))
          · exact List.mem_append.mpr (Or.inr (List.mem_map_of_mem _ hmm))
        have hsfil : s ∈ ps.filter (fun x => !(keyEqStr x "id" pid)) := by
          refine List.mem_filter.mpr ⟨hsin, ?_⟩
          rw [not_keyEq_of_idOf_ne s pid hidnot]
          rfl
        have hfalse := List.any_eq_false.mp hany s hsfil
        apply hfalse
        rw [hts]
        exact beq_self_eq_true _
  · unfold presIdsDistinct at hids ⊢
    rw [he]
    rw [hps] at hids
    simp only [List.map_append, List.map_cons, List.map_nil] at hids ⊢
    rw [hmidOf]
    exact nodup_replace_end _ _ _ _ hids (Or.inl hidOf.symm)

theorem duplicatePres_preserves (ctx : Option (List String) × Option (List String)) (mdir : String)
    (ps : List Dict) (pid nid now : String) (ps2 : List Dict)
    (hI : presInv ctx mdir ps) (hfresh : nid ∉ ps.map idOf)
    (h : duplicatePres ps pid nid now = Except.ok ps2) :
    presInv ctx mdir ps2 := by
  obtain ⟨hv, hnames, hids⟩ := hI
  obtain ⟨pres, hf, hany, heq⟩ := duplicatePres_ok ps pid nid now ps2 h
  subst heq
  have hmem : pres ∈ ps := List.mem_of_find?_eq_some hf
  have hvd : validatePres ctx.1 ctx.2 mdir
      (dupRecordWithId pres nid (strField pres "name" ++ " (Copy)") now) = true :=
    validatePres_dupRecordWithId ctx.1 ctx.2 mdir pres nid _ now (hv pres hmem)
      (pyStrip_copy_suffix _)
  have hnl : nameLower (dupRecordWithId pres nid (strField pres "name" ++ " (Copy)") now) =
      low (strField pres "name" ++ " (Copy)") :=
    nameLower_eq_low _ _ (dget_dupRecordWithId_name _ _ _ _)
  have hidl : idOf (dupRecordWithId pres nid (strField pres "name" ++ " (Copy)") now) = nid :=
    idOf_eq _ _ (dget_dupRecordWithId_id _ _ _ _)
  refine ⟨?_, ?_, ?_⟩
  · intro t ht
    rcases List.mem_append.mp ht with h1 | h1
    · exact hv t h1
    · rw [List.mem_singleton.mp h1]; exact hvd
  · unfold presNamesDistinct at hnames ⊢
    have hnot : low (strField pres "name" ++ " (Copy)") ∉ ps.map nameLower := by
      intro hmem2
      obtain ⟨s, hs, hts⟩ := List.mem_map.mp hmem2
      have hb : (nameLower s == low (strField pres "name" ++ " (Copy)")) = true := by
        rw [hts]; exact beq_self_eq_true _
      have h2 : ps.any (fun x => nameLower x == low (strField pres "name" ++ " (Copy)"))
          = true := List.any_eq_true.mpr ⟨s, hs, hb⟩
      rw [hany] at h2
      exact Bool.false_ne_true h2
    simp [List.map_append, List.nodup_append, hnames, hnl, hnot]
  · unfold presIdsDistinct at hids ⊢
    simp [List.map_append, List.nodup_append, hids, hidl, hfresh]

theorem stepPres_preserves (ctx : Option (List String) × Option (List String)) (mdir : String)
    (ps : List Dict) (op : PresOp) (ps2 : List Dict)
    (hI : presInv ctx mdir ps) (hfresh : ∀ i ∈ presOpIds op, i ∉ ps.map idOf)
    (hwf : ∀ pid u now, op = PresOp.update pid u now → dictKeysNodup u)
    (h : stepPres ctx mdir ps op = Except.ok ps2) : presInv ctx mdir ps2 := by
  cases op with
  | create n th sl tg pid n1 n2 =>
    refine createPres_preserves ctx mdir ps n th sl tg pid n1 n2 ps2 hI ?_ h
    exact hfresh pid (by simp [presOpIds])
  | update pid u now =>
    exact updatePres_preserves ctx mdir ps pid u now ps2 hI (hwf pid u now rfl) h
  | dup pid nid now =>
    refine duplicatePres_preserves ctx mdir ps pid nid now ps2 hI ?_ h
    exact hfresh nid (by simp [presOpIds])

theorem stepPres_ids (ctx : Option (List String) × Option (List String)) (mdir : String)
    (ps : List Dict) (op : PresOp) (ps2 : List Dict)
    (h : stepPres ctx mdir ps op = Except.ok ps2) :
    ∀ i ∈ ps2.map idOf, i ∈ ps.map idOf ∨ i ∈ presOpIds op := by
  intro i hi
  obtain ⟨t, ht, hit⟩ := List.mem_map.mp hi
  cases op with
  | create n th sl tg pid n1 n2 =>
    obtain ⟨_, _, heq⟩ := createPres_ok ctx mdir ps n th sl tg pid n1 n2 ps2 h
    subst heq
    rcases List.mem_append.mp ht with h1 | h1
    · exact Or.inl (hit ▸ List.mem_map_of_mem _ h1)
    · right
      rw [List.mem_singleton.mp h1] at hit
      rw [← hit, idOf_eq _ pid (dget_newPresRecord_id n th sl tg pid n1 n2)]
      simp [presOpIds]
  | update pid u now =>
    obtain ⟨pres, hf, _, heq, _⟩ := updatePres_ok ctx mdir ps pid u now ps2 h
    subst heq
    rcases List.mem_append.mp ht with h1 | h1
    · exact Or.inl (hit ▸ List.mem_map_of_mem _ ((List.eraseP_sublist ps).subset h1))
    · left
      rw [List.mem_singleton.mp h1] at hit
      obtain ⟨l1x, l2x, _, _, hpth, _⟩ := findEraseDecomp _ ps pres hf
      have hidth : dget pres "id" = some (Json.str pid) := keyEqStr_some _ _ _ hpth
      have hmid : dget (mergeUpdatedPres pres u now) "id" = some (Json.str pid) := by
        rw [dget_mergeUpdatedPres_id]
        unfold dgetD
        rw [hidth]
        rfl
      rw [← hit, idOf_eq _ _ hmid, ← idOf_eq _ _ hidth]
      exact List.mem_map_of_mem _ (List.mem_of_find?_eq_some hf)
  | dup pid nid now =>
    obtain ⟨pres, hf, _, heq⟩ := duplicatePres_ok ps pid nid now ps2 h
    subst heq
    rcases List.mem_append.mp ht with h1 | h1
    · exact Or.inl (hit ▸ List.mem_map_of_mem _ h1)
    · right
      rw [List.mem_singleton.mp h1] at hit
      rw [← hit, idOf_eq _ _ (dget_dupRecordWithId_id _ _ _ _)]
      simp [presOpIds]

theorem runPresOps_preserves_aux (ctx : Option (List String) × Option (List String))
    (mdir : String) (ops : List PresOp) (ps : List Dict) (used : List String)
    (hI : presInv ctx mdir ps) (hsub : ∀ i ∈ ps.map idOf, i ∈ used)
    (hfresh : freshPresIds used ops) (hwf : presOpsWF ops) :
    presInv ctx mdir (runPresOps ctx mdir ps ops) := by
  induction ops generalizing ps used with
  | nil => exact hI
  | cons op rest ih =>
    obtain ⟨hop, hrest⟩ := hfresh
    have hstep : presInv ctx mdir (runPres ctx mdir ps op) ∧
        (∀ i ∈ (runPres ctx mdir ps op).map idOf, i ∈ used ++ presOpIds op) := by
      unfold runPres
      cases hs : stepPres ctx mdir ps op with
      | ok s2 =>
        refine ⟨stepPres_preserves ctx mdir ps op s2 hI ?_ ?_ hs, ?_⟩
        · intro i hio hmem
          exact hop i hio (hsub i hmem)
        · intro pid u now hop2
          exact hwf op (List.mem_cons_self _ _) pid u now hop2
        · intro i hi
          rcases stepPres_ids ctx mdir ps op s2 hs i hi with h1 | h1
          · exact List.mem_append.mpr (Or.inl (hsub i h1))
          · exact List.mem_append.mpr (Or.inr h1)
      | error e =>
        refine ⟨hI, ?_⟩
        intro i hi
        exact List.mem_append.mpr (Or.inl (hsub i hi))
    obtain ⟨hI2, hsub2⟩ := hstep
    have hwf2 : presOpsWF rest := by
      intro op2 hmem pid u now hop2
      exact hwf op2 (List.mem_cons_of_mem _ hmem) pid u now hop2
    exact ih (runPres ctx mdir ps op) (used ++ presOpIds op) hI2 hsub2 hrest hwf2

theorem runPresOps_preserves (ctx : Option (List String) × Option (List String)) (mdir : String)
    (ops : List PresOp) (ps : List Dict) (hI : presInv ctx mdir ps)
    (hfresh : freshPresIds (ps.map idOf) ops) (hwf : presOpsWF ops) :
    presInv ctx mdir (runPresOps ctx mdir ps ops) :=
  runPresOps_preserves_aux ctx mdir ops ps (ps.map idOf) hI (fun _ hi => hi) hfresh hwf

/- Creating a presentation whose name clashes case-insensitively raises
CREATE_002. -/
theorem createPres_dup_error (ctx : Option (List String) × Option (List String)) (mdir : String)
    (ps : List Dict) (n th : String) (sl : List Json) (tg pid n1 n2 : String)
    (hne : pyStrip n ≠ "") (hdup : ps.any (fun p => nameLower p == low n) = true) :
    createPres ctx mdir ps n th sl tg pid n1 n2 =
      Except.error (mkSanctifyError "PresentationModel" "CREATE_002"
        ("Presentation already exists: " ++ n)) := by
  unfold createPres
  have h1 : ¬((pyStrip n == "") = true) := fun hc => hne (eq_of_beq hc)
  simp [h1, hdup]

/-- C1: for every sequence of add, update and duplicate operations applied
to a collection whose names are pairwise distinct case-insensitively (a
validated state, with the uuid-bearing models also keeping their ids
distinct and receiving fresh uuids, and update dictionaries being real
Python dictionaries with unique keys), song titles, theme names and
presentation names remain pairwise distinct case-insensitively; an
operation that would introduce a case-insensitive duplicate returns the
SanctifyError of the duplicate check (ADD_002 / CREATE_002), leaving the
collection unchanged (a run keeps the previous state on any error). -/
theorem C1_case_insensitive_uniqueness :
    (∀ songs ops, songsValid songs → songTitlesDistinct songs →
      songsValid (runSongOps songs ops) ∧ songTitlesDistinct (runSongOps songs ops)) ∧
    (∀ themes ops, themeInv themes → freshThemeIds (themes.map idOf) ops → themeOpsWF ops →
      themeInv (runThemeOps themes ops)) ∧
    (∀ ctx mdir ps ops, presInv ctx mdir ps → freshPresIds (ps.map idOf) ops → presOpsWF ops →
      presInv ctx mdir (runPresOps ctx mdir ps ops)) ∧
    (∀ songs sd now t, dget sd "title" = some (Json.str t) → pyStrip t ≠ "" →
      songs.any (fun s => titleLower s == low t) = true →
      addSong songs sd now = Except.error (mkSanctifyError "SongModel" "ADD_002"
        ("Cannot add song: title " ++ t ++ " already exists"))) ∧
    (∀ themes n c a fc bc fsz ff tg tid n1 n2, pyStrip n ≠ "" →
      themes.any (fun x => nameLower x == low n) = true →
      createTheme themes n c a fc bc fsz ff tg tid n1 n2 =
        Except.error (mkSanctifyError "ThemeModel" "CREATE_002"
          ("Theme already exists: " ++ n))) ∧
    (∀ ctx mdir ps n th sl tg pid n1 n2, pyStrip n ≠ "" →
      ps.any (fun x => nameLower x == low n) = true →
      createPres ctx mdir ps n th sl tg pid n1 n2 =
        Except.error (mkSanctifyError "PresentationModel" "CREATE_002"
          ("Presentation already exists: " ++ n))) := by
  refine ⟨?_, ?_, ?_, ?_, ?_, ?_⟩
  · intro songs ops hv hd
    exact runSongOps_preserves ops songs hv hd
  · intro themes ops hI hfresh hwf
    exact runThemeOps_preserves ops themes hI hfresh hwf
  · intro ctx mdir ps ops hI hfresh hwf
    exact runPresOps_preserves ctx mdir ops ps hI hfresh hwf
  · intro songs sd now t ht hne hdup
    exact addSong_dup_error songs sd now t ht hne hdup
  · intro themes n c a fc bc fsz ff tg tid n1 n2 hne hdup
    exact createTheme_dup_error themes n c a fc bc fsz ff tg tid n1 n2 hne hdup
  · intro ctx mdir ps n th sl tg pid n1 n2 hne hdup
    exact createPres_dup_error ctx mdir ps n th sl tg pid n1 n2 hne hdup

/-- Witness for C1 at concrete states: the sample collections satisfy the
invariants, running the sample operation sequences preserves them, and an
add with a case-insensitively clashing title returns ADD_002. -/
theorem C1_witness :
    (songsValid sampleSongs ∧ songTitlesDistinct sampleSongs) ∧
    (songsValid (runSongOps sampleSongs sampleSongOps) ∧
      songTitlesDistinct (runSongOps sampleSongs sampleSongOps)) ∧
    themeInv (runThemeOps sampleThemes sampleThemeOps) ∧
    presInv sampleCtx "data/media" (runPresOps sampleCtx "data/media" samplePresList samplePresOps) ∧
    addSong sampleSongs [("title", Json.str "amazing grace")] "2024-01-05T00:00:00" =
      Except.error (mkSanctifyError "SongModel" "ADD_002"
        "Cannot add song: title amazing grace already exists") := by
  refine ⟨⟨by intro s hs; rw [List.mem_singleton.mp hs]; decide, by unfold songTitlesDistinct; decide⟩, ?_, ?_, ?_, ?_⟩
  · exact C1_case_insensitive_uniqueness.1 sampleSongs sampleSongOps
      (by intro s hs; rw [List.mem_singleton.mp hs]; decide) (by unfold songTitlesDistinct; decide)
  · refine C1_case_insensitive_uniqueness.2.1 sampleThemes sampleThemeOps
      ⟨by intro t ht; rw [List.mem_singleton.mp ht]; decide, by unfold themeNamesDistinct; decide,
        by unfold themeIdsDistinct; decide⟩ ⟨by decide, trivial⟩ ?_
    intro op hop tid u now heq
    rw [List.mem_singleton.mp hop] at heq
    exact ThemeOp.noConfusion heq
  · refine C1_case_insensitive_uniqueness.2.2.1 sampleCtx "data/media" samplePresList
      samplePresOps ⟨by intro p hp; rw [List.mem_singleton.mp hp]; decide, by unfold presNamesDistinct; decide,
        by unfold presIdsDistinct; decide⟩ ⟨by decide, trivial⟩ ?_
    intro op hop pid u now heq
    rw [List.mem_singleton.mp hop] at heq
    exact PresOp.noConfusion heq
  · exact C1_case_insensitive_uniqueness.2.2.2.1 sampleSongs
      [("title", Json.str "amazing grace")] "2024-01-05T00:00:00" "amazing grace"
      rfl (by decide) rfl

/-
Claim C2: what add_song actually rejects. Both timestamps are always
overwritten and missing sections and tags are defaulted, so only the
title and the types of explicitly supplied sections and tags can cause
rejection.
-/

theorem dget_newSongRecord_created (sd : Dict) (now : String) :
    dget (newSongRecord sd now) "created_at" = some (Json.str now) := by
  unfold newSongRecord
  rw [dget_defaultField_ne _ _ _ _ (by decide), dget_defaultField_ne _ _ _ _ (by decide),
    dget_dset_ne _ _ _ _ (by decide), dget_dset_self]

theorem dget_newSongRecord_updated (sd : Dict) (now : String) :
    dget (newSongRecord sd now) "updated_at" = some (Json.str now) := by
  unfold newSongRecord
  rw [dget_defaultField_ne _ _ _ _ (by decide), dget_defaultField_ne _ _ _ _ (by decide),
    dget_dset_self]

theorem dget_newSongRecord_sections (sd : Dict) (now : String) :
    dget (newSongRecord sd now) "sections" = (dget sd "sections").or (some (Json.arr [])) := by
  unfold newSongRecord
  rw [dget_defaultField_ne _ _ _ _ (by decide), dget_defaultField_self,
    dget_dset_ne _ _ _ _ (by decide), dget_dset_ne _ _ _ _ (by decide)]

theorem dget_newSongRecord_tags (sd : Dict) (now : String) :
    dget (newSongRecord sd now) "tags" = (dget sd "tags").or (some (Json.str "")) := by
  unfold newSongRecord
  rw [dget_defaultField_self, dget_defaultField_ne _ _ _ _ (by decide),
    dget_dset_ne _ _ _ _ (by decide), dget_dset_ne _ _ _ _ (by decide)]

/-- C2 counterexample: the claim says a candidate with missing tags or
missing timestamps is rejected, but add_song fills the timestamps and
defaults sections and tags, so the record whose only field is a title is
accepted and appended. -/
theorem C2_counterexample :
    addSong [] [("title", Json.str "A")] "2024-01-01T00:00:00" =
      Except.ok [[("title", Json.str "A"), ("created_at", Json.str "2024-01-01T00:00:00"),
        ("updated_at", Json.str "2024-01-01T00:00:00"), ("sections", Json.arr []),
        ("tags", Json.str "")]] := by
  rfl

/-- C2 amended: add_song raises SanctifyError and leaves the collection
unchanged exactly for the failures that survive its defaulting: a missing
title raises ADD_001, a non-string title raises ADD_004, a blank title
raises ADD_001, and a record whose filled-in copy still fails validation
(sections present but not a list of [string, string] pairs, or tags
present but not a string) raises ADD_003; both timestamps are always
overwritten with now and missing sections and tags are defaulted, so
their absence never causes rejection. -/
theorem C2_add_song_rejections :
    (∀ songs sd now, dget sd "title" = none →
      addSong songs sd now = Except.error (mkSanctifyError "SongModel" "ADD_001"
        "Cannot add song: title is empty")) ∧
    (∀ songs sd now v, dget sd "title" = some v → (∀ s, v ≠ Json.str s) →
      addSong songs sd now = Except.error (mkSanctifyError "SongModel" "ADD_004"
        "Error adding song: the title value has no attribute strip")) ∧
    (∀ songs sd now t, dget sd "title" = some (Json.str t) → pyStrip t = "" →
      addSong songs sd now = Except.error (mkSanctifyError "SongModel" "ADD_001"
        "Cannot add song: title is empty")) ∧
    (∀ songs sd now t, dget sd "title" = some (Json.str t) → pyStrip t ≠ "" →
      songs.any (fun s => titleLower s == low t) = false →
      validateSong (newSongRecord sd now) = false →
      addSong songs sd now = Except.error (mkSanctifyError "SongModel" "ADD_003"
        ("Cannot add song: invalid data for " ++ t))) ∧
    (∀ sd now, dget (newSongRecord sd now) "created_at" = some (Json.str now) ∧
      dget (newSongRecord sd now) "updated_at" = some (Json.str now) ∧
      dget (newSongRecord sd now) "sections" = (dget sd "sections").or (some (Json.arr [])) ∧
      dget (newSongRecord sd now) "tags" = (dget sd "tags").or (some (Json.str ""))) := by
  refine ⟨?_, ?_, ?_, ?_, ?_⟩
  · intro songs sd now ht
    unfold addSong
    rw [ht]
  · intro songs sd now v ht hv
    unfold addSong
    rw [ht]
    cases v with
    | str s => exact absurd rfl (hv s)
    | null => rfl
    | bool b => rfl
    | int n => rfl
    | arr xs => rfl
    | obj fs => rfl
  · intro songs sd now t ht hb
    unfold addSong
    rw [ht]
    have hbeq : (pyStrip t == "") = true := beq_iff_eq.mpr hb
    simp [hbeq]
  · intro songs sd now t ht hb hdup hval
    unfold addSong
    rw [ht]
    have h1 : ¬((pyStrip t == "") = true) := fun hc => hb (eq_of_beq hc)
    simp [h1, hdup, hval]
  · intro sd now
    exact ⟨dget_newSongRecord_created sd now, dget_newSongRecord_updated sd now,
      dget_newSongRecord_sections sd now, dget_newSongRecord_tags sd now⟩

/-- Witness for C2: concrete rejected candidates for each amended case. -/
theorem C2_witness :
    (dget ([("sections", Json.arr [])] : Dict) "title" = none ∧
      addSong [] [("sections", Json.arr [])] "t0" = Except.error (mkSanctifyError "SongModel"
        "ADD_001" "Cannot add song: title is empty")) ∧
    (addSong [] [("title", Json.int 7)] "t0" = Except.error (mkSanctifyError "SongModel"
      "ADD_004" "Error adding song: the title value has no attribute strip")) ∧
    (addSong [] [("title", Json.str "  ")] "t0" = Except.error (mkSanctifyError "SongModel"
      "ADD_001" "Cannot add song: title is empty")) ∧
    (addSong [] [("title", Json.str "A"), ("sections", Json.str "oops")] "t0" =
      Except.error (mkSanctifyError "SongModel" "ADD_003"
        "Cannot add song: invalid data for A")) := by
  refine ⟨⟨rfl, C2_add_song_rejections.1 [] [("sections", Json.arr [])] "t0" rfl⟩, ?_, ?_, ?_⟩
  · refine C2_add_song_rejections.2.1 [] [("title", Json.int 7)] "t0" (Json.int 7) rfl ?_
    intro s h
    exact Json.noConfusion h
  · exact C2_add_song_rejections.2.2.1 [] [("title", Json.str "  ")] "t0" "  " rfl (by decide)
  · exact C2_add_song_rejections.2.2.2.1 [] [("title", Json.str "A"), ("sections", Json.str "oops")]
      "t0" "A" rfl (by decide) rfl rfl

/-
Claim C3: the save format is the JSON array of the in-memory records and
reloading keeps every valid record, in order, with all fields.
-/

theorem loadSongList_all_valid (path : String) (songs : List Dict)
    (hv : ∀ s ∈ songs, validateSong s = true) :
    loadSongList path (songs.map Json.obj) = Except.ok songs := by
  induction songs with
  | nil => rfl
  | cons d rest ih =>
    have hd := hv d (List.mem_cons_self _ _)
    have hrest := ih (fun s hs => hv s (List.mem_cons_of_mem _ hs))
    simp only [List.map_cons]
    unfold loadSongList
    rw [hd, hrest]
    simp

/-- C3: saving a list of songs that all pass _validate_song and reloading
the written document yields exactly the same list: same records, same
order, every field preserved (json.dump followed by json.load is the
identity on JSON values, so the file is modelled by the document
itself). -/
theorem C3_save_load_roundtrip (songs : List Dict) (path : String)
    (hv : ∀ s ∈ songs, validateSong s = true) :
    loadSongs (saveSongs songs) path = Except.ok songs := by
  unfold saveSongs loadSongs
  exact loadSongList_all_valid path songs hv

/-- Witness for C3 at a concrete song list. -/
theorem C3_witness :
    (∀ s ∈ sampleSongs, validateSong s = true) ∧
    loadSongs (saveSongs sampleSongs) "data/songs/songs.json" = Except.ok sampleSongs := by
  refine ⟨?_, C3_save_load_roundtrip sampleSongs "data/songs/songs.json" ?_⟩ <;>
    (intro s hs; rw [List.mem_singleton.mp hs]; decide)

/-
Claim C4: duplicate then delete restores the collection.
-/

/-- C4: on a collection of validated songs containing a song found under
title t and containing no song whose title is case-insensitively t ++
" (Copy)", duplicate_song(t) succeeds, and delete_song of t ++ " (Copy)"
on the result returns exactly the previous collection. -/
theorem C4_duplicate_then_delete (songs : List Dict) (t now : String) (song : Dict)
    (hfind : getSongByTitle songs t = some song)
    (hno : ∀ s ∈ songs, titleLower s ≠ low (t ++ " (Copy)")) :
    ∃ songs2, duplicateSong songs t now = Except.ok songs2 ∧
      deleteSong songs2 (t ++ " (Copy)") = Except.ok songs := by
  have hp : (titleLower song == low t) = true := by
    obtain ⟨l1, l2, _, _, hp, _⟩ := findEraseDecomp _ songs song hfind
    exact hp
  have htl : titleLower song = low t := eq_of_beq hp
  have hlownew : low (strField song "title" ++ " (Copy)") = low (t ++ " (Copy)") := by
    rw [low_append, low_append]
    unfold titleLower at htl
    rw [htl]
  have hany : songs.any (fun s => titleLower s == low (strField song "title" ++ " (Copy)"))
      = false := by
    rw [List.any_eq_false]
    intro s hs hcon
    rw [hlownew] at hcon
    exact hno s hs (eq_of_beq hcon)
  refine ⟨songs ++ [dupRecord song (strField song "title" ++ " (Copy)") now], ?_, ?_⟩
  · unfold duplicateSong
    rw [hfind]
    simp only
    rw [hany]
    simp
  · have hnewlow : titleLower (dupRecord song (strField song "title" ++ " (Copy)") now) =
        low (t ++ " (Copy)") := by
      rw [titleLower_eq_low _ _ (dget_dupRecord_title _ _ _), hlownew]
    have hmatch : (titleLower (dupRecord song (strField song "title" ++ " (Copy)") now) ==
        low (t ++ " (Copy)")) = true := by
      rw [hnewlow]
      exact beq_self_eq_true _
    have hfails : ∀ s ∈ songs, (titleLower s == low (t ++ " (Copy)")) = false := by
      intro s hs
      exact beq_eq_false_iff_ne.mpr (hno s hs)
    unfold deleteSong getSongByTitle
    rw [List.find?_append]
    have hnone : songs.find? (fun s => titleLower s == low (t ++ " (Copy)")) = none := by
      rw [List.find?_eq_none]
      intro s hs
      rw [hfails s hs]
      exact Bool.false_ne_true
    rw [hnone]
    simp only [Option.none_or, List.find?]
    rw [hmatch]
    simp only
    rw [List.eraseP_append_right _ (by intro b hb; rw [hfails b hb]; exact Bool.false_ne_true)]
    rw [List.eraseP_cons, hmatch]
    simp

/-- Witness for C4 at a concrete collection. -/
theorem C4_witness :
    getSongByTitle sampleSongs "amazing grace" = some sampleSong ∧
    (∃ songs2, duplicateSong sampleSongs "amazing grace" "2024-02-01T00:00:00" = Except.ok songs2 ∧
      deleteSong songs2 ("amazing grace" ++ " (Copy)") = Except.ok sampleSongs) := by
  refine ⟨rfl, C4_duplicate_then_delete sampleSongs "amazing grace" "2024-02-01T00:00:00"
    sampleSong rfl ?_⟩
  intro s hs
  rw [List.mem_singleton.mp hs]
  decide

/-
Claim C5: the logo flag. Lemmas about the is_logo field of the records
the media operations build, then preservation of the at-most-one-logo
property by every operation.
-/

theorem isLogoD_dset_bool (m : Dict) (b : Bool) :
    isLogoD (dset m "is_logo" (Json.bool b)) = b := by
  unfold isLogoD
  rw [dget_dset_self]
  cases b <;> rfl

theorem isLogoD_dset_ne (m : Dict) (k : String) (v : Json) (h : k ≠ "is_logo") :
    isLogoD (dset m k v) = isLogoD m := by
  unfold isLogoD
  rw [dget_dset_ne _ _ _ _ (Ne.symm h)]

theorem dget_mergeUpdatedMedia_isLogo (media md : Dict) (now : String) :
    dget (mergeUpdatedMedia media md now) "is_logo" = some (dgetD media "is_logo" Json.null) := by
  unfold mergeUpdatedMedia
  rw [dget_defaultField_ne _ _ _ _ (by decide), dget_defaultField_ne _ _ _ _ (by decide),
    dget_defaultField_ne _ _ _ _ (by decide), dget_defaultField_ne _ _ _ _ (by decide),
    dget_dset_self]

theorem isLogoD_mergeUpdatedMedia (media md : Dict) (now : String) :
    isLogoD (mergeUpdatedMedia media md now) = isLogoD media := by
  unfold isLogoD
  rw [dget_mergeUpdatedMedia_isLogo]
  unfold dgetD
  cases hg : dget media "is_logo" with
  | none => rfl
  | some v => rfl

theorem setLogo_ok (st : MediaState) (mid : String) (st2 : MediaState)
    (h : setLogo st mid = Except.ok st2) :
    ∃ m, st.media.find? (fun x => keyEqStr x "id" mid) = some m ∧
      keyEqStr m "category" "Images" = true ∧
      st2 = ⟨st.media.map (fun x => dset x "is_logo" (Json.bool (keyEqStr x "id" mid))), st.fs⟩ := by
  unfold setLogo at h
  cases hf : st.media.find? (fun x => keyEqStr x "id" mid) with
  | none => rw [hf] at h; exact Except.noConfusion h
  | some m =>
    rw [hf] at h
    simp only at h
    split at h
    · exact Except.noConfusion h
    · rename_i hc
      refine ⟨m, rfl, ?_, (Except.ok.inj h).symm⟩
      revert hc
      cases keyEqStr m "category" "Images" <;> simp

theorem addMedia_ok (mdir : String) (st : MediaState)
    (sp cat dn tg sc mid n1 n2 : String) (st2 : MediaState)
    (h : addMedia mdir st sp cat dn tg sc mid n1 n2 = Except.ok st2) :
    ∃ md, st2.media = st.media ++ [md] ∧ isLogoD md = false := by
  unfold addMedia at h
  simp only at h
  repeat' split at h
  all_goals
    first
      | exact Except.noConfusion h
      | (rw [← (Except.ok.inj h)]; exact ⟨_, rfl, rfl⟩)

theorem duplicateMedia_ok (mdir : String) (st : MediaState) (mid nid n1 n2 : String)
    (st2 : MediaState) (h : duplicateMedia mdir st mid nid n1 n2 = Except.ok st2) :
    ∃ md, st2.media = st.media ++ [md] ∧ isLogoD md = false := by
  unfold duplicateMedia at h
  cases hf : st.media.find? (fun x => keyEqStr x "id" mid) with
  | none => rw [hf] at h; exact Except.noConfusion h
  | some media =>
    rw [hf] at h
    simp only at h
    cases hr : rsplitDot1 (strField media "name") with
    | none => rw [hr] at h; exact Except.noConfusion h
    | some pr =>
      rw [hr] at h
      obtain ⟨stem, after⟩ := pr
      simp only at h
      split at h
      · exact Except.noConfusion h
      · split at h
        · rw [← (Except.ok.inj h)]
          exact ⟨_, rfl, rfl⟩
        · exact Except.noConfusion h

theorem deleteMedia_ok (mdir : String) (st : MediaState) (mid : String) (st2 : MediaState)
    (h : deleteMedia mdir st mid = Except.ok st2) :
    st2.media = st.media.eraseP (fun x => keyEqStr x "id" mid) := by
  unfold deleteMedia at h
  cases hf : st.media.find? (fun x => keyEqStr x "id" mid) with
  | none => rw [hf] at h; exact Except.noConfusion h
  | some media =>
    rw [hf] at h
    simp only at h
    split at h
    · exact Except.noConfusion h
    · rw [← (Except.ok.inj h)]

theorem updateMedia_ok (mdir : String) (st : MediaState) (mid : String) (md : Dict)
    (now : String) (st2 : MediaState) (h : updateMedia mdir st mid md now = Except.ok st2) :
    ∃ media dfin, st.media.find? (fun x => keyEqStr x "id" mid) = some media ∧
      st2.media = (st.media.eraseP (fun x => keyEqStr x "id" mid)) ++ [dfin] ∧
      isLogoD dfin = isLogoD media := by
  unfold updateMedia at h
  cases hf : st.media.find? (fun x => keyEqStr x "id" mid) with
  | none => rw [hf] at h; exact Except.noConfusion h
  | some media =>
    rw [hf] at h
    simp only at h
    split at h
    · -- the name or the category changed: rename branch
      cases hc : dget (mergeUpdatedMedia media md now) "category" with
      | none => rw [hc] at h; exact Except.noConfusion h
      | some v =>
        rw [hc] at h
        cases v with
        | str cat =>
          simp only at h
          split at h
          · exact Except.noConfusion h
          · split at h
            · refine ⟨media, dset (mergeUpdatedMedia media md now) "path"
                (Json.str (pjoin cat (mid ++ splitextExt (strField media "path")))),
                rfl, ?_, ?_⟩
              · rw [← (Except.ok.inj h)]
              · rw [isLogoD_dset_ne _ _ _ (by decide)]
                exact isLogoD_mergeUpdatedMedia media md now
            · exact Except.noConfusion h
        | null => exact Except.noConfusion h
        | bool b => exact Except.noConfusion h
        | int n => exact Except.noConfusion h
        | arr xs => exact Except.noConfusion h
        | obj fs => exact Except.noConfusion h
    · split at h
      · refine ⟨media, mergeUpdatedMedia media md now, rfl, ?_, ?_⟩
        · rw [← (Except.ok.inj h)]
        · exact isLogoD_mergeUpdatedMedia media md now
      · exact Except.noConfusion h

/- Under distinct ids at most one record matches a given id. -/
theorem countP_keyEq_le_one (l : List Dict) (mid : String) (h : (l.map idOf).Nodup) :
    l.countP (fun m => keyEqStr m "id" mid) ≤ 1 := by
  induction l with
  | nil => exact Nat.zero_le 1
  | cons m rest ih =>
    simp only [List.map_cons, List.nodup_cons] at h
    obtain ⟨hnot, hrest⟩ := h
    rw [List.countP_cons]
    by_cases hp : keyEqStr m "id" mid = true
    · have hid : idOf m = mid := idOf_eq _ _ (keyEqStr_some _ _ _ hp)
      have hzero : rest.countP (fun x => keyEqStr x "id" mid) = 0 := by
        rw [List.countP_eq_zero]
        intro x hx hxp
        apply hnot
        rw [hid, ← idOf_eq _ _ (keyEqStr_some _ _ _ hxp)]
        exact List.mem_map_of_mem _ hx
      simp [hp, hzero]
    · have hle := ih hrest
      simp [hp]
      omega

/- The logo count after set_logo is the count of records matching the id. -/
theorem countP_setLogo (l : List Dict) (mid : String) :
    (l.map (fun x => dset x "is_logo" (Json.bool (keyEqStr x "id" mid)))).countP isLogoD =
      l.countP (fun x => keyEqStr x "id" mid) := by
  rw [List.countP_map]
  apply List.countP_congr
  intro x _
  simp only [Function.comp]
  rw [isLogoD_dset_bool]

/-- C5: starting from a media collection with at most one logo (and the
uuid ids pairwise distinct), every media operation preserves the
at-most-one-logo property; set_logo makes the is_logo flag of every
record the truth value of the id comparison and yields exactly one logo
when the id is present, raising SET_LOGO_001 when the id is unknown or
the record is not an image; add_media and duplicate_media append a record
with is_logo False; update_media appends a record carrying the stored
is_logo value of the record it replaces. -/
theorem C5_logo_invariant :
    (∀ mdir st op st2, atMostOneLogo st.media → mediaIdsDistinct st.media →
      stepMedia mdir st op = Except.ok st2 → atMostOneLogo st2.media) ∧
    (∀ st mid st2, setLogo st mid = Except.ok st2 →
      ∀ m ∈ st2.media, isLogoD m = keyEqStr m "id" mid) ∧
    (∀ st mid st2 m, mediaIdsDistinct st.media →
      st.media.find? (fun x => keyEqStr x "id" mid) = some m →
      setLogo st mid = Except.ok st2 → st2.media.countP isLogoD = 1) ∧
    (∀ st mid, st.media.find? (fun x => keyEqStr x "id" mid) = none →
      setLogo st mid = Except.error (mkSanctifyError "MediaModel" "SET_LOGO_001"
        ("Invalid logo media: " ++ mid ++ " (must be an image)"))) ∧
    (∀ st mid m, st.media.find? (fun x => keyEqStr x "id" mid) = some m →
      keyEqStr m "category" "Images" = false →
      setLogo st mid = Except.error (mkSanctifyError "MediaModel" "SET_LOGO_001"
        ("Invalid logo media: " ++ mid ++ " (must be an image)"))) ∧
    (∀ mdir st sp cat dn tg sc mid n1 n2 st2,
      addMedia mdir st sp cat dn tg sc mid n1 n2 = Except.ok st2 →
      ∃ md, st2.media = st.media ++ [md] ∧ isLogoD md = false) ∧
    (∀ mdir st mid nid n1 n2 st2, duplicateMedia mdir st mid nid n1 n2 = Except.ok st2 →
      ∃ md, st2.media = st.media ++ [md] ∧ isLogoD md = false) ∧
    (∀ mdir st mid md now st2, updateMedia mdir st mid md now = Except.ok st2 →
      ∃ media dfin, st.media.find? (fun x => keyEqStr x "id" mid) = some media ∧
        st2.media = (st.media.eraseP (fun x => keyEqStr x "id" mid)) ++ [dfin] ∧
        isLogoD dfin = isLogoD media) := by
  have hstep : ∀ mdir st op st2, atMostOneLogo st.media → mediaIdsDistinct st.media →
      stepMedia mdir st op = Except.ok st2 → atMostOneLogo st2.media := by
    intro mdir st op st2 h1 h2 h
    cases op with
    | add sp cat dn tg sc mid n1 n2 =>
      obtain ⟨md, heq, hlogo⟩ := addMedia_ok mdir st sp cat dn tg sc mid n1 n2 st2 h
      unfold atMostOneLogo at h1 ⊢
      rw [heq, List.countP_append]
      simpa [List.countP_cons, hlogo] using h1
    | update mid md now =>
      obtain ⟨media, dfin, hf, heq, hlogo⟩ := updateMedia_ok mdir st mid md now st2 h
      obtain ⟨l1, l2, hl, _, _, he⟩ := findEraseDecomp _ st.media media hf
      unfold atMostOneLogo at h1 ⊢
      rw [heq, he, List.countP_append, List.countP_append]
      rw [hl, List.countP_append, List.countP_cons] at h1
      have hone : List.countP isLogoD [dfin] = if isLogoD media = true then 1 else 0 := by
        rw [List.countP_cons]
        simp [hlogo]
      rw [hone]
      omega
    | delete mid =>
      have heq := deleteMedia_ok mdir st mid st2 h
      unfold atMostOneLogo at h1 ⊢
      rw [heq]
      exact le_trans ((List.eraseP_sublist st.media).countP_le isLogoD) h1
    | dup mid nid n1 n2 =>
      obtain ⟨md, heq, hlogo⟩ := duplicateMedia_ok mdir st mid nid n1 n2 st2 h
      unfold atMostOneLogo at h1 ⊢
      rw [heq, List.countP_append]
      simpa [List.countP_cons, hlogo] using h1
    | logo mid =>
      obtain ⟨m, hf, _, heq⟩ := setLogo_ok st mid st2 h
      unfold atMostOneLogo
      rw [heq]
      simp only
      rw [countP_setLogo]
      exact countP_keyEq_le_one st.media mid h2
  refine ⟨hstep, ?_, ?_, ?_, ?_, ?_, ?_, ?_⟩
  · intro st mid st2 h m hm
    obtain ⟨m0, hf, _, heq⟩ := setLogo_ok st mid st2 h
    rw [heq] at hm
    simp only at hm
    obtain ⟨x, hx, hxm⟩ := List.mem_map.mp hm
    rw [← hxm, isLogoD_dset_bool]
    unfold keyEqStr
    rw [dget_dset_ne _ _ _ _ (by decide)]
  · intro st mid st2 m hids hf h
    obtain ⟨m0, hf0, _, heq⟩ := setLogo_ok st mid st2 h
    rw [heq]
    simp only
    rw [countP_setLogo]
    have hle := countP_keyEq_le_one st.media mid hids
    have hpos : 0 < st.media.countP (fun x => keyEqStr x "id" mid) := by
      rw [List.countP_pos_iff]
      obtain ⟨l1, l2, _, _, hp, _⟩ := findEraseDecomp _ st.media m hf
      exact ⟨m, List.mem_of_find?_eq_some hf, hp⟩
    omega
  · intro st mid hf
    unfold setLogo
    rw [hf]
  · intro st mid m hf hc
    unfold setLogo
    rw [hf]
    simp [hc]
  · intro mdir st sp cat dn tg sc mid n1 n2 st2 h
    exact addMedia_ok mdir st sp cat dn tg sc mid n1 n2 st2 h
  · intro mdir st mid nid n1 n2 st2 h
    exact duplicateMedia_ok mdir st mid nid n1 n2 st2 h
  · intro mdir st mid md now st2 h
    exact updateMedia_ok mdir st mid md now st2 h

/-- Witness for C5: a concrete two-item collection; set_logo on the first
id yields exactly one logo, every flag equals the id comparison, and an
unknown id raises SET_LOGO_001. -/
theorem C5_witness :
    (atMostOneLogo sampleMediaState.media ∧ mediaIdsDistinct sampleMediaState.media) ∧
    atMostOneLogo sampleMediaLogoState.media ∧
    (∀ m ∈ sampleMediaLogoState.media, isLogoD m = keyEqStr m "id" "m1") ∧
    sampleMediaLogoState.media.countP isLogoD = 1 ∧
    setLogo sampleMediaState "zzz" = Except.error (mkSanctifyError "MediaModel" "SET_LOGO_001"
      "Invalid logo media: zzz (must be an image)") := by
  have h1 : atMostOneLogo sampleMediaState.media := by unfold atMostOneLogo; decide
  have h2 : mediaIdsDistinct sampleMediaState.media := by unfold mediaIdsDistinct; decide
  have hrun : stepMedia "data/media" sampleMediaState (MediaOp.logo "m1") =
      Except.ok sampleMediaLogoState := by rfl
  refine ⟨⟨h1, h2⟩, ?_, ?_, ?_, ?_⟩
  · exact C5_logo_invariant.1 "data/media" sampleMediaState (MediaOp.logo "m1")
      sampleMediaLogoState h1 h2 hrun
  · exact C5_logo_invariant.2.1 sampleMediaState "m1" sampleMediaLogoState hrun
  · exact C5_logo_invariant.2.2.1 sampleMediaState "m1" sampleMediaLogoState sampleMediaItem
      h2 rfl hrun
  · exact C5_logo_invariant.2.2.2.1 sampleMediaState "zzz" rfl

/-
Claim C10: duplicating a media item whose display name has no dot.
-/

theorem rsplitDot1_none_of_no_dot (s : String) (h : ∀ c ∈ s.data, c ≠ '.') :
    rsplitDot1 s = none := by
  unfold rsplitDot1 lastIdxOf
  have hnone : s.data.reverse.findIdx? (fun x => x == '.') = none := by
    rw [List.findIdx?_eq_none_iff]
    intro x hx
    exact beq_eq_false_iff_ne.mpr (h x (List.mem_reverse.mp hx))
  rw [hnone]

/-- C10: when the found media item has a display name without any dot,
the copy-name computation (name.rsplit(".", 1) indexed at 1) raises
IndexError, which duplicate_media wraps as the SanctifyError
DUPLICATE_004; the raise happens before the file copy and before the
append, so no metadata record is added. -/
theorem C10_duplicate_media_no_dot (mdir : String) (st : MediaState) (mid nid n1 n2 : String)
    (m : Dict) (hf : st.media.find? (fun x => keyEqStr x "id" mid) = some m)
    (hnd : ∀ c ∈ (strField m "name").data, c ≠ '.') :
    duplicateMedia mdir st mid nid n1 n2 = Except.error (mkSanctifyError "MediaModel"
      "DUPLICATE_004" "Error duplicating media: list index out of range") := by
  unfold duplicateMedia
  rw [hf]
  simp only
  rw [rsplitDot1_none_of_no_dot _ hnd]

/-- Witness for C10: duplicating the concrete item named without a dot
returns DUPLICATE_004. -/
theorem C10_witness :
    sampleMediaState.media.find? (fun x => keyEqStr x "id" "m2") = some sampleMediaNoDot ∧
    duplicateMedia "data/media" sampleMediaState "m2" "m9" "t1" "t2" =
      Except.error (mkSanctifyError "MediaModel" "DUPLICATE_004"
        "Error duplicating media: list index out of range") := by
  refine ⟨rfl, C10_duplicate_media_no_dot "data/media" sampleMediaState "m2" "m9" "t1" "t2"
    sampleMediaNoDot rfl ?_⟩
  have hall : ∀ c ∈ (strField sampleMediaNoDot "name").data, c ≠ '.' := by decide
  exact hall

/-
Claim C6: the shape of update_song.
-/

theorem dget_mergeUpdatedSong_created (song sd : Dict) (now : String) :
    dget (mergeUpdatedSong song sd now) "created_at" = some (dgetD song "created_at" Json.null) := by
  unfold mergeUpdatedSong
  rw [dget_defaultField_ne _ _ _ _ (by decide), dget_defaultField_ne _ _ _ _ (by decide),
    dget_dset_self]

theorem dget_mergeUpdatedSong_updated (song sd : Dict) (now : String) :
    dget (mergeUpdatedSong song sd now) "updated_at" = some (Json.str now) := by
  unfold mergeUpdatedSong
  rw [dget_defaultField_ne _ _ _ _ (by decide), dget_defaultField_ne _ _ _ _ (by decide),
    dget_dset_ne _ _ _ _ (by decide), dget_dset_self]

/-- C6: a successful update_song removes exactly the found record (the
first case-insensitive title match) and appends the merged record at the
end; every other record is unchanged and keeps its relative order, and
the merged record keeps the created_at of the old record while its
updated_at is the fresh timestamp. Moreover, on a collection of validated
songs containing old_title, a replacement whose merged record passes
validation and whose title clashes with no other song makes update_song
return exactly that removed-plus-appended list. -/
theorem C6_update_song_effect :
    (∀ songs old sd now songs2, songsValid songs →
      updateSong songs old sd now = Except.ok songs2 →
      ∃ song l1 l2, getSongByTitle songs old = some song ∧ songs = l1 ++ song :: l2 ∧
        (∀ y ∈ l1, (titleLower y == low old) = false) ∧
        songs2 = (l1 ++ l2) ++ [mergeUpdatedSong song sd now] ∧
        dget (mergeUpdatedSong song sd now) "created_at" = dget song "created_at" ∧
        dget (mergeUpdatedSong song sd now) "updated_at" = some (Json.str now)) ∧
    (∀ songs old sd now song t, getSongByTitle songs old = some song →
      dget sd "title" = some (Json.str t) → pyStrip t ≠ "" →
      validateSong (mergeUpdatedSong song sd now) = true →
      (songs.filter (fun s => titleLower s != low old)).any
        (fun s => titleLower s == low t) = false →
      updateSong songs old sd now =
        Except.ok ((songs.eraseP (fun s => titleLower s == low old)) ++
          [mergeUpdatedSong song sd now])) := by
  constructor
  · intro songs old sd now songs2 hv h
    obtain ⟨song, t, hf, ht, hval, heq, _⟩ := updateSong_ok songs old sd now songs2 h
    obtain ⟨l1, l2, hsongs, hl1, hp, he⟩ := findEraseDecomp _ songs song hf
    refine ⟨song, l1, l2, hf, hsongs, hl1, ?_, ?_, dget_mergeUpdatedSong_updated song sd now⟩
    · rw [heq, he]
    · rw [dget_mergeUpdatedSong_created]
      have hmem : song ∈ songs := List.mem_of_find?_eq_some hf
      have hvs := hv song hmem
      unfold validateSong at hvs
      simp only [Bool.and_eq_true] at hvs
      obtain ⟨⟨⟨_, _⟩, _⟩, hcreated⟩ := hvs.1
      obtain ⟨c, hc⟩ := isStrOpt_some _ hcreated
      unfold dgetD
      rw [hc]
      rfl
  · intro songs old sd now song t hf ht hne hval hany
    unfold updateSong
    rw [hf, ht]
    simp only
    have hguard1 : (pyStrip t != "") = true := bne_iff_ne.mpr hne
    by_cases hlo : low t = low old
    · have hg2 : (low t != low old) = false := by
        rw [bne_eq_false_iff_eq]
        exact hlo
      rw [hguard1, hg2]
      simp only [Bool.and_false, Bool.false_eq_true, if_false]
      unfold finishUpdateSong
      rw [hval]
      simp
    · have hg2 : (low t != low old) = true := bne_iff_ne.mpr hlo
      rw [hguard1, hg2]
      simp only [Bool.and_true, if_true]
      rw [hany]
      simp only [Bool.false_eq_true, if_false]
      unfold finishUpdateSong
      rw [hval]
      simp

/-- Witness for C6: a concrete update replacing the sample song. -/
theorem C6_witness :
    updateSong sampleSongs "amazing grace"
      [("title", Json.str "Amazing Grace (Hymn)"), ("sections", Json.arr []),
       ("tags", Json.str "hymn")] "2024-03-01T00:00:00" =
      Except.ok ((sampleSongs.eraseP (fun s => titleLower s == low "amazing grace")) ++
        [mergeUpdatedSong sampleSong
          [("title", Json.str "Amazing Grace (Hymn)"), ("sections", Json.arr []),
           ("tags", Json.str "hymn")] "2024-03-01T00:00:00"]) := by
  exact C6_update_song_effect.2 sampleSongs "amazing grace"
    [("title", Json.str "Amazing Grace (Hymn)"), ("sections", Json.arr []),
     ("tags", Json.str "hymn")] "2024-03-01T00:00:00" sampleSong "Amazing Grace (Hymn)"
    rfl rfl (by decide) (by decide) (by decide)

/-
Claim C7: every raised error is a SanctifyError built by the constructor
of src/core/exceptions.py, carrying its module name and code, with the
message formatted as "[module] error_code: message".
-/

theorem addSong_errOf (songs : List Dict) (sd : Dict) (now : String) :
    errOf "SongModel" (addSong songs sd now) := by
  intro e he
  unfold addSong at he
  repeat' split at he
  all_goals
    first
      | exact Except.noConfusion he
      | (injection he with h2; subst h2; exact ⟨rfl, _, rfl⟩)

theorem finishUpdateSong_errOf (songs : List Dict) (old : String) (song sd : Dict)
    (now : String) : errOf "SongModel" (finishUpdateSong songs old song sd now) := by
  intro e he
  unfold finishUpdateSong at he
  split at he
  · exact Except.noConfusion he
  · injection he with h2
    subst h2
    exact ⟨rfl, _, rfl⟩

theorem updateSong_errOf (songs : List Dict) (old : String) (sd : Dict) (now : String) :
    errOf "SongModel" (updateSong songs old sd now) := by
  intro e he
  unfold updateSong at he
  repeat' split at he
  all_goals
    first
      | exact Except.noConfusion he
      | (injection he with h2; subst h2; exact ⟨rfl, _, rfl⟩)
      | exact finishUpdateSong_errOf _ _ _ _ _ e he

theorem deleteSong_errOf (songs : List Dict) (title : String) :
    errOf "SongModel" (deleteSong songs title) := by
  intro e he
  unfold deleteSong at he
  repeat' split at he
  all_goals
    first
      | exact Except.noConfusion he
      | (injection he with h2; subst h2; exact ⟨rfl, _, rfl⟩)

theorem duplicateSong_errOf (songs : List Dict) (title now : String) :
    errOf "SongModel" (duplicateSong songs title now) := by
  intro e he
  unfold duplicateSong at he
  repeat' split at he
  all_goals
    first
      | exact Except.noConfusion he
      | (injection he with h2; subst h2; exact ⟨rfl, _, rfl⟩)

theorem loadSongList_errOf (path : String) (items : List Json) :
    errOf "SongModel" (loadSongList path items) := by
  induction items with
  | nil => intro e he; exact Except.noConfusion he
  | cons it rest ih =>
    intro e he
    unfold loadSongList at he
    cases it with
    | obj d =>
      simp only at he
      split at he
      · cases hrec : loadSongList path rest with
        | ok tail => rw [hrec] at he; exact Except.noConfusion he
        | error e2 =>
          rw [hrec] at he
          injection he with h2
          subst h2
          exact ih e2 hrec
      · exact ih e he
    | null => injection he with h2; subst h2; exact ⟨rfl, _, rfl⟩
    | bool b => injection he with h2; subst h2; exact ⟨rfl, _, rfl⟩
    | int n => injection he with h2; subst h2; exact ⟨rfl, _, rfl⟩
    | str s2 => injection he with h2; subst h2; exact ⟨rfl, _, rfl⟩
    | arr xs => injection he with h2; subst h2; exact ⟨rfl, _, rfl⟩

theorem loadSongs_errOf (file : Json) (path : String) :
    errOf "SongModel" (loadSongs file path) := by
  intro e he
  unfold loadSongs at he
  cases file with
  | arr items => exact loadSongList_errOf path items e he
  | null => injection he with h2; subst h2; exact ⟨rfl, _, rfl⟩
  | bool b => injection he with h2; subst h2; exact ⟨rfl, _, rfl⟩
  | int n => injection he with h2; subst h2; exact ⟨rfl, _, rfl⟩
  | str s2 => injection he with h2; subst h2; exact ⟨rfl, _, rfl⟩
  | obj fs => injection he with h2; subst h2; exact ⟨rfl, _, rfl⟩

theorem createTheme_errOf (themes : List Dict) (n c a fc bc : String) (fsz : Int)
    (ff tg tid n1 n2 : String) :
    errOf "ThemeModel" (createTheme themes n c a fc bc fsz ff tg tid n1 n2) := by
  intro e he
  unfold createTheme at he
  repeat' split at he
  all_goals
    first
      | exact Except.noConfusion he
      | (injection he with h2; subst h2; exact ⟨rfl, _, rfl⟩)

theorem updateTheme_errOf (themes : List Dict) (tid : String) (u : Dict) (now : String) :
    errOf "ThemeModel" (updateTheme themes tid u now) := by
  intro e he
  unfold updateTheme at he
  try simp only at he
  repeat' split at he
  all_goals
    first
      | exact Except.noConfusion he
      | (injection he with h2; subst h2; exact ⟨rfl, _, rfl⟩)

theorem duplicateTheme_errOf (themes : List Dict) (tid nid now : String) :
    errOf "ThemeModel" (duplicateTheme themes tid nid now) := by
  intro e he
  unfold duplicateTheme at he
  repeat' split at he
  all_goals
    first
      | exact Except.noConfusion he
      | (injection he with h2; subst h2; exact ⟨rfl, _, rfl⟩)

theorem createPres_errOf (ctx : Option (List String) × Option (List String)) (mdir : String)
    (ps : List Dict) (n th : String) (sl : List Json) (tg pid n1 n2 : String) :
    errOf "PresentationModel" (createPres ctx mdir ps n th sl tg pid n1 n2) := by
  intro e he
  unfold createPres at he
  repeat' split at he
  all_goals
    first
      | exact Except.noConfusion he
      | (injection he with h2; subst h2; exact ⟨rfl, _, rfl⟩)

theorem updatePres_errOf (ctx : Option (List String) × Option (List String)) (mdir : String)
    (ps : List Dict) (pid : String) (u : Dict) (now : String) :
    errOf "PresentationModel" (updatePres ctx mdir ps pid u now) := by
  intro e he
  unfold updatePres at he
  try simp only at he
  repeat' split at he
  all_goals
    first
      | exact Except.noConfusion he
      | (injection he with h2; subst h2; exact ⟨rfl, _, rfl⟩)

theorem duplicatePres_errOf (ps : List Dict) (pid nid now : String) :
    errOf "PresentationModel" (duplicatePres ps pid nid now) := by
  intro e he
  unfold duplicatePres at he
  repeat' split at he
  all_goals
    first
      | exact Except.noConfusion he
      | (injection he with h2; subst h2; exact ⟨rfl, _, rfl⟩)

theorem addMedia_errOf (mdir : String) (st : MediaState)
    (sp cat dn tg sc mid n1 n2 : String) :
    errOf "MediaModel" (addMedia mdir st sp cat dn tg sc mid n1 n2) := by
  intro e he
  unfold addMedia at he
  try simp only at he
  repeat' split at he
  all_goals
    first
      | exact Except.noConfusion he
      | (injection he with h2; subst h2; exact ⟨rfl, _, rfl⟩)

theorem updateMedia_errOf (mdir : String) (st : MediaState) (mid : String) (md : Dict)
    (now : String) : errOf "MediaModel" (updateMedia mdir st mid md now) := by
  intro e he
  unfold updateMedia at he
  try simp only at he
  repeat' split at he
  all_goals
    first
      | exact Except.noConfusion he
      | (injection he with h2; subst h2; exact ⟨rfl, _, rfl⟩)

theorem deleteMedia_errOf (mdir : String) (st : MediaState) (mid : String) :
    errOf "MediaModel" (deleteMedia mdir st mid) := by
  intro e he
  unfold deleteMedia at he
  try simp only at he
  repeat' split at he
  all_goals
    first
      | exact Except.noConfusion he
      | (injection he with h2; subst h2; exact ⟨rfl, _, rfl⟩)

theorem duplicateMedia_errOf (mdir : String) (st : MediaState) (mid nid n1 n2 : String) :
    errOf "MediaModel" (duplicateMedia mdir st mid nid n1 n2) := by
  intro e he
  unfold duplicateMedia at he
  try simp only at he
  repeat' split at he
  all_goals
    first
      | exact Except.noConfusion he
      | (injection he with h2; subst h2; exact ⟨rfl, _, rfl⟩)

theorem setLogo_errOf (st : MediaState) (mid : String) :
    errOf "MediaModel" (setLogo st mid) := by
  intro e he
  unfold setLogo at he
  try simp only at he
  repeat' split at he
  all_goals
    first
      | exact Except.noConfusion he
      | (injection he with h2; subst h2; exact ⟨rfl, _, rfl⟩)

theorem getVerses_errOf (bibles : List (String × Bible)) (bible_id book_name : String)
    (chapter_number : Int) :
    errOf "ScriptureModel" (getVerses bibles bible_id book_name chapter_number) := by
  intro e he
  unfold getVerses at he
  repeat' split at he
  all_goals
    first
      | exact Except.noConfusion he
      | (injection he with h2; subst h2; exact ⟨rfl, _, rfl⟩)

theorem deleteTheme_errOf (themes : List Dict) (tid : String) :
    errOf "ThemeModel" (deleteTheme themes tid) := by
  intro e he
  unfold deleteTheme at he
  repeat' split at he
  all_goals
    first
      | exact Except.noConfusion he
      | (injection he with h2; subst h2; exact ⟨rfl, _, rfl⟩)

theorem deletePres_errOf (ps : List Dict) (pid : String) :
    errOf "PresentationModel" (deletePres ps pid) := by
  intro e he
  unfold deletePres at he
  repeat' split at he
  all_goals
    first
      | exact Except.noConfusion he
      | (injection he with h2; subst h2; exact ⟨rfl, _, rfl⟩)

theorem loadThemeList_errOf (path : String) (items : List Json) :
    errOf "ThemeModel" (loadThemeList path items) := by
  induction items with
  | nil => intro e he; exact Except.noConfusion he
  | cons it rest ih =>
    intro e he
    unfold loadThemeList at he
    cases it with
    | obj d =>
      simp only at he
      split at he
      · cases hrec : loadThemeList path rest with
        | ok tail => rw [hrec] at he; exact Except.noConfusion he
        | error e2 =>
          rw [hrec] at he
          injection he with h2
          subst h2
          exact ih e2 hrec
      · exact ih e he
    | null => injection he with h2; subst h2; exact ⟨rfl, _, rfl⟩
    | bool b => injection he with h2; subst h2; exact ⟨rfl, _, rfl⟩
    | int n => injection he with h2; subst h2; exact ⟨rfl, _, rfl⟩
    | str s2 => injection he with h2; subst h2; exact ⟨rfl, _, rfl⟩
    | arr xs => injection he with h2; subst h2; exact ⟨rfl, _, rfl⟩

theorem loadThemes_errOf (file : Json) (path : String) :
    errOf "ThemeModel" (loadThemes file path) := by
  intro e he
  unfold loadThemes at he
  cases file with
  | arr items => exact loadThemeList_errOf path items e he
  | null => injection he with h2; subst h2; exact ⟨rfl, _, rfl⟩
  | bool b => injection he with h2; subst h2; exact ⟨rfl, _, rfl⟩
  | int n => injection he with h2; subst h2; exact ⟨rfl, _, rfl⟩
  | str s2 => injection he with h2; subst h2; exact ⟨rfl, _, rfl⟩
  | obj fs => injection he with h2; subst h2; exact ⟨rfl, _, rfl⟩

theorem loadPresList_errOf (ctx : Option (List String) × Option (List String))
    (mdir path : String) (items : List Json) :
    errOf "PresentationModel" (loadPresList ctx mdir path items) := by
  induction items with
  | nil => intro e he; exact Except.noConfusion he
  | cons it rest ih =>
    intro e he
    unfold loadPresList at he
    cases it with
    | obj d =>
      simp only at he
      split at he
      · cases hrec : loadPresList ctx mdir path rest with
        | ok tail => rw [hrec] at he; exact Except.noConfusion he
        | error e2 =>
          rw [hrec] at he
          injection he with h2
          subst h2
          exact ih e2 hrec
      · exact ih e he
    | null => injection he with h2; subst h2; exact ⟨rfl, _, rfl⟩
    | bool b => injection he with h2; subst h2; exact ⟨rfl, _, rfl⟩
    | int n => injection he with h2; subst h2; exact ⟨rfl, _, rfl⟩
    | str s2 => injection he with h2; subst h2; exact ⟨rfl, _, rfl⟩
    | arr xs => injection he with h2; subst h2; exact ⟨rfl, _, rfl⟩

theorem loadPresentations_errOf (ctx : Option (List String) × Option (List String))
    (mdir : String) (file : Json) (path : String) :
    errOf "PresentationModel" (loadPresentations ctx mdir file path) := by
  intro e he
  unfold loadPresentations at he
  cases file with
  | arr items => exact loadPresList_errOf ctx mdir path items e he
  | null => injection he with h2; subst h2; exact ⟨rfl, _, rfl⟩
  | bool b => injection he with h2; subst h2; exact ⟨rfl, _, rfl⟩
  | int n => injection he with h2; subst h2; exact ⟨rfl, _, rfl⟩
  | str s2 => injection he with h2; subst h2; exact ⟨rfl, _, rfl⟩
  | obj fs => injection he with h2; subst h2; exact ⟨rfl, _, rfl⟩

theorem loadMediaList_errOf (mdir : String) (fs : List String) (path : String)
    (items : List Json) : errOf "MediaModel" (loadMediaList mdir fs path items) := by
  induction items with
  | nil => intro e he; exact Except.noConfusion he
  | cons it rest ih =>
    intro e he
    unfold loadMediaList at he
    cases it with
    | obj d =>
      simp only at he
      split at he
      · cases hrec : loadMediaList mdir fs path rest with
        | ok tail => rw [hrec] at he; exact Except.noConfusion he
        | error e2 =>
          rw [hrec] at he
          injection he with h2
          subst h2
          exact ih e2 hrec
      · exact ih e he
    | null => injection he with h2; subst h2; exact ⟨rfl, _, rfl⟩
    | bool b => injection he with h2; subst h2; exact ⟨rfl, _, rfl⟩
    | int n => injection he with h2; subst h2; exact ⟨rfl, _, rfl⟩
    | str s2 => injection he with h2; subst h2; exact ⟨rfl, _, rfl⟩
    | arr xs => injection he with h2; subst h2; exact ⟨rfl, _, rfl⟩

theorem loadMedia_errOf (mdir : String) (fs : List String) (file : Json) (path : String) :
    errOf "MediaModel" (loadMedia mdir fs file path) := by
  intro e he
  unfold loadMedia at he
  cases file with
  | arr items => exact loadMediaList_errOf mdir fs path items e he
  | null => injection he with h2; subst h2; exact ⟨rfl, _, rfl⟩
  | bool b => injection he with h2; subst h2; exact ⟨rfl, _, rfl⟩
  | int n => injection he with h2; subst h2; exact ⟨rfl, _, rfl⟩
  | str s2 => injection he with h2; subst h2; exact ⟨rfl, _, rfl⟩
  | obj d => injection he with h2; subst h2; exact ⟨rfl, _, rfl⟩

theorem saveToFile_errOf (m msgPre path : String) (doc : Json) (ioError : Option String) :
    errOf m (saveToFile m msgPre path doc ioError) := by
  intro e he
  unfold saveToFile at he
  repeat' split at he
  all_goals
    first
      | exact Except.noConfusion he
      | (injection he with h2; subst h2; exact ⟨rfl, _, rfl⟩)

theorem saveSongsFile_errOf (songs : List Dict) (path : String) (ioError : Option String) :
    errOf "SongModel" (saveSongsFile songs path ioError) := by
  intro e he
  exact saveToFile_errOf "SongModel" "Error saving songs to " path (saveSongs songs) ioError e he

theorem saveThemes_errOf (themes : List Dict) (path : String) (ioError : Option String) :
    errOf "ThemeModel" (saveThemes themes path ioError) := by
  intro e he
  exact saveToFile_errOf "ThemeModel" "Error saving themes to " path
    (Json.arr (themes.map Json.obj)) ioError e he

theorem savePresentations_errOf (ps : List Dict) (path : String) (ioError : Option String) :
    errOf "PresentationModel" (savePresentations ps path ioError) := by
  intro e he
  exact saveToFile_errOf "PresentationModel" "Error saving presentations to " path
    (Json.arr (ps.map Json.obj)) ioError e he

theorem saveMedia_errOf (media : List Dict) (path : String) (ioError : Option String) :
    errOf "MediaModel" (saveMedia media path ioError) := by
  intro e he
  exact saveToFile_errOf "MediaModel" "Error saving media to " path
    (Json.arr (media.map Json.obj)) ioError e he

theorem saveSettings_errOf (settings : Dict) (path : String) (ioError : Option String) :
    errOf "SettingsManager" (saveSettings settings path ioError) := by
  intro e he
  exact saveToFile_errOf "SettingsManager" "Error saving settings to " path
    (Json.obj settings) ioError e he

theorem scanRecords_errOf (m : String) (f : Dict → Except SanctifyError (Option Dict))
    (hf : ∀ x, errOf m (f x)) : ∀ l, errOf m (scanRecords f l) := by
  intro l
  induction l with
  | nil => intro e he; exact Except.noConfusion he
  | cons x rest ih =>
    intro e he
    unfold scanRecords at he
    cases hx : f x with
    | error e2 =>
      rw [hx] at he
      try simp only at he
      injection he with h2
      subst h2
      exact hf x e2 hx
    | ok o =>
      rw [hx] at he
      try simp only at he
      cases o with
      | none => exact ih e he
      | some y =>
        try simp only at he
        cases hrec : scanRecords f rest with
        | error e2 =>
          rw [hrec] at he
          injection he with h2
          subst h2
          exact ih e2 hrec
        | ok tail => rw [hrec] at he; exact Except.noConfusion he

theorem nameTagRecord_errOf (m q tag msgPre : String) (d : Dict) :
    errOf m (nameTagRecord m q tag msgPre d) := by
  intro e he
  unfold nameTagRecord at he
  repeat' split at he
  all_goals
    first
      | exact Except.noConfusion he
      | (injection he with h2; subst h2; exact ⟨rfl, _, rfl⟩)

theorem searchThemesRecord_errOf (q context tag : String) (t : Dict) :
    errOf "ThemeModel" (searchThemesRecord q context tag t) := by
  intro e he
  unfold searchThemesRecord at he
  repeat' split at he
  all_goals
    first
      | exact Except.noConfusion he
      | (injection he with h2; subst h2; exact ⟨rfl, _, rfl⟩)
      | exact nameTagRecord_errOf _ _ _ _ _ _ he

theorem searchMediaRecord_errOf (q category tag : String) (m : Dict) :
    errOf "MediaModel" (searchMediaRecord q category tag m) := by
  intro e he
  unfold searchMediaRecord at he
  repeat' split at he
  all_goals
    first
      | exact Except.noConfusion he
      | (injection he with h2; subst h2; exact ⟨rfl, _, rfl⟩)
      | exact nameTagRecord_errOf _ _ _ _ _ _ he

theorem searchThemes_errOf (themes : List Dict) (query context tag : String) :
    errOf "ThemeModel" (searchThemes themes query context tag) := by
  intro e he
  unfold searchThemes at he
  cases hs : scanRecords
      (searchThemesRecord (pyStrip (low query)) context (pyStrip (low tag))) themes with
  | error e2 =>
    rw [hs] at he
    try simp only at he
    injection he with h2
    subst h2
    exact scanRecords_errOf "ThemeModel" _
      (fun x => searchThemesRecord_errOf (pyStrip (low query)) context (pyStrip (low tag)) x)
      themes e2 hs
  | ok rs =>
    rw [hs] at he
    try simp only at he
    exact Except.noConfusion he

theorem searchMedia_errOf (media : List Dict) (query category tag : String) :
    errOf "MediaModel" (searchMedia media query category tag) := by
  intro e he
  unfold searchMedia at he
  cases hs : scanRecords
      (searchMediaRecord (pyStrip (low query)) category (pyStrip (low tag))) media with
  | error e2 =>
    rw [hs] at he
    try simp only at he
    injection he with h2
    subst h2
    exact scanRecords_errOf "MediaModel" _
      (fun x => searchMediaRecord_errOf (pyStrip (low query)) category (pyStrip (low tag)) x)
      media e2 hs
  | ok rs =>
    rw [hs] at he
    try simp only at he
    exact Except.noConfusion he

theorem searchPresentations_errOf (ps : List Dict) (query tag : String) :
    errOf "PresentationModel" (searchPresentations ps query tag) := by
  intro e he
  unfold searchPresentations at he
  cases hs : scanRecords
      (nameTagRecord "PresentationModel" (pyStrip (low query)) (pyStrip (low tag))
        ("Error searching presentations with query " ++ pyStrip (low query))) ps with
  | error e2 =>
    rw [hs] at he
    try simp only at he
    injection he with h2
    subst h2
    exact scanRecords_errOf "PresentationModel" _
      (fun x => nameTagRecord_errOf "PresentationModel" (pyStrip (low query))
        (pyStrip (low tag)) ("Error searching presentations with query " ++ pyStrip (low query)) x)
      ps e2 hs
  | ok rs =>
    rw [hs] at he
    try simp only at he
    exact Except.noConfusion he

theorem lyricsItemMatch_errOf (q : String) (j : Json) :
    errOf "SongModel" (lyricsItemMatch q j) := by
  intro e he
  unfold lyricsItemMatch at he
  repeat' split at he
  all_goals
    first
      | exact Except.noConfusion he
      | (injection he with h2; subst h2; exact ⟨rfl, _, rfl⟩)

theorem lyricsAny_errOf (q : String) (l : List Json) :
    errOf "SongModel" (lyricsAny q l) := by
  induction l with
  | nil => intro e he; exact Except.noConfusion he
  | cons x rest ih =>
    intro e he
    unfold lyricsAny at he
    cases hx : lyricsItemMatch q x with
    | error e2 =>
      rw [hx] at he
      try simp only at he
      injection he with h2
      subst h2
      exact lyricsItemMatch_errOf q x e2 hx
    | ok b =>
      rw [hx] at he
      try simp only at he
      cases b with
      | true => try simp only at he; exact Except.noConfusion he
      | false => exact ih e he

theorem sectionsIter_errOf (q : String) (j : Json) :
    errOf "SongModel" (sectionsIter q j) := by
  intro e he
  unfold sectionsIter at he
  cases j with
  | arr xs => exact lyricsAny_errOf q xs e he
  | str s =>
    try simp only at he
    split at he
    · exact Except.noConfusion he
    · injection he with h2; subst h2; exact ⟨rfl, _, rfl⟩
  | obj d => exact lyricsAny_errOf q _ e he
  | null => injection he with h2; subst h2; exact ⟨rfl, _, rfl⟩
  | bool b => injection he with h2; subst h2; exact ⟨rfl, _, rfl⟩
  | int n => injection he with h2; subst h2; exact ⟨rfl, _, rfl⟩

theorem songMatchesQuery_errOf (q mode : String) (s : Dict) :
    errOf "SongModel" (songMatchesQuery q mode s) := by
  intro e he
  unfold songMatchesQuery at he
  repeat' split at he
  all_goals
    first
      | exact Except.noConfusion he
      | (injection he with h2; subst h2; exact ⟨rfl, _, rfl⟩)
      | exact sectionsIter_errOf _ _ _ he

theorem songMatchesTag_errOf (q tag : String) (s : Dict) :
    errOf "SongModel" (songMatchesTag q tag s) := by
  intro e he
  unfold songMatchesTag at he
  repeat' split at he
  all_goals
    first
      | exact Except.noConfusion he
      | (injection he with h2; subst h2; exact ⟨rfl, _, rfl⟩)

theorem searchSongsRecord_errOf (q tag mode : String) (s : Dict) :
    errOf "SongModel" (searchSongsRecord q tag mode s) := by
  intro e he
  unfold searchSongsRecord at he
  cases h1 : songMatchesQuery q mode s with
  | error e2 =>
    rw [h1] at he
    try simp only at he
    injection he with h2
    subst h2
    exact songMatchesQuery_errOf q mode s e2 h1
  | ok mq =>
    rw [h1] at he
    try simp only at he
    cases h2 : songMatchesTag q tag s with
    | error e2 =>
      rw [h2] at he
      try simp only at he
      injection he with h3
      subst h3
      exact songMatchesTag_errOf q tag s e2 h2
    | ok mt =>
      rw [h2] at he
      try simp only at he
      exact Except.noConfusion he

theorem searchSongs_errOf (songs : List Dict) (query mode tag : String) :
    errOf "SongModel" (searchSongs songs query mode tag) := by
  intro e he
  unfold searchSongs at he
  cases hs : scanRecords
      (searchSongsRecord (pyStrip (low query)) (pyStrip (low tag)) mode) songs with
  | error e2 =>
    rw [hs] at he
    try simp only at he
    injection he with h2
    subst h2
    exact scanRecords_errOf "SongModel" _
      (fun x => searchSongsRecord_errOf (pyStrip (low query)) (pyStrip (low tag)) mode x)
      songs e2 hs
  | ok rs =>
    rw [hs] at he
    try simp only at he
    split at he
    · exact Except.noConfusion he
    · injection he with h2; subst h2; exact ⟨rfl, _, rfl⟩

theorem searchVerses_errOf (bibles : List (String × Bible)) (bible_id query : String) :
    errOf "ScriptureModel" (searchVerses bibles bible_id query) := by
  intro e he
  unfold searchVerses at he
  repeat' split at he
  all_goals
    first
      | exact Except.noConfusion he
      | (injection he with h2; subst h2; exact ⟨rfl, _, rfl⟩)

theorem addBible_errOf (bibles : List (String × Json)) (bible_data : Json)
    (bible_id : String) : errOf "ScriptureModel" (addBible bibles bible_data bible_id) := by
  intro e he
  unfold addBible at he
  repeat' split at he
  all_goals
    first
      | exact Except.noConfusion he
      | (injection he with h2; subst h2; exact ⟨rfl, _, rfl⟩)

theorem deleteBible_errOf (bibles : List (String × Json)) (bible_id : String) :
    errOf "ScriptureModel" (deleteBible bibles bible_id) := by
  intro e he
  unfold deleteBible at he
  repeat' split at he
  all_goals
    first
      | exact Except.noConfusion he
      | (injection he with h2; subst h2; exact ⟨rfl, _, rfl⟩)

theorem validateSettings_errOf (defaults settings : Dict) :
    errOf "SettingsManager" (validateSettings defaults settings) := by
  intro e he
  unfold validateSettings at he
  repeat' split at he
  all_goals
    first
      | exact Except.noConfusion he
      | (injection he with h2; subst h2; exact ⟨rfl, _, rfl⟩)

theorem loadSettings_errOf (defaults : Dict) (cfgPath : String) (fileExists : Bool)
    (parsed : Option Json) :
    errOf "SettingsManager" (loadSettings defaults cfgPath fileExists parsed) := by
  intro e he
  unfold loadSettings at he
  repeat' split at he
  all_goals
    first
      | exact Except.noConfusion he
      | (injection he with h2; subst h2; exact ⟨rfl, _, rfl⟩)

theorem getSettingFallback_errOf (defaults : Dict) (sect key : String)
    (default : Option Json) :
    errOf "SettingsManager" (getSettingFallback defaults sect key default) := by
  intro e he
  unfold getSettingFallback at he
  repeat' split at he
  all_goals
    first
      | exact Except.noConfusion he
      | (injection he with h2; subst h2; exact ⟨rfl, _, rfl⟩)

theorem getSetting_errOf (defaults settings : Dict) (sect key : String)
    (default : Option Json) :
    errOf "SettingsManager" (getSetting defaults settings sect key default) := by
  intro e he
  unfold getSetting at he
  repeat' split at he
  all_goals
    first
      | exact Except.noConfusion he
      | (injection he with h2; subst h2; exact ⟨rfl, _, rfl⟩)
      | exact getSettingFallback_errOf _ _ _ _ _ he

theorem setSetting_errOf (settings : Dict) (sect key : String) (value : Json) :
    errOf "SettingsManager" (setSetting settings sect key value) := by
  intro e he
  unfold setSetting at he
  repeat' split at he
  all_goals
    first
      | exact Except.noConfusion he
      | (injection he with h2; subst h2; exact ⟨rfl, _, rfl⟩)

theorem resetSettings_errOf (defaults : Dict) (ioError : Option String) :
    errOf "SettingsManager" (resetSettings defaults ioError) := by
  intro e he
  unfold resetSettings at he
  repeat' split at he
  all_goals
    first
      | exact Except.noConfusion he
      | (injection he with h2; subst h2; exact ⟨rfl, _, rfl⟩)

theorem exportSettings_errOf (settings : Dict) (file_path : String)
    (ioError : Option String) :
    errOf "SettingsManager" (exportSettings settings file_path ioError) := by
  intro e he
  unfold exportSettings at he
  repeat' split at he
  all_goals
    first
      | exact Except.noConfusion he
      | (injection he with h2; subst h2; exact ⟨rfl, _, rfl⟩)

theorem importSettings_errOf (defaults : Dict) (file_path : String) (parsed : Option Json) :
    errOf "SettingsManager" (importSettings defaults file_path parsed) := by
  intro e he
  unfold importSettings at he
  repeat' split at he
  all_goals
    first
      | exact Except.noConfusion he
      | (injection he with h2; subst h2; exact ⟨rfl, _, rfl⟩)

theorem validatePathsLoop_errOf (checks : String → String → Bool)
    (entries : List (String × Json)) :
    errOf "SettingsManager" (validatePathsLoop checks entries) := by
  induction entries with
  | nil => intro e he; exact Except.noConfusion he
  | cons kv rest ih =>
    obtain ⟨k, v⟩ := kv
    intro e he
    unfold validatePathsLoop at he
    cases v with
    | str p =>
      try simp only at he
      cases hrec : validatePathsLoop checks rest with
      | error e2 =>
        rw [hrec] at he
        try simp only at he
        injection he with h2
        subst h2
        exact ih e2 hrec
      | ok tail =>
        rw [hrec] at he
        try simp only at he
        exact Except.noConfusion he
    | null => injection he with h2; subst h2; exact ⟨rfl, _, rfl⟩
    | bool b => injection he with h2; subst h2; exact ⟨rfl, _, rfl⟩
    | int n => injection he with h2; subst h2; exact ⟨rfl, _, rfl⟩
    | arr xs => injection he with h2; subst h2; exact ⟨rfl, _, rfl⟩
    | obj d => injection he with h2; subst h2; exact ⟨rfl, _, rfl⟩

theorem validatePaths_errOf (defaults settings : Dict) (checks : String → String → Bool) :
    errOf "SettingsManager" (validatePaths defaults settings checks) := by
  intro e he
  unfold validatePaths at he
  repeat' split at he
  all_goals
    first
      | exact Except.noConfusion he
      | (injection he with h2; subst h2; exact ⟨rfl, _, rfl⟩)
      | (rename_i e2 heq2
         injection he with h2
         subst h2
         exact validatePathsLoop_errOf _ _ e2 heq2)

theorem getAllSettings_errOf (settings : Dict) :
    errOf "SettingsManager" (getAllSettings settings) := by
  intro e he
  exact Except.noConfusion he

theorem ensureDirectories_errOf (ioError : Option String) :
    errOf "SettingsManager" (ensureDirectories ioError) := by
  intro e he
  unfold ensureDirectories at he
  repeat' split at he
  all_goals
    first
      | exact Except.noConfusion he
      | (injection he with h2; subst h2; exact ⟨rfl, _, rfl⟩)

theorem initSettingsManager_errOf (defaults : Dict) (cfgPath : String)
    (dirError : Option String) (fileExists : Bool) (parsed : Option Json) :
    errOf "SettingsManager" (initSettingsManager defaults cfgPath dirError fileExists parsed) := by
  intro e he
  unfold initSettingsManager at he
  cases hd : ensureDirectories dirError with
  | error e2 =>
    rw [hd] at he
    try simp only at he
    injection he with h2
    subst h2
    exact ensureDirectories_errOf dirError e2 hd
  | ok u =>
    rw [hd] at he
    try simp only at he
    exact loadSettings_errOf defaults cfgPath fileExists parsed e he

/-- C7: every error raised by the embedded operations of the song, theme,
presentation, media, scripture and settings modules - add, update, delete,
duplicate, search, load and save, plus the remaining settings-manager
calls - is a SanctifyError built by the constructor of
src/core/exceptions.py, carrying the raising module's name and a short
code, and the stored message of every such value is formatted as
"[module] error_code: message". -/
theorem C7_single_error_type :
    (∀ songs sd now, errOf "SongModel" (addSong songs sd now)) ∧
    (∀ songs old sd now, errOf "SongModel" (updateSong songs old sd now)) ∧
    (∀ songs title, errOf "SongModel" (deleteSong songs title)) ∧
    (∀ songs title now, errOf "SongModel" (duplicateSong songs title now)) ∧
    (∀ songs query mode tag, errOf "SongModel" (searchSongs songs query mode tag)) ∧
    (∀ file path, errOf "SongModel" (loadSongs file path)) ∧
    (∀ songs path io, errOf "SongModel" (saveSongsFile songs path io)) ∧
    (∀ themes n c a fc bc fsz ff tg tid n1 n2,
      errOf "ThemeModel" (createTheme themes n c a fc bc fsz ff tg tid n1 n2)) ∧
    (∀ themes tid u now, errOf "ThemeModel" (updateTheme themes tid u now)) ∧
    (∀ themes tid, errOf "ThemeModel" (deleteTheme themes tid)) ∧
    (∀ themes tid nid now, errOf "ThemeModel" (duplicateTheme themes tid nid now)) ∧
    (∀ themes query context tag, errOf "ThemeModel" (searchThemes themes query context tag)) ∧
    (∀ file path, errOf "ThemeModel" (loadThemes file path)) ∧
    (∀ themes path io, errOf "ThemeModel" (saveThemes themes path io)) ∧
    (∀ ctx mdir ps n th sl tg pid n1 n2,
      errOf "PresentationModel" (createPres ctx mdir ps n th sl tg pid n1 n2)) ∧
    (∀ ctx mdir ps pid u now, errOf "PresentationModel" (updatePres ctx mdir ps pid u now)) ∧
    (∀ ps pid, errOf "PresentationModel" (deletePres ps pid)) ∧
    (∀ ps pid nid now, errOf "PresentationModel" (duplicatePres ps pid nid now)) ∧
    (∀ ps query tag, errOf "PresentationModel" (searchPresentations ps query tag)) ∧
    (∀ ctx mdir file path, errOf "PresentationModel" (loadPresentations ctx mdir file path)) ∧
    (∀ ps path io, errOf "PresentationModel" (savePresentations ps path io)) ∧
    (∀ mdir st sp cat dn tg sc mid n1 n2,
      errOf "MediaModel" (addMedia mdir st sp cat dn tg sc mid n1 n2)) ∧
    (∀ mdir st mid md now, errOf "MediaModel" (updateMedia mdir st mid md now)) ∧
    (∀ mdir st mid, errOf "MediaModel" (deleteMedia mdir st mid)) ∧
    (∀ mdir st mid nid n1 n2, errOf "MediaModel" (duplicateMedia mdir st mid nid n1 n2)) ∧
    (∀ st mid, errOf "MediaModel" (setLogo st mid)) ∧
    (∀ media query cat tag, errOf "MediaModel" (searchMedia media query cat tag)) ∧
    (∀ mdir fs file path, errOf "MediaModel" (loadMedia mdir fs file path)) ∧
    (∀ media path io, errOf "MediaModel" (saveMedia media path io)) ∧
    (∀ bibles bid bname ch, errOf "ScriptureModel" (getVerses bibles bid bname ch)) ∧
    (∀ bibles bid query, errOf "ScriptureModel" (searchVerses bibles bid query)) ∧
    (∀ bibles bd bid, errOf "ScriptureModel" (addBible bibles bd bid)) ∧
    (∀ bibles bid, errOf "ScriptureModel" (deleteBible bibles bid)) ∧
    (∀ d cfg ex parsed, errOf "SettingsManager" (loadSettings d cfg ex parsed)) ∧
    (∀ s path io, errOf "SettingsManager" (saveSettings s path io)) ∧
    (∀ d s, errOf "SettingsManager" (validateSettings d s)) ∧
    (∀ d s sect key dflt, errOf "SettingsManager" (getSetting d s sect key dflt)) ∧
    (∀ s sect key v, errOf "SettingsManager" (setSetting s sect key v)) ∧
    (∀ d io, errOf "SettingsManager" (resetSettings d io)) ∧
    (∀ s fp io, errOf "SettingsManager" (exportSettings s fp io)) ∧
    (∀ d fp parsed, errOf "SettingsManager" (importSettings d fp parsed)) ∧
    (∀ d s checks, errOf "SettingsManager" (validatePaths d s checks)) ∧
    (∀ s, errOf "SettingsManager" (getAllSettings s)) ∧
    (∀ io, errOf "SettingsManager" (ensureDirectories io)) ∧
    (∀ d cfg dio ex parsed,
      errOf "SettingsManager" (initSettingsManager d cfg dio ex parsed)) ∧
    (∀ m c raw, (mkSanctifyError m c raw).module = m ∧
      (mkSanctifyError m c raw).error_code = c ∧
      (mkSanctifyError m c raw).message = "[" ++ m ++ "] " ++ c ++ ": " ++ raw) :=
  ⟨addSong_errOf, updateSong_errOf, deleteSong_errOf, duplicateSong_errOf,
   searchSongs_errOf, loadSongs_errOf, saveSongsFile_errOf,
   createTheme_errOf, updateTheme_errOf, deleteTheme_errOf, duplicateTheme_errOf,
   searchThemes_errOf, loadThemes_errOf, saveThemes_errOf,
   createPres_errOf, updatePres_errOf, deletePres_errOf, duplicatePres_errOf,
   searchPresentations_errOf, loadPresentations_errOf, savePresentations_errOf,
   addMedia_errOf, updateMedia_errOf, deleteMedia_errOf, duplicateMedia_errOf,
   setLogo_errOf, searchMedia_errOf, loadMedia_errOf, saveMedia_errOf,
   getVerses_errOf, searchVerses_errOf, addBible_errOf, deleteBible_errOf,
   loadSettings_errOf, saveSettings_errOf, validateSettings_errOf, getSetting_errOf,
   setSetting_errOf, resetSettings_errOf, exportSettings_errOf, importSettings_errOf,
   validatePaths_errOf, getAllSettings_errOf, ensureDirectories_errOf,
   initSettingsManager_errOf, fun _ _ _ => ⟨rfl, rfl, rfl⟩⟩

/-- Witness for C7: the concrete error of add_song on an empty title. -/
theorem C7_witness :
    addSong [] [] "t0" = Except.error (mkSanctifyError "SongModel" "ADD_001"
      "Cannot add song: title is empty") ∧
    (mkSanctifyError "SongModel" "ADD_001" "Cannot add song: title is empty").module =
      "SongModel" ∧
    ∃ raw, mkSanctifyError "SongModel" "ADD_001" "Cannot add song: title is empty" =
      mkSanctifyError "SongModel"
        (mkSanctifyError "SongModel" "ADD_001" "Cannot add song: title is empty").error_code
        raw := by
  refine ⟨rfl, ?_⟩
  exact C7_single_error_type.1 [] [] "t0"
    (mkSanctifyError "SongModel" "ADD_001" "Cannot add song: title is empty") rfl

/-
Claim C8: the recursive default merge of the settings manager.
-/

theorem mergeSettingsOne_eq (d : Dict) (k : String) (v : Json) :
    mergeSettingsOne d k v = dset d k (mergeVal (dget d k) v) := by
  unfold mergeSettingsOne mergeVal
  cases hg : dget d k with
  | none => cases v <;> rfl
  | some w => cases w <;> cases v <;> rfl

theorem mergeSettings_nil (d : Dict) : mergeSettings d [] = d := by
  rw [mergeSettings]

theorem mergeSettings_cons (d : Dict) (k : String) (v : Json) (rest : Dict) :
    mergeSettings d ((k, v) :: rest) = mergeSettings (mergeSettingsOne d k v) rest := by
  conv_lhs => rw [mergeSettings]

theorem dget_mergeSettings_not_mem (l : Dict) (d : Dict) (k : String)
    (h : k ∉ l.map Prod.fst) :
    dget (mergeSettings d l) k = dget d k := by
  induction l generalizing d with
  | nil => rw [mergeSettings_nil]
  | cons kv rest ih =>
    obtain ⟨k0, v0⟩ := kv
    simp only [List.map_cons, List.mem_cons] at h
    push_neg at h
    obtain ⟨h1, h2⟩ := h
    rw [mergeSettings_cons, ih _ h2, mergeSettingsOne_eq]
    exact dget_dset_ne _ _ _ _ h1

theorem hasKey_mergeSettingsOne (d : Dict) (k0 : String) (v0 : Json) (k : String)
    (h : hasKey d k = true) : hasKey (mergeSettingsOne d k0 v0) k = true := by
  rw [mergeSettingsOne_eq]
  unfold hasKey at h ⊢
  rw [dget_dset]
  split
  · rfl
  · exact h

theorem hasKey_mergeSettings_left (l : Dict) (d : Dict) (k : String)
    (h : hasKey d k = true) : hasKey (mergeSettings d l) k = true := by
  induction l generalizing d with
  | nil => rw [mergeSettings_nil]; exact h
  | cons kv rest ih =>
    obtain ⟨k0, v0⟩ := kv
    rw [mergeSettings_cons]
    exact ih _ (hasKey_mergeSettingsOne d k0 v0 k h)

theorem hasKey_mergeSettings_right (l : Dict) (d : Dict) (k : String)
    (h : k ∈ l.map Prod.fst) : hasKey (mergeSettings d l) k = true := by
  induction l generalizing d with
  | nil => exact absurd h (List.not_mem_nil k)
  | cons kv rest ih =>
    obtain ⟨k0, v0⟩ := kv
    rw [mergeSettings_cons]
    simp only [List.map_cons, List.mem_cons] at h
    rcases h with h1 | h1
    · apply hasKey_mergeSettings_left
      rw [mergeSettingsOne_eq]
      unfold hasKey
      rw [h1, dget_dset_self]
      rfl
    · exact ih _ h1

theorem dget_mergeSettings_mem (l : Dict) (d : Dict) (k : String) (v : Json)
    (hnodup : dictKeysNodup l) (hmem : (k, v) ∈ l) :
    dget (mergeSettings d l) k = some (mergeVal (dget d k) v) := by
  induction l generalizing d with
  | nil => exact absurd hmem (List.not_mem_nil _)
  | cons kv rest ih =>
    obtain ⟨k0, v0⟩ := kv
    unfold dictKeysNodup at hnodup
    simp only [List.map_cons, List.nodup_cons] at hnodup
    obtain ⟨hnot, hrest⟩ := hnodup
    rw [mergeSettings_cons]
    rcases List.mem_cons.mp hmem with h1 | h1
    · cases h1
      rw [dget_mergeSettings_not_mem rest _ k hnot, mergeSettingsOne_eq, dget_dset_self]
    · have hne : k ≠ k0 := by
        intro hcon
        subst hcon
        exact hnot (List.mem_map_of_mem _ h1)
      rw [ih _ hrest h1, mergeSettingsOne_eq, dget_dset_ne _ _ _ _ hne]

/-- C8: for every defaults dictionary and every loaded dictionary (with the
duplicate-free keys a Python dict guarantees), _merge_settings keeps every key
of defaults in the result; for each key/value pair of loaded the result maps
the key to the loaded value, except that when both the existing default and
the loaded value are dictionaries they are merged recursively by the same
rule (mergeVal); keys present only in loaded are also in the result; and keys
absent from loaded keep their default binding. -/
theorem C8_merge_settings (defaults loaded : Dict) (hnodup : dictKeysNodup loaded) :
    (∀ k, hasKey defaults k = true → hasKey (mergeSettings defaults loaded) k = true) ∧
    (∀ k v, (k, v) ∈ loaded →
      dget (mergeSettings defaults loaded) k = some (mergeVal (dget defaults k) v)) ∧
    (∀ k, k ∈ loaded.map Prod.fst → hasKey (mergeSettings defaults loaded) k = true) ∧
    (∀ k, k ∉ loaded.map Prod.fst →
      dget (mergeSettings defaults loaded) k = dget defaults k) :=
  ⟨fun k h => hasKey_mergeSettings_left loaded defaults k h,
   fun k v hm => dget_mergeSettings_mem loaded defaults k v hnodup hm,
   fun k h => hasKey_mergeSettings_right loaded defaults k h,
   fun k h => dget_mergeSettings_not_mem loaded defaults k h⟩

/-- Witness for C8: merging a concrete loaded dictionary into concrete
defaults keeps key a, recursively merges the nested dictionaries at key b,
and adds key c. -/
theorem C8_witness :
    dictKeysNodup sampleLoaded ∧
    hasKey (mergeSettings sampleDefaults sampleLoaded) "a" = true ∧
    dget (mergeSettings sampleDefaults sampleLoaded) "b" =
      some (Json.obj [("x", Json.int 9), ("y", Json.int 3)]) ∧
    hasKey (mergeSettings sampleDefaults sampleLoaded) "c" = true ∧
    dget (mergeSettings sampleDefaults sampleLoaded) "a" = some (Json.int 1) := by
  have hn : dictKeysNodup sampleLoaded := by unfold dictKeysNodup; decide
  obtain ⟨h1, h2, h3, h4⟩ := C8_merge_settings sampleDefaults sampleLoaded hn
  have e2 : mergeVal (dget sampleDefaults "b") (Json.obj [("x", Json.int 9)]) =
      Json.obj [("x", Json.int 9), ("y", Json.int 3)] := by
    rw [show mergeVal (dget sampleDefaults "b") (Json.obj [("x", Json.int 9)]) =
        Json.obj (mergeSettings [("x", Json.int 2), ("y", Json.int 3)]
          [("x", Json.int 9)]) from rfl,
      mergeSettings_cons, mergeSettings_nil, mergeSettingsOne_eq]
    rfl
  refine ⟨hn, h1 "a" rfl, ?_, h3 "c" (by decide), ?_⟩
  · rw [h2 "b" (Json.obj [("x", Json.int 9)]) (List.mem_cons_self _ _), e2]
  · rw [h4 "a" (by decide)]
    rfl

/-
Claim C9: get_verses on a loaded bible.
-/

/-- C9: for every loaded bible collection, get_verses looks the bible up by
id and the book up by case-insensitive name; when the bible id, the book
name, or the chapter number does not exist it raises SanctifyError with
code GET_VERSES_001, 002 or 003 respectively, and otherwise it returns the
verses of the matched chapter sorted ascending by verse number (a sorted
permutation of exactly that chapter of that book). -/
theorem C9_get_verses (bibles : List (String × Bible)) (bid bname : String) (ch : Int) :
    (getBible bibles bid = none →
      getVerses bibles bid bname ch = Except.error
        (mkSanctifyError "ScriptureModel" "GET_VERSES_001" ("Bible not found: " ++ bid))) ∧
    (∀ bible, getBible bibles bid = some bible →
      (bible.books.find? (fun b => low b.name == low bname) = none →
        getVerses bibles bid bname ch = Except.error
          (mkSanctifyError "ScriptureModel" "GET_VERSES_002" ("Book not found: " ++ bname))) ∧
      (∀ book, bible.books.find? (fun b => low b.name == low bname) = some book →
        (book.chapters.find? (fun c => c.chapter == ch) = none →
          getVerses bibles bid bname ch = Except.error
            (mkSanctifyError "ScriptureModel" "GET_VERSES_003"
              ("Chapter not found: " ++ toString ch))) ∧
        (∀ chapter, book.chapters.find? (fun c => c.chapter == ch) = some chapter →
          getVerses bibles bid bname ch = Except.ok (chapter.verses.insertionSort verseLE) ∧
          (chapter.verses.insertionSort verseLE).Perm chapter.verses ∧
          List.Sorted verseLE (chapter.verses.insertionSort verseLE)))) := by
  refine ⟨?_, fun bible hb => ⟨?_, fun book hbk => ⟨?_, fun chapter hc => ?_⟩⟩⟩
  · intro h
    simp only [getVerses, h]
  · intro h
    simp only [getVerses, hb, h]
  · intro h
    simp only [getVerses, hb, hbk, h]
  · refine ⟨?_, List.perm_insertionSort verseLE chapter.verses,
      List.sorted_insertionSort verseLE chapter.verses⟩
    simp only [getVerses, hb, hbk, hc]

/-- Witness for C9: on a concrete bible whose chapter stores verse 2 before
verse 1, get_verses finds the book case-insensitively and returns the verses
sorted ascending, and that returned list is sorted. -/
theorem C9_witness :
    getVerses sampleBibles "kjv" "GENESIS" 1 =
      Except.ok [(⟨1, "v1"⟩ : Verse), ⟨2, "v2"⟩] ∧
    List.Sorted verseLE [(⟨1, "v1"⟩ : Verse), ⟨2, "v2"⟩] := by
  have h := (C9_get_verses sampleBibles "kjv" "GENESIS" 1).2 sampleBible rfl
  have h2 := (h.2 ⟨"Genesis", [⟨1, [⟨2, "v2"⟩, ⟨1, "v1"⟩]⟩]⟩ rfl).2
    ⟨1, [⟨2, "v2"⟩, ⟨1, "v1"⟩]⟩ rfl
  refine ⟨?_, ?_⟩
  · rw [h2.1]
    rfl
  · exact h2.2.2
